import Mathlib

/-!
# transaction_demo: account usecase

A shallow embedding of the account usecase of the repository
(`app/usecase/account_usecase.go`) together with the packages it relies on
(`app/apperr`, `app/domain/entity`, `app/domain/repository`,
`app/usecase/dto`, `app/external/persist/postgres`, `cmd/shared/db`).

* Go's `float64` is embedded as `F64`, IEEE 754 binary64 with
  round-to-nearest-even; a finite value is kept as a sign and an exact
  magnitude counted in units of `2^-1074` (the smallest subnormal).
* Go's `error` interface is the type `GoError`; its nil value is `GoError.nil`.
* A pointer `*T` is an `Option T`; dereferencing `none` is a panic.
* Interfaces (`AccountRepository`, `TransactionRepository`, `trm.Manager`) are
  records of functions over an arbitrary world state `σ`.
* Every interface method the usecase invokes is recorded in a trace of `Call`s.
* The predefined errors of `apperr` are package variables holding pointers. The
  usecase is embedded over their values as constants and, in `usecase.withVars`,
  over a world state that holds the variables and the objects they point to
  (`apperr.Vars`); the two agree once the package is initialised.
* The `fmt.Println` log lines write to standard output only and are left out.
-/

namespace TransactionDemo

/-! ## float64 -/

/-- IEEE 754 binary64 value. `fin neg mag` is the finite value
`(-1)^neg * mag * 2^-1074`; it is a float64 when `mag` has at most 53
significant bits and `mag < 2^2098`. -/
inductive F64 where
  | nan : F64
  | inf (neg : Bool) : F64
  | fin (neg : Bool) (mag : Nat) : F64
  deriving DecidableEq, Repr

namespace F64

/-- Halve `n` until it is zero, counting the steps on top of `acc`. -/
def bitLenAux : Nat → Nat → Nat → Nat
  | 0, _, acc => acc
  | fuel + 1, n, acc => if n = 0 then acc else bitLenAux fuel (n / 2) (acc + 1)

/-- Number of bits of a natural number. -/
def bitLen (n : Nat) : Nat := bitLenAux n n 0

/-- The magnitude of `2^1024` in units of `2^-1074`: the least magnitude beyond
the finite float64 range. -/
def overflowThreshold : Nat := 2 ^ 2098

/-- Round the exact magnitude `n` (units of `2^-1074`) to the nearest float64,
ties to even; magnitudes that round to `2^1024` or more overflow to infinity. -/
def round (neg : Bool) (n : Nat) : F64 :=
  let k := bitLen n - 53
  let q := n / 2 ^ k
  let r := n % 2 ^ k
  let up := decide (2 ^ k < 2 * r) || (decide (2 * r = 2 ^ k) && decide (q % 2 = 1))
  let m := (if up then q + 1 else q) * 2 ^ k
  if m < overflowThreshold then fin neg m else inf neg

/-- Exact value of a finite float in units of `2^-1074` (0 for NaN and infinities). -/
def toInt : F64 → Int
  | fin neg mag => if neg then -(mag : Int) else (mag : Int)
  | _ => 0

/-- Sign bit of a value (false for NaN). -/
def signbit : F64 → Bool
  | nan => false
  | inf neg => neg
  | fin neg _ => neg

/-- Finite values: neither NaN nor an infinity. -/
def isFinite : F64 → Bool
  | fin _ _ => true
  | _ => false

/-- Go `x + y` on float64. -/
def add (x y : F64) : F64 :=
  match x, y with
  | nan, _ => nan
  | _, nan => nan
  | inf a, inf b => if a = b then inf a else nan
  | inf a, fin _ _ => inf a
  | fin _ _, inf b => inf b
  | fin a n, fin b m =>
    let v := toInt (fin a n) + toInt (fin b m)
    if v = 0 then fin (a && b) 0 else round (decide (v < 0)) v.natAbs

/-- Go unary minus on float64. -/
def negate : F64 → F64
  | nan => nan
  | inf a => inf (!a)
  | fin a n => fin (!a) n

/-- Go `x - y` on float64. -/
def sub (x y : F64) : F64 := add x (negate y)

/-- Go `x < y` on float64: false when either side is NaN. -/
def lt (x y : F64) : Bool :=
  match x, y with
  | nan, _ => false
  | _, nan => false
  | inf a, inf b => a && !b
  | inf a, fin _ _ => a
  | fin _ _, inf b => !b
  | fin a n, fin b m => decide (toInt (fin a n) < toInt (fin b m))

/-- Go `x <= y` on float64: false when either side is NaN. -/
def le (x y : F64) : Bool :=
  match x, y with
  | nan, _ => false
  | _, nan => false
  | inf a, inf b => a || !b
  | inf a, fin _ _ => a
  | fin _ _, inf b => !b
  | fin a n, fin b m => decide (toInt (fin a n) ≤ toInt (fin b m))

/-- Go `x == y` on float64: NaN equals nothing, `-0 == +0`. -/
def eq (x y : F64) : Bool :=
  match x, y with
  | nan, _ => false
  | _, nan => false
  | inf a, inf b => a == b
  | inf _, fin _ _ => false
  | fin _ _, inf _ => false
  | fin a n, fin b m => decide (toInt (fin a n) = toInt (fin b m))

/-- The value `r` is finite and stands for exactly `v` units of `2^-1074`: an
operation whose exact result is `v` returned `r` without rounding or overflow. -/
def isExactly (r : F64) (v : Int) : Bool := r.isFinite && decide (r.toInt = v)

/-- The float64 zero value `+0`. -/
def zero : F64 := fin false 0

/-- The float64 nearest to the natural number `n`. -/
def ofNat (n : Nat) : F64 := round false (n * 2 ^ 1074)

/-- The float64 nearest to `n / 2^k`, for `k ≤ 1074`. -/
def ofScaled (n k : Nat) : F64 := round false (n * 2 ^ (1074 - k))

end F64

/-! ## Go runtime -/

/-- Go `error` interface value. `nil` is the nil interface; `errorString` is a
value built by `errors.New`; `validationErrors` is the validator library's
`ValidationErrors`, one `(namespace, field, tag)` per rejected field;
`appError` is an `apperr.AppError` with its four fields. -/
inductive GoError where
  | nil : GoError
  | errorString (s : String) : GoError
  | validationErrors (fields : List (String × String × String)) : GoError
  | appError (Status : Int) (Code : String) (Message : String) (Err : GoError) : GoError
  deriving DecidableEq, Repr

/-- Result of running a Go function: it returns a value or it panics. -/
inductive Outcome (α : Type) where
  | ret (v : α) : Outcome α
  | panic (reason : String) : Outcome α
  deriving DecidableEq, Repr

/-- The runtime panic raised by dereferencing a nil pointer or calling a method
on a nil interface. -/
def nilDereference : String :=
  "runtime error: invalid memory address or nil pointer dereference"

/-! ## package apperr -/

namespace apperr

/-- Go `type ErrorType string`. -/
abbrev ErrorType := String

def ErrTypeBadRequest : ErrorType := "bad_request"
def ErrTypeNotFound : ErrorType := "not_found"
def ErrTypeAlreadyExists : ErrorType := "already_exists"
def ErrTypeInternalServer : ErrorType := "internal_server"

/-- The map `mapErrTypeStatus`: the HTTP status of each error type. -/
def mapErrTypeStatus (t : ErrorType) : Option Int :=
  if t = ErrTypeBadRequest then some 400
  else if t = ErrTypeNotFound then some 404
  else if t = ErrTypeAlreadyExists then some 409
  else if t = ErrTypeInternalServer then some 500
  else none

/-- Go `type AppError struct`. -/
structure AppError where
  Status : Int
  Code : String
  Message : String
  Err : GoError
  deriving DecidableEq, Repr

/-- Go `NewAppError`: the status of the type, 500 when the type is unknown. -/
def NewAppError (code : String) (errType : ErrorType) : AppError :=
  let statusCode := match mapErrTypeStatus errType with
    | some s => s
    | none => 500
  { Status := statusCode, Code := code, Message := "", Err := GoError.nil }

/-- Go `AppError.WithMessage`. -/
def AppError.WithMessage (e : AppError) (message : String) : AppError :=
  { e with Message := message }

/-- Go `AppError.WithError`. -/
def AppError.WithError (e : AppError) (err : GoError) : AppError :=
  { e with Err := err }

/-- An `AppError` held in an `error` interface. -/
def AppError.toError (e : AppError) : GoError :=
  GoError.appError e.Status e.Code e.Message e.Err

def ErrInvalidInput : AppError := NewAppError "INVALID_INPUT" ErrTypeBadRequest
def ErrInsufficientFunds : AppError := NewAppError "INSUFFICIENT_FUNDS" ErrTypeBadRequest
def ErrNotFound : AppError := NewAppError "NOT_FOUND" ErrTypeNotFound
def ErrAlreadyExists : AppError := NewAppError "ALREADY_EXISTS" ErrTypeAlreadyExists
def ErrResourceBusy : AppError := NewAppError "RESOURCE_BUSY" ErrTypeBadRequest
def ErrInternalServer : AppError := NewAppError "INTERNAL_SERVER_ERROR" ErrTypeInternalServer

end apperr

/-- Modelled from the spec: the validator library is not part of the sources.
Text of one rejected field as the library prints it. -/
def fieldErrorText (f : String × String × String) : String :=
  "Key: '" ++ f.1 ++ "' Error:Field validation for '" ++ f.2.1 ++ "' failed on the '" ++
    f.2.2 ++ "' tag"

/-- Go `err.Error()`. Calling it on a nil interface panics; `AppError.Error`
returns `e.Err.Error()`, so it panics when `Err` is nil. -/
def GoError.Error : GoError → Outcome String
  | GoError.nil => Outcome.panic nilDereference
  | GoError.errorString s => Outcome.ret s
  | GoError.validationErrors fields =>
    Outcome.ret (String.intercalate "\n" (fields.map fieldErrorText))
  | GoError.appError _ _ _ err => GoError.Error err

/-- Go `AppError.Error`: `return e.Err.Error()`. -/
def apperr.AppError.Error (e : apperr.AppError) : Outcome String :=
  GoError.Error e.Err

/-- HTTP status carried by an error: the `Status` of an `AppError`. -/
def GoError.status : GoError → Option Int
  | GoError.appError st _ _ _ => some st
  | _ => none

/-- The error is an `AppError` whose `Code` and `Message` are both non-empty. -/
def GoError.hasCodeAndMessage : GoError → Bool
  | GoError.appError _ code msg _ => decide (code ≠ "") && decide (msg ≠ "")
  | _ => false

/-! ## package entity -/

namespace entity

/-- Go `entity.Account`. `CreatedAt` is a timestamp. -/
structure Account where
  ID : Nat
  Balance : F64
  CreatedAt : Nat
  deriving DecidableEq, Repr

/-- The zero value `entity.Account{}`. -/
def Account.zero : Account := { ID := 0, Balance := F64.zero, CreatedAt := 0 }

/-- Go `entity.Transaction`. -/
structure Transaction where
  ID : Nat
  SourceAccountID : Nat
  DestinationAccountID : Nat
  Amount : F64
  TransactionTime : Nat
  SourceAccount : Account
  DestinationAccount : Account
  deriving DecidableEq, Repr

end entity

/-! ## package dto -/

namespace dto

/-- Modelled from the spec: the validator library is not part of the sources.
Tags `required,number,gt=0` on a `uint64` field: the first tag that rejects the
value, if any. A zero value fails `required`; `number` accepts every numeric
kind; `gt=0` holds for every non-zero unsigned value. -/
def checkUint (v : Nat) : Option String :=
  if v = 0 then some "required" else none

/-- Modelled from the spec: the validator library is not part of the sources.
Tags `required,number,gt=0` on a `float64` field: the zero value fails
`required`, any other value that is not `> 0` (negative, `-0`, NaN) fails `gt`. -/
def checkFloat (v : F64) : Option String :=
  if v = F64.zero then some "required"
  else if F64.lt F64.zero v then none
  else some "gt"

/-- Modelled from the spec: the validator library is not part of the sources.
`Struct` walks the fields in declaration order and collects one entry per
rejected field; it returns nil when none is rejected. -/
def validateStruct (name : String) (checks : List (String × Option String)) : GoError :=
  match checks.filterMap (fun c => c.2.map (fun tag => (name ++ "." ++ c.1, c.1, tag))) with
  | [] => GoError.nil
  | f :: fs => GoError.validationErrors (f :: fs)

/-- Go `dto.AccountDTO`. -/
structure AccountDTO where
  AccountID : Nat
  Balance : F64
  deriving DecidableEq, Repr

/-- The zero value `dto.AccountDTO{}`. -/
def AccountDTO.zero : AccountDTO := { AccountID := 0, Balance := F64.zero }

/-- Go `AccountDTO.Validate`. -/
def AccountDTO.Validate (a : AccountDTO) : GoError :=
  validateStruct "AccountDTO"
    [("AccountID", checkUint a.AccountID), ("Balance", checkFloat a.Balance)]

/-- Go `dto.TransactionDTO`. -/
structure TransactionDTO where
  SourceAccountID : Nat
  DestinationAccountID : Nat
  Amount : F64
  deriving DecidableEq, Repr

/-- Go `TransactionDTO.Validate`. -/
def TransactionDTO.Validate (t : TransactionDTO) : GoError :=
  validateStruct "TransactionDTO"
    [("SourceAccountID", checkUint t.SourceAccountID),
     ("DestinationAccountID", checkUint t.DestinationAccountID),
     ("Amount", checkFloat t.Amount)]

end dto

/-! ## package repository and the transaction manager -/

/-- One invocation of an interface method by the usecase. -/
inductive Call where
  | Do : Call
  | FindOne (id : Nat) : Call
  | FindForUpdate (ids : List Nat) : Call
  | AccountCreate (account : entity.Account) : Call
  | Update (account : entity.Account) : Call
  | TransactionCreate (transaction : entity.Transaction) : Call
  deriving DecidableEq, Repr

/-- A finished run of a usecase function from some world state: what it
returned (or that it panicked), the interface methods it invoked, in order, and
the world state it left. -/
structure Exec (σ α : Type) where
  out : Outcome α
  trace : List Call
  st : σ

/-- The accounts a trace passes to `AccountRepository.Update`, in call order. -/
def updates : List Call → List entity.Account
  | [] => []
  | Call.Update a :: rest => a :: updates rest
  | _ :: rest => updates rest

/-- The records a trace passes to `TransactionRepository.Create`, in call order. -/
def ledgerCreates : List Call → List entity.Transaction
  | [] => []
  | Call.TransactionCreate t :: rest => t :: ledgerCreates rest
  | _ :: rest => ledgerCreates rest

/-- The accounts a trace passes to `AccountRepository.Create`, in call order. -/
def accountCreates : List Call → List entity.Account
  | [] => []
  | Call.AccountCreate a :: rest => a :: accountCreates rest
  | _ :: rest => accountCreates rest

namespace repository

/-- Go interface `repository.AccountRepository` over a world state `σ`. A method
returning `(*T, error)` yields the pair of both results. -/
structure AccountRepository (σ : Type) where
  FindOne : Nat → σ → (Option entity.Account × GoError) × σ
  FindForUpdate : List Nat → σ → (List (Option entity.Account) × GoError) × σ
  Create : entity.Account → σ → (Option entity.Account × GoError) × σ
  Update : entity.Account → σ → GoError × σ

/-- Go interface `repository.TransactionRepository` over a world state `σ`. -/
structure TransactionRepository (σ : Type) where
  Create : entity.Transaction → σ → (Option entity.Transaction × GoError) × σ

end repository

namespace trm

/-- Go interface `trm.Manager` (method `Do`) over a world state `σ`: given the
unit of work, run from a world state. -/
structure Manager (σ : Type) where
  Do : (σ → Exec σ GoError) → σ → Exec σ GoError

end trm

namespace mock

/-- Go `mock.MockTxManager`. -/
structure MockTxManager where
  ShouldFail : Bool
  FailReason : String
  deriving DecidableEq, Repr

/-- Go `NewMockTxManager`. -/
def NewMockTxManager : MockTxManager := { ShouldFail := false, FailReason := "" }

/-- Go `NewMockTxManagerWithError`. -/
def NewMockTxManagerWithError (reason : String) : MockTxManager :=
  { ShouldFail := true, FailReason := reason }

/-- Go `MockTxManager.Do`. -/
def MockTxManager.Do {σ : Type} (m : MockTxManager) (fn : σ → Exec σ GoError) (w : σ) :
    Exec σ GoError :=
  if m.ShouldFail then
    { out := Outcome.ret (GoError.errorString m.FailReason), trace := [], st := w }
  else fn w

/-- A `MockTxManager` as a `trm.Manager`. -/
def MockTxManager.toManager {σ : Type} (m : MockTxManager) : trm.Manager σ :=
  { Do := m.Do }

end mock

namespace db

/-- Modelled from the spec: the transaction-manager library that `GetTxManager`
instantiates is not part of the sources. `Do` runs the unit of work inside a
store transaction: when the unit of work returns nil the transaction commits
(the state it left is kept); when it returns an error the transaction is rolled
back (the state before the call is restored) and the error is propagated
unchanged. A panic of the unit of work propagates to the caller. -/
def GetTxManager {σ : Type} : trm.Manager σ :=
  { Do := fun fn w =>
      let r := fn w
      match r.out with
      | Outcome.ret GoError.nil => r
      | Outcome.ret err => { out := Outcome.ret err, trace := r.trace, st := w }
      | Outcome.panic p => { out := Outcome.panic p, trace := r.trace, st := r.st } }

end db

/-! ## package postgres -/

namespace postgres

/-- Modelled from the spec: the relational store behind the repositories is not
part of the sources. Two relations, `accounts` keyed by ID and `transactions`
with an auto-incremented ID, and the clock the store stamps rows with. -/
structure Store where
  accounts : List entity.Account
  transactions : List entity.Transaction
  clock : Nat
  deriving DecidableEq, Repr

/-- The database handle `*gorm.DB` seen from a repository: for a statement issued
in a store state, the error the store reports (nil when the statement runs). -/
abbrev DB := Store → Call → GoError

/-- A database handle that never reports an error. -/
def healthy : DB := fun _ _ => GoError.nil

/-- The library error `gorm.ErrRecordNotFound`. -/
def ErrRecordNotFound : GoError := GoError.errorString "record not found"

/-- The error the store reports when an inserted primary key already exists. -/
def ErrDuplicatedKey : GoError :=
  GoError.errorString "duplicate key value violates unique constraint"

/-- Go `postgres.accountRepository`. -/
structure accountRepository where
  db : DB

/-- Go `accountRepository.FindOne`. -/
def accountRepository.FindOne (r : accountRepository) (id : Nat) (s : Store) :
    (Option entity.Account × GoError) × Store :=
  let found : entity.Account × GoError :=
    if r.db s (Call.FindOne id) ≠ GoError.nil then
      (entity.Account.zero, r.db s (Call.FindOne id))
    else
      match s.accounts.find? (fun a => decide (a.ID = id)) with
      | none => (entity.Account.zero, ErrRecordNotFound)
      | some a => (a, GoError.nil)
  if found.2 = ErrRecordNotFound then ((none, GoError.nil), s)
  else ((some found.1, found.2), s)

/-- Go `accountRepository.FindForUpdate`: the rows whose ID is among `ids`. -/
def accountRepository.FindForUpdate (r : accountRepository) (ids : List Nat) (s : Store) :
    (List (Option entity.Account) × GoError) × Store :=
  let found : List (Option entity.Account) × GoError :=
    if r.db s (Call.FindForUpdate ids) ≠ GoError.nil then
      ([], r.db s (Call.FindForUpdate ids))
    else
      ((s.accounts.filter (fun a => decide (a.ID ∈ ids))).map some, GoError.nil)
  if found.2 = ErrRecordNotFound then (([], GoError.nil), s)
  else (found, s)

/-- The row the store inserts for an account: `CreatedAt` left at its zero value
is stamped with the clock. -/
def stamped (account : entity.Account) (s : Store) : entity.Account :=
  if account.CreatedAt = 0 then { account with CreatedAt := s.clock } else account

/-- Go `accountRepository.Create`: an insert, refused when the ID is taken. -/
def accountRepository.Create (r : accountRepository) (account : entity.Account) (s : Store) :
    (Option entity.Account × GoError) × Store :=
  let err : GoError :=
    if r.db s (Call.AccountCreate account) ≠ GoError.nil then
      r.db s (Call.AccountCreate account)
    else if s.accounts.any (fun a => decide (a.ID = account.ID)) then ErrDuplicatedKey
    else GoError.nil
  if err ≠ GoError.nil then ((none, err), s)
  else
    ((some (stamped account s), GoError.nil),
      { s with accounts := s.accounts ++ [stamped account s] })

/-- Rows after saving `account`: the row with its ID is replaced. -/
def saveRow (account : entity.Account) : List entity.Account → List entity.Account
  | [] => []
  | a :: rest => (if a.ID = account.ID then account else a) :: saveRow account rest

/-- Go `accountRepository.Update` (`db.Save`): the row with the ID of `account`
takes its full state; when no such row exists the row is inserted. -/
def accountRepository.Update (r : accountRepository) (account : entity.Account) (s : Store) :
    GoError × Store :=
  if r.db s (Call.Update account) ≠ GoError.nil then (r.db s (Call.Update account), s)
  else if s.accounts.any (fun a => decide (a.ID = account.ID)) then
    (GoError.nil, { s with accounts := saveRow account s.accounts })
  else
    (GoError.nil, { s with accounts := s.accounts ++ [account] })

/-- Go `NewAccountRepository`. -/
def NewAccountRepository (db : DB) : repository.AccountRepository Store :=
  let r : accountRepository := { db := db }
  { FindOne := r.FindOne, FindForUpdate := r.FindForUpdate, Create := r.Create,
    Update := r.Update }

/-- Go `postgres.transactionRepository`. -/
structure transactionRepository where
  db : DB

/-- Go `transactionRepository.Create`: an insert; an ID left at zero is assigned
the next value of the sequence. -/
def transactionRepository.Create (r : transactionRepository)
    (transaction : entity.Transaction) (s : Store) :
    (Option entity.Transaction × GoError) × Store :=
  if r.db s (Call.TransactionCreate transaction) ≠ GoError.nil then
    ((none, r.db s (Call.TransactionCreate transaction)), s)
  else
    let row : entity.Transaction :=
      if transaction.ID = 0 then { transaction with ID := s.transactions.length + 1 }
      else transaction
    ((some row, GoError.nil), { s with transactions := s.transactions ++ [row] })

/-- Go `NewTransactionRepository`. -/
def NewTransactionRepository (db : DB) : repository.TransactionRepository Store :=
  let r : transactionRepository := { db := db }
  { Create := r.Create }

/-- Every stored account balance is `>= 0`. -/
def NonNegative (s : Store) : Prop :=
  ∀ a ∈ s.accounts, F64.le F64.zero a.Balance = true

instance (s : Store) : Decidable (NonNegative s) := by
  unfold NonNegative; infer_instance

end postgres

/-! ## package usecase -/

namespace usecase

open apperr

/-- Go `accountUsecase`; `now` is the clock read by `time.Now()`. -/
structure accountUsecase (σ : Type) where
  accountRepo : repository.AccountRepository σ
  transactionRepo : repository.TransactionRepository σ
  txManager : trm.Manager σ
  now : σ → Nat

variable {σ : Type}

/-- Go `accountUsecase.Create`. -/
def accountUsecase.Create (uc : accountUsecase σ) (account : dto.AccountDTO) (w : σ) :
    Exec σ (dto.AccountDTO × GoError) :=
  let err := account.Validate
  if err ≠ GoError.nil then
    { out := Outcome.ret (dto.AccountDTO.zero, (ErrInvalidInput.WithError err).toError),
      trace := [], st := w }
  else
    match uc.accountRepo.FindOne account.AccountID w with
    | ((existingAccount, err), w1) =>
      if err ≠ GoError.nil then
        { out := Outcome.ret (dto.AccountDTO.zero,
            (ErrNotFound.WithMessage "account not found").toError),
          trace := [Call.FindOne account.AccountID], st := w1 }
      else if existingAccount ≠ none then
        { out := Outcome.ret (dto.AccountDTO.zero,
            (ErrAlreadyExists.WithMessage "account ID already exists").toError),
          trace := [Call.FindOne account.AccountID], st := w1 }
      else
        let ent : entity.Account :=
          { ID := account.AccountID, Balance := account.Balance, CreatedAt := 0 }
        match uc.accountRepo.Create ent w1 with
        | ((createdAcc, err), w2) =>
          let tr := [Call.FindOne account.AccountID, Call.AccountCreate ent]
          if err ≠ GoError.nil then
            { out := Outcome.ret (dto.AccountDTO.zero,
                ((ErrInternalServer.WithError err).WithMessage
                  "failed to create account").toError),
              trace := tr, st := w2 }
          else
            match createdAcc with
            | none => { out := Outcome.panic nilDereference, trace := tr, st := w2 }
            | some c =>
              { out := Outcome.ret ({ AccountID := c.ID, Balance := c.Balance }, GoError.nil),
                trace := tr, st := w2 }

/-- Go `accountUsecase.GetBalance`. -/
def accountUsecase.GetBalance (uc : accountUsecase σ) (id : Nat) (w : σ) :
    Exec σ (dto.AccountDTO × GoError) :=
  match uc.accountRepo.FindOne id w with
  | ((account, err), w1) =>
    if err ≠ GoError.nil then
      { out := Outcome.ret (dto.AccountDTO.zero,
          (ErrNotFound.WithMessage "account not found").toError),
        trace := [Call.FindOne id], st := w1 }
    else
      match account with
      | none =>
        { out := Outcome.ret (dto.AccountDTO.zero,
            (ErrNotFound.WithMessage "account not found").toError),
          trace := [Call.FindOne id], st := w1 }
      | some a =>
        { out := Outcome.ret ({ AccountID := a.ID, Balance := a.Balance }, GoError.nil),
          trace := [Call.FindOne id], st := w1 }

/-- The loop of `retrieveAccounts` that maps the rows to their roles by ID: a
later row with the same ID replaces an earlier one; reading the ID of a nil row
panics. -/
def rangeAccounts (sourceAccID destAccID : Nat) :
    List (Option entity.Account) → Option entity.Account × Option entity.Account →
    Outcome (Option entity.Account × Option entity.Account)
  | [], roles => Outcome.ret roles
  | none :: _, _ => Outcome.panic nilDereference
  | some acc :: rest, (sourceAccount, destAccount) =>
    if acc.ID = sourceAccID then
      rangeAccounts sourceAccID destAccID rest (some acc, destAccount)
    else if acc.ID = destAccID then
      rangeAccounts sourceAccID destAccID rest (sourceAccount, some acc)
    else
      rangeAccounts sourceAccID destAccID rest (sourceAccount, destAccount)

/-- Go `accountUsecase.retrieveAccounts`. -/
def accountUsecase.retrieveAccounts (uc : accountUsecase σ) (sourceAccID destAccID : Nat)
    (w : σ) : Exec σ (Option entity.Account × Option entity.Account × GoError) :=
  match uc.accountRepo.FindForUpdate [sourceAccID, destAccID] w with
  | ((accounts, err), w1) =>
    let tr := [Call.FindForUpdate [sourceAccID, destAccID]]
    if err ≠ GoError.nil then
      { out := Outcome.ret (none, none,
          ((ErrInternalServer.WithError err).WithMessage
            "failed to find accounts for update").toError),
        trace := tr, st := w1 }
    else if accounts.length < 2 then
      { out := Outcome.ret (none, none,
          (ErrInternalServer.WithMessage "accounts not found for update").toError),
        trace := tr, st := w1 }
    else
      match rangeAccounts sourceAccID destAccID accounts (none, none) with
      | Outcome.panic p => { out := Outcome.panic p, trace := tr, st := w1 }
      | Outcome.ret (sourceAccount, destAccount) =>
        { out := Outcome.ret (sourceAccount, destAccount, GoError.nil), trace := tr, st := w1 }

/-- Go `accountUsecase.doTransaction`. -/
def accountUsecase.doTransaction (uc : accountUsecase σ)
    (sourceAccount destinationAccount : Option entity.Account) (amount : F64) (w : σ) :
    Exec σ GoError :=
  match sourceAccount with
  | none => { out := Outcome.panic nilDereference, trace := [], st := w }
  | some src =>
    let src1 : entity.Account := { src with Balance := F64.sub src.Balance amount }
    match destinationAccount with
    | none => { out := Outcome.panic nilDereference, trace := [], st := w }
    | some dst =>
      let dst1 : entity.Account := { dst with Balance := F64.add dst.Balance amount }
      let transaction : entity.Transaction :=
        { ID := 0, SourceAccountID := src1.ID, DestinationAccountID := dst1.ID,
          Amount := amount, TransactionTime := uc.now w,
          SourceAccount := entity.Account.zero, DestinationAccount := entity.Account.zero }
      match uc.transactionRepo.Create transaction w with
      | ((_, err), w1) =>
        if err ≠ GoError.nil then
          { out := Outcome.ret ((ErrInternalServer.WithError err).WithMessage
              "failed to create transaction").toError,
            trace := [Call.TransactionCreate transaction], st := w1 }
        else
          match uc.accountRepo.Update src1 w1 with
          | (err, w2) =>
            if err ≠ GoError.nil then
              { out := Outcome.ret ((ErrInternalServer.WithError err).WithMessage
                  "failed to update source account").toError,
                trace := [Call.TransactionCreate transaction, Call.Update src1], st := w2 }
            else
              match uc.accountRepo.Update dst1 w2 with
              | (err, w3) =>
                if err ≠ GoError.nil then
                  { out := Outcome.ret ((ErrInternalServer.WithError err).WithMessage
                      "failed to update destination account").toError,
                    trace := [Call.TransactionCreate transaction, Call.Update src1,
                      Call.Update dst1],
                    st := w3 }
                else
                  { out := Outcome.ret GoError.nil,
                    trace := [Call.TransactionCreate transaction, Call.Update src1,
                      Call.Update dst1],
                    st := w3 }

/-- The unit of work `MakeTransaction` hands to the transaction manager (the
closure passed to `txManager.Do`). -/
def accountUsecase.unitOfWork (uc : accountUsecase σ) (req : dto.TransactionDTO) (w : σ) :
    Exec σ GoError :=
  let r := uc.retrieveAccounts req.SourceAccountID req.DestinationAccountID w
  match r.out with
  | Outcome.panic p => { out := Outcome.panic p, trace := r.trace, st := r.st }
  | Outcome.ret (sourceAcc, destAcc, err) =>
    if err ≠ GoError.nil then { out := Outcome.ret err, trace := r.trace, st := r.st }
    else
      match sourceAcc with
      | none => { out := Outcome.panic nilDereference, trace := r.trace, st := r.st }
      | some src =>
        if F64.lt src.Balance req.Amount then
          { out := Outcome.ret (ErrInvalidInput.WithMessage "insufficient balance").toError,
            trace := r.trace, st := r.st }
        else
          let t := uc.doTransaction (some src) destAcc req.Amount r.st
          { out := t.out, trace := r.trace ++ t.trace, st := t.st }

/-- Go `accountUsecase.MakeTransaction`. -/
def accountUsecase.MakeTransaction (uc : accountUsecase σ) (req : dto.TransactionDTO) (w : σ) :
    Exec σ GoError :=
  let err := req.Validate
  if err ≠ GoError.nil then
    match err.Error with
    | Outcome.panic p => { out := Outcome.panic p, trace := [], st := w }
    | Outcome.ret msg =>
      { out := Outcome.ret ((ErrInvalidInput.WithError err).WithMessage msg).toError,
        trace := [], st := w }
  else if req.SourceAccountID = req.DestinationAccountID then
    { out := Outcome.ret (ErrInvalidInput.WithMessage
        "source and destination account IDs cannot be the same").toError,
      trace := [], st := w }
  else
    let r := uc.txManager.Do (uc.unitOfWork req) w
    { out := r.out, trace := Call.Do :: r.trace, st := r.st }

/-- Go `NewAccountUsecase`. -/
def NewAccountUsecase (accountRepo : repository.AccountRepository σ)
    (transactionRepo : repository.TransactionRepository σ) (txManager : trm.Manager σ)
    (now : σ → Nat) : accountUsecase σ :=
  { accountRepo := accountRepo, transactionRepo := transactionRepo, txManager := txManager,
    now := now }

/-- Go interface `usecase.AccountUC` over a world state `σ`. -/
structure AccountUC (σ : Type) where
  Create : dto.AccountDTO → σ → Exec σ (dto.AccountDTO × GoError)
  GetBalance : Nat → σ → Exec σ (dto.AccountDTO × GoError)
  MakeTransaction : dto.TransactionDTO → σ → Exec σ GoError

/-- An `accountUsecase` as an `AccountUC`. -/
def accountUsecase.toAccountUC (uc : accountUsecase σ) : AccountUC σ :=
  { Create := uc.Create, GetBalance := uc.GetBalance, MakeTransaction := uc.MakeTransaction }

end usecase

/-! ## package handler -/

namespace strconv

/-- Modelled from the spec: the Go standard library is not part of the sources.
The error `*strconv.NumError` of `ParseUint`, with the text it prints. -/
def numError (s reason : String) : GoError :=
  GoError.errorString ("strconv.ParseUint: parsing \"" ++ s ++ "\": " ++ reason)

/-- Modelled from the spec: the Go standard library is not part of the sources.
`strconv.ParseUint(s, 10, 64)`: a non-empty string of decimal digits (no sign,
no underscore) whose value fits 64 bits parses to that value; any other string
is a syntax error with value 0; a value beyond 64 bits is a range error with
the largest `uint64`. -/
def ParseUint (s : String) : Nat × GoError :=
  if s.data = [] then (0, numError s "invalid syntax")
  else if s.data.all Char.isDigit then
    let n := s.data.foldl (fun acc c => acc * 10 + (c.toNat - 48)) 0
    if n < 2 ^ 64 then (n, GoError.nil) else (2 ^ 64 - 1, numError s "value out of range")
  else (0, numError s "invalid syntax")

end strconv

namespace gin

/-- The payload of a JSON response. -/
inductive Body where
  | null : Body
  | account (a : dto.AccountDTO) : Body
  | appError (e : apperr.AppError) : Body
  deriving DecidableEq, Repr

/-- One response written by `ctx.JSON(status, data)`. -/
structure Response where
  status : Int
  body : Body
  deriving DecidableEq, Repr

/-- Go `*gin.Context` as the handlers use it: the path parameters and the body
of the request, and the responses written so far, in order. -/
structure Context where
  Params : List (String × String)
  Request : String
  Written : List Response
  deriving DecidableEq, Repr

/-- Go `ctx.Param(key)`: the value of the path parameter, empty when absent. -/
def Context.Param (ctx : Context) (key : String) : String :=
  match ctx.Params.find? (fun p => decide (p.1 = key)) with
  | some p => p.2
  | none => ""

/-- Go `ctx.JSON(status, data)`. -/
def Context.JSON (ctx : Context) (status : Int) (data : Body) : Context :=
  { ctx with Written := ctx.Written ++ [{ status := status, body := data }] }

end gin

namespace handler

open apperr

/-- A finished run of a handler: the context with the responses it wrote, the
panic it ended with (if any), the repository calls made on the way and the world
state it left. -/
structure Handled (σ : Type) where
  ctx : gin.Context
  panic : Option String
  trace : List Call
  st : σ

/-- Go `BaseHandler.RenderResponse`. -/
def RenderResponse (ctx : gin.Context) (status : Int) (data : gin.Body) : gin.Context :=
  ctx.JSON status data

/-- Go `BaseHandler.RenderError`: an error whose dynamic type is not `AppError`
is wrapped in a generic internal-server error. -/
def RenderError (ctx : gin.Context) (err : GoError) : gin.Context :=
  let appErr : AppError :=
    match err with
    | GoError.appError st code msg e => { Status := st, Code := code, Message := msg, Err := e }
    | other => (NewAppError "undefined_error" ErrTypeInternalServer).WithError other
  ctx.JSON appErr.Status (gin.Body.appError appErr)

/-- Go `handler.AccountHandler`. -/
structure AccountHandler (σ : Type) where
  accountUC : usecase.AccountUC σ

/-- Go `NewAccountHandler`. -/
def NewAccountHandler {σ : Type} (accountUC : usecase.AccountUC σ) : AccountHandler σ :=
  { accountUC := accountUC }

/-- Go `AccountHandler.GetAccountBalance`. The deferred function renders the
error when `err` is set and the result otherwise; it also runs when the usecase
panics, with `res` and `err` still at their zero values. -/
def AccountHandler.GetAccountBalance {σ : Type} (hdl : AccountHandler σ) (ctx : gin.Context)
    (w : σ) : Handled σ :=
  let accountIDStr := ctx.Param "account_id"
  match strconv.ParseUint accountIDStr with
  | (accountID, err) =>
    if err ≠ GoError.nil then
      { ctx := RenderError ctx
          ((ErrInvalidInput.WithError err).WithMessage "Invalid account ID format").toError,
        panic := none, trace := [], st := w }
    else if accountID ≤ 0 then
      { ctx := RenderError ctx
          (ErrInvalidInput.WithMessage "Account ID must be a positive integer").toError,
        panic := none, trace := [], st := w }
    else
      let r := hdl.accountUC.GetBalance accountID w
      match r.out with
      | Outcome.panic p =>
        { ctx := RenderResponse ctx 200 (gin.Body.account dto.AccountDTO.zero),
          panic := some p, trace := r.trace, st := r.st }
      | Outcome.ret (res, err) =>
        if err ≠ GoError.nil then
          { ctx := RenderError ctx err, panic := none, trace := r.trace, st := r.st }
        else
          { ctx := RenderResponse ctx 200 (gin.Body.account res), panic := none,
            trace := r.trace, st := r.st }

/-- The deferred function of `CreateAccount` and of the `MakeTransaction`
handler: it renders the error when the handler's variable `err` is set and the
201 response otherwise. -/
def deferredCreated (err : GoError) (ctx : gin.Context) : gin.Context :=
  if err ≠ GoError.nil then RenderError ctx err
  else RenderResponse ctx 201 gin.Body.null

/-- Go `AccountHandler.CreateAccount`. `decode` is the JSON decoding of the
request body done by `ctx.ShouldBindJSON(&req)`. The `err` declared by the `if`
statement of the bind check shadows the handler's variable `err`, which is thus
still nil when the deferred function runs after the early return. -/
def AccountHandler.CreateAccount {σ : Type} (hdl : AccountHandler σ)
    (decode : String → dto.AccountDTO × GoError) (ctx : gin.Context) (w : σ) : Handled σ :=
  match decode ctx.Request with
  | (req, bindErr) =>
    if bindErr ≠ GoError.nil then
      { ctx := deferredCreated GoError.nil
          (RenderError ctx (ErrInvalidInput.WithError bindErr).toError),
        panic := none, trace := [], st := w }
    else
      let r := hdl.accountUC.Create req w
      match r.out with
      | Outcome.panic p =>
        { ctx := deferredCreated GoError.nil ctx, panic := some p, trace := r.trace,
          st := r.st }
      | Outcome.ret (_, err) =>
        { ctx := deferredCreated err ctx, panic := none, trace := r.trace, st := r.st }

/-- Go `AccountHandler.MakeTransaction`. `decode` is the JSON decoding of the
request body done by `context.ShouldBindJSON(&req)`; here the bind error is
assigned to the handler's variable `err`. -/
def AccountHandler.MakeTransaction {σ : Type} (hdl : AccountHandler σ)
    (decode : String → dto.TransactionDTO × GoError) (ctx : gin.Context) (w : σ) :
    Handled σ :=
  match decode ctx.Request with
  | (req, bindErr) =>
    if bindErr ≠ GoError.nil then
      { ctx := deferredCreated
          ((ErrInvalidInput.WithError bindErr).WithMessage "Invalid request body").toError ctx,
        panic := none, trace := [], st := w }
    else
      let r := hdl.accountUC.MakeTransaction req w
      match r.out with
      | Outcome.panic p =>
        { ctx := deferredCreated GoError.nil ctx, panic := some p, trace := r.trace,
          st := r.st }
      | Outcome.ret err =>
        { ctx := deferredCreated err ctx, panic := none, trace := r.trace, st := r.st }

end handler

/-! ## package config -/

namespace config

/-- Go `config.Server`. -/
structure Server where
  Port : Nat
  deriving DecidableEq, Repr

/-- Go `config.Postgres`. -/
structure Postgres where
  Host : String
  User : String
  Password : String
  DB : String
  Port : String
  MaxOpenConns : Int
  MaxIdleConns : Int
  deriving DecidableEq, Repr

/-- Go `config.Config`. -/
structure Config where
  AppName : String
  Env : String
  Server : Server
  Postgres : Postgres
  deriving DecidableEq, Repr

/-- The zero value `Config{}`. -/
def Config.zero : Config :=
  { AppName := "", Env := "", Server := { Port := 0 },
    Postgres := { Host := "", User := "", Password := "", DB := "", Port := "",
                  MaxOpenConns := 0, MaxIdleConns := 0 } }

/-- Go `Postgres.Conn`. -/
def Postgres.Conn (p : Postgres) : String :=
  "postgresql://" ++ p.User ++ ":" ++ p.Password ++ "@" ++ p.Host ++ ":" ++ p.Port ++ "/" ++
    p.DB ++ "?sslmode=disable"

/-- The constants `constant.EnvLocal`, `constant.EnvDevelop` and
`constant.EnvProd`; package `constant` is not part of the sources, so the three
names are a parameter. -/
structure Constants where
  EnvLocal : String
  EnvDevelop : String
  EnvProd : String
  deriving DecidableEq, Repr

/-- What `InitConfig` reads from outside the program: the environment variables
(`os.Getenv`) and, for a configuration file path, the error of
`viper.ReadInConfig` and the result of `viper.Unmarshal` into an empty
`Config`. -/
structure World where
  Getenv : String → String
  ReadInConfig : String → GoError
  Unmarshal : String → Config × GoError

/-- Go `config.Loader`; `core` is the configuration file the viper instance was
pointed at. -/
structure Loader where
  core : String
  env : String
  configFile : String
  deriving DecidableEq, Repr

/-- The map `configFileMap`. -/
def configFileMap (k : Constants) (env : String) : Option String :=
  if env = k.EnvLocal then some "app/config/env/local.yaml"
  else if env = k.EnvDevelop then some "app/config/env/develop.yaml"
  else if env = k.EnvProd then some "app/config/env/prod.yaml"
  else none

/-- Go `validEnv`. -/
def validEnv (k : Constants) (env : String) : Bool :=
  [k.EnvLocal, k.EnvDevelop, k.EnvProd].contains env

/-- Go `Loader.setEnv`: the environment name and the error. -/
def setEnv (k : Constants) (os : World) : String × GoError :=
  let envVal := if os.Getenv "APP_ENV" = "" then k.EnvLocal else os.Getenv "APP_ENV"
  if !validEnv k envVal then ("", GoError.errorString ("invalid env: " ++ envVal))
  else (envVal, GoError.nil)

/-- Go `Loader.setConfigFile`. -/
def setConfigFile (k : Constants) (env : String) : String × GoError :=
  match configFileMap k env with
  | none => ("", GoError.errorString ("config file not found for env: " ++ env))
  | some configFile => (configFile, GoError.nil)

/-- Go `NewLoader`. -/
def NewLoader (k : Constants) (os : World) : Option Loader × GoError :=
  match setEnv k os with
  | (env, err) =>
    if err ≠ GoError.nil then (none, err)
    else
      match setConfigFile k env with
      | (configFile, err) =>
        if err ≠ GoError.nil then (none, err)
        else (some { core := configFile, env := env, configFile := configFile }, GoError.nil)

/-- Go `Loader.Load` applied to the callback of `InitConfig`, which unmarshals
into `c` and then sets `c.Env`: the configuration `c` after the call and the
error. -/
def Loader.Load (l : Loader) (os : World) : Config × GoError :=
  if os.ReadInConfig l.core ≠ GoError.nil then (Config.zero, os.ReadInConfig l.core)
  else
    match os.Unmarshal l.core with
    | (c, err) =>
      if err ≠ GoError.nil then (c, err)
      else ({ c with Env := l.env }, GoError.nil)

/-- Go `InitConfig`. The package variable `configInstance` is passed in and the
value it has after the call is returned next to the results. -/
def InitConfig (k : Constants) (os : World) (configInstance : Option Config) :
    (Option Config × GoError) × Option Config :=
  match configInstance with
  | some c => ((some c, GoError.nil), some c)
  | none =>
    match NewLoader k os with
    | (none, err) => ((none, err), none)
    | (some loader, err) =>
      if err ≠ GoError.nil then ((none, err), none)
      else
        match loader.Load os with
        | (c, err) =>
          if err ≠ GoError.nil then ((none, err), none)
          else if c.Server.Port = 0 then
            ((none, GoError.errorString ("invalid server port: " ++ toString c.Server.Port)),
              some c)
          else ((some c, GoError.nil), some c)

/-- A sequence of `n` calls to `InitConfig` starting from a given value of
`configInstance`: the results of the calls, in order. -/
def calls (k : Constants) (os : World) :
    Nat → Option Config → List (Option Config × GoError)
  | 0, _ => []
  | n + 1, configInstance =>
    (InitConfig k os configInstance).1 :: calls k os n (InitConfig k os configInstance).2

end config

namespace registry

/-- The usecase as the registry wires it: the postgres repositories over the
database handle `db` and the transaction manager of `GetTxManager`. -/
def app (db : postgres.DB) : usecase.accountUsecase postgres.Store :=
  usecase.NewAccountUsecase (postgres.NewAccountRepository db)
    (postgres.NewTransactionRepository db) TransactionDemo.db.GetTxManager
    (fun s => s.clock)

/-- The usecase as the unit tests build it: repositories over the database
handle `db` and a `MockTxManager`. -/
def testApp (db : postgres.DB) (m : mock.MockTxManager) :
    usecase.accountUsecase postgres.Store :=
  usecase.NewAccountUsecase (postgres.NewAccountRepository db)
    (postgres.NewTransactionRepository db) m.toManager (fun s => s.clock)

end registry

/-! ## Scenario of the unit tests

Account 111 holds 1000, account 222 holds 500; the transfer moves 100.50. -/

namespace scenario

def acc111 : entity.Account := { ID := 111, Balance := F64.ofNat 1000, CreatedAt := 5 }
def acc222 : entity.Account := { ID := 222, Balance := F64.ofNat 500, CreatedAt := 6 }

/-- The store before the transfer. -/
def store0 : postgres.Store :=
  { accounts := [acc111, acc222], transactions := [], clock := 9 }

/-- The request `111 → 222, amount 100.50`. -/
def req : dto.TransactionDTO :=
  { SourceAccountID := 111, DestinationAccountID := 222, Amount := F64.ofScaled 201 1 }

/-- The ledger row of the transfer as the usecase builds it. -/
def ledgerRow : entity.Transaction :=
  { ID := 0, SourceAccountID := 111, DestinationAccountID := 222,
    Amount := F64.ofScaled 201 1, TransactionTime := 9,
    SourceAccount := entity.Account.zero, DestinationAccount := entity.Account.zero }

/-- Account 111 after the debit: 899.50. -/
def acc111After : entity.Account :=
  { ID := 111, Balance := F64.ofScaled 1799 1, CreatedAt := 5 }

/-- Account 222 after the credit: 600.50. -/
def acc222After : entity.Account :=
  { ID := 222, Balance := F64.ofScaled 1201 1, CreatedAt := 6 }

/-- The store after the ledger row is inserted. -/
def store1 : postgres.Store :=
  { accounts := [acc111, acc222], transactions := [{ ledgerRow with ID := 1 }], clock := 9 }

/-- The store after the source account is saved. -/
def store2 : postgres.Store :=
  { accounts := [acc111After, acc222], transactions := [{ ledgerRow with ID := 1 }],
    clock := 9 }

/-- The store after the destination account is saved. -/
def store3 : postgres.Store :=
  { accounts := [acc111After, acc222After], transactions := [{ ledgerRow with ID := 1 }],
    clock := 9 }

/-- The usecase as the unit tests build it, over a healthy database handle. -/
def tested : usecase.accountUsecase postgres.Store :=
  registry.testApp postgres.healthy mock.NewMockTxManager

/-- The usecase as the registry wires it, over a healthy database handle. -/
def wired : usecase.accountUsecase postgres.Store :=
  registry.app postgres.healthy

/-- The request `111 → 222, amount 2000`: more than account 111 holds. -/
def reqTooMuch : dto.TransactionDTO :=
  { SourceAccountID := 111, DestinationAccountID := 222, Amount := F64.ofNat 2000 }

/-- The request `111 → 111, amount 100.50`. -/
def reqSelf : dto.TransactionDTO :=
  { SourceAccountID := 111, DestinationAccountID := 111, Amount := F64.ofScaled 201 1 }

/-- The request `0 → 222, amount 100.50`. -/
def reqNoSource : dto.TransactionDTO :=
  { SourceAccountID := 0, DestinationAccountID := 222, Amount := F64.ofScaled 201 1 }

/-- The account-creation request `111, balance -100`. -/
def negativeBalance : dto.AccountDTO :=
  { AccountID := 111, Balance := F64.negate (F64.ofNat 100) }

/-- The account-creation request `111, balance 1000` for an ID that is taken. -/
def duplicate : dto.AccountDTO :=
  { AccountID := 111, Balance := F64.ofNat 1000 }

/-- A database handle on which saving account 222 fails and every other
statement runs. -/
def destinationUpdateFails : postgres.DB := fun _ c =>
  match c with
  | Call.Update a =>
    if a.ID = 222 then GoError.errorString "destination account update failed"
    else GoError.nil
  | _ => GoError.nil

/-- A store in which account 1 holds `+Inf` and account 2 holds 1. -/
def storeInf : postgres.Store :=
  { accounts := [{ ID := 1, Balance := F64.inf false, CreatedAt := 5 },
                 { ID := 2, Balance := F64.ofNat 1, CreatedAt := 6 }],
    transactions := [], clock := 9 }

/-- The request `1 → 2, amount +Inf`. -/
def reqInf : dto.TransactionDTO :=
  { SourceAccountID := 1, DestinationAccountID := 2, Amount := F64.inf false }

/-- A store in which account 1 holds `10^16` and account 2 holds 1. -/
def storeBig : postgres.Store :=
  { accounts := [{ ID := 1, Balance := F64.ofNat 10000000000000000, CreatedAt := 5 },
                 { ID := 2, Balance := F64.ofNat 1, CreatedAt := 6 }],
    transactions := [], clock := 9 }

/-- The request `1 → 2, amount 1`. -/
def reqOne : dto.TransactionDTO :=
  { SourceAccountID := 1, DestinationAccountID := 2, Amount := F64.ofNat 1 }

/-- The account-creation request `333, balance 1000` for an ID that is free. -/
def fresh : dto.AccountDTO :=
  { AccountID := 333, Balance := F64.ofNat 1000 }

/-- The row the store inserts for `fresh`. -/
def acc333 : entity.Account :=
  { ID := 333, Balance := F64.ofNat 1000, CreatedAt := 9 }

/-- The store after `fresh` is created. -/
def storeWith333 : postgres.Store :=
  { accounts := [acc111, acc222, acc333], transactions := [], clock := 9 }

/-- A database handle on which every point read fails and every other statement
runs. -/
def findOneFails : postgres.DB := fun _ c =>
  match c with
  | Call.FindOne _ => GoError.errorString "database error"
  | _ => GoError.nil

/-- The request `GET /accounts/0`. -/
def getZero : gin.Context :=
  { Params := [("account_id", "0")], Request := "", Written := [] }

/-- The request `111 → 444, amount 100.50`: account 444 does not exist. -/
def reqMissing : dto.TransactionDTO :=
  { SourceAccountID := 111, DestinationAccountID := 444, Amount := F64.ofScaled 201 1 }

/-- The usecase of the unit test `tx_manager_error`: the transaction manager
fails. -/
def failingTx : usecase.accountUsecase postgres.Store :=
  registry.testApp postgres.healthy
    (mock.NewMockTxManagerWithError "transaction manager error")

/-- An account repository whose `FindForUpdate` answers with the given rows and
error, whatever is asked, as a test double does; the other methods are those of
the postgres repository over a healthy handle. -/
def cannedRows (rows : List (Option entity.Account)) (err : GoError) :
    repository.AccountRepository postgres.Store :=
  { postgres.NewAccountRepository postgres.healthy with
    FindForUpdate := fun _ s => ((rows, err), s) }

/-- A usecase whose locking read answers with account 111 and a row with the ID
333 that was not asked for. -/
def strayRow : usecase.accountUsecase postgres.Store :=
  usecase.NewAccountUsecase (cannedRows [some acc111, some acc333] GoError.nil)
    (postgres.NewTransactionRepository postgres.healthy) mock.NewMockTxManager.toManager
    (fun s => s.clock)

/-- The environment names as the configuration file names suggest them. -/
def names : config.Constants :=
  { EnvLocal := "local", EnvDevelop := "develop", EnvProd := "prod" }

/-- A configuration file that leaves the server port at 0. -/
def portless : config.Config :=
  { AppName := "transaction_demo", Env := "", Server := { Port := 0 },
    Postgres := { Host := "localhost", User := "postgres", Password := "postgres",
                  DB := "transaction_demo", Port := "5432", MaxOpenConns := 10,
                  MaxIdleConns := 5 } }

/-- A machine without `APP_ENV` whose configuration file reads and unmarshals
without error into `portless`. -/
def portlessWorld : config.World :=
  { Getenv := fun _ => "", ReadInConfig := fun _ => GoError.nil,
    Unmarshal := fun _ => (portless, GoError.nil) }

/-- The body of a well-formed request to create account 333 with balance 1000. -/
def bodyFresh : String := "\x7b\"account_id\": 333, \"balance\": 1000\x7d"

/-- The body of a well-formed request to transfer 100.50 from 111 to 222. -/
def bodyReq : String :=
  "\x7b\"source_account_id\": 111, \"destination_account_id\": 222, \"amount\": 100.5\x7d"

/-- The JSON decoder as far as the scenario needs it: `bodyFresh` decodes to
`fresh`, the empty body is rejected with `io.EOF` and any other body with a
syntax error. -/
def decodeAccount (body : String) : dto.AccountDTO × GoError :=
  if body = bodyFresh then (fresh, GoError.nil)
  else if body = "" then (dto.AccountDTO.zero, GoError.errorString "EOF")
  else (dto.AccountDTO.zero, GoError.errorString "invalid character")

/-- The JSON decoder for transfers as far as the scenario needs it: `bodyReq`
decodes to `req`, the empty body is rejected with `io.EOF` and any other body
with a syntax error. -/
def decodeTransaction (body : String) : dto.TransactionDTO × GoError :=
  if body = bodyReq then (req, GoError.nil)
  else if body = "" then
    ({ SourceAccountID := 0, DestinationAccountID := 0, Amount := F64.zero },
      GoError.errorString "EOF")
  else
    ({ SourceAccountID := 0, DestinationAccountID := 0, Amount := F64.zero },
      GoError.errorString "invalid character")

/-- The request `POST /accounts` with an empty body. -/
def postEmpty : gin.Context :=
  { Params := [], Request := "", Written := [] }

/-- The request `POST /accounts` with the body `bodyFresh`. -/
def postFresh : gin.Context :=
  { Params := [], Request := bodyFresh, Written := [] }

/-- The usecase with the two rows returned in the order source, destination. -/
def rowsInOrder : usecase.accountUsecase postgres.Store :=
  usecase.NewAccountUsecase (cannedRows [some acc111, some acc222] GoError.nil)
    (postgres.NewTransactionRepository postgres.healthy) mock.NewMockTxManager.toManager
    (fun s => s.clock)

/-- The usecase with the two rows returned in the order destination, source. -/
def rowsSwapped : usecase.accountUsecase postgres.Store :=
  usecase.NewAccountUsecase (cannedRows [some acc222, some acc111] GoError.nil)
    (postgres.NewTransactionRepository postgres.healthy) mock.NewMockTxManager.toManager
    (fun s => s.clock)

end scenario

/-! ## Package variables of apperr -/

namespace apperr

/-- The package-level state of `apperr`: the `AppError` objects allocated by
`&AppError{...}`, by address, and the six variables of `err_def.go`, each a
`*AppError` (nil or the address of an object). Any function of the program may
assign to the variables or write to the objects they point to. -/
structure Vars where
  heap : List AppError
  ErrInvalidInput : Option Nat
  ErrInsufficientFunds : Option Nat
  ErrNotFound : Option Nat
  ErrAlreadyExists : Option Nat
  ErrResourceBusy : Option Nat
  ErrInternalServer : Option Nat
  deriving DecidableEq, Repr

/-- The state before the package is initialised: no object, every variable
nil. -/
def Vars.zero : Vars :=
  { heap := [], ErrInvalidInput := none, ErrInsufficientFunds := none, ErrNotFound := none,
    ErrAlreadyExists := none, ErrResourceBusy := none, ErrInternalServer := none }

/-- Go `NewAppError` with its allocation: `return &AppError{...}` adds a fresh
object to the heap and returns its address. -/
def Vars.NewAppError (v : Vars) (code : String) (errType : ErrorType) : Option Nat × Vars :=
  (some v.heap.length, { v with heap := v.heap ++ [apperr.NewAppError code errType] })

/-- Initialisation of the package: the `var (...)` block of `err_def.go`, one
declaration after the other. -/
def Vars.init : Vars :=
  let v := Vars.zero
  let r := v.NewAppError "INVALID_INPUT" ErrTypeBadRequest
  let v := { r.2 with ErrInvalidInput := r.1 }
  let r := v.NewAppError "INSUFFICIENT_FUNDS" ErrTypeBadRequest
  let v := { r.2 with ErrInsufficientFunds := r.1 }
  let r := v.NewAppError "NOT_FOUND" ErrTypeNotFound
  let v := { r.2 with ErrNotFound := r.1 }
  let r := v.NewAppError "ALREADY_EXISTS" ErrTypeAlreadyExists
  let v := { r.2 with ErrAlreadyExists := r.1 }
  let r := v.NewAppError "RESOURCE_BUSY" ErrTypeBadRequest
  let v := { r.2 with ErrResourceBusy := r.1 }
  let r := v.NewAppError "INTERNAL_SERVER_ERROR" ErrTypeInternalServer
  { r.2 with ErrInternalServer := r.1 }

/-- Go `*p` for `p : *AppError`: the object at the address; a nil pointer
panics. Go has no dangling pointer; an address outside the heap is treated as
nil. -/
def Vars.load (v : Vars) (p : Option Nat) : Outcome AppError :=
  match p with
  | none => Outcome.panic nilDereference
  | some a =>
    match v.heap.get? a with
    | none => Outcome.panic nilDereference
    | some e => Outcome.ret e

/-- Go `p.WithMessage(message)` for `p : *AppError`. The method is declared
`func (e AppError) WithMessage`, with a value receiver, so the call is
`(*p).WithMessage(message)`: the callee's `e` is a copy of the object and
`e.Message = message` assigns to the copy. Yields what the call returns and the
package state it leaves. -/
def Vars.WithMessage (v : Vars) (p : Option Nat) (message : String) :
    Outcome AppError × Vars :=
  match v.load p with
  | Outcome.panic r => (Outcome.panic r, v)
  | Outcome.ret e => (Outcome.ret (e.WithMessage message), v)

/-- Go `p.WithError(err)` for `p : *AppError`; the method is declared
`func (e AppError) WithError`, with a value receiver. -/
def Vars.WithError (v : Vars) (p : Option Nat) (err : GoError) : Outcome AppError × Vars :=
  match v.load p with
  | Outcome.panic r => (Outcome.panic r, v)
  | Outcome.ret e => (Outcome.ret (e.WithError err), v)

/-- Go `x.WithMessage(message)` where `x` is the `AppError` value an earlier
call of the chain returned (or its panic). -/
def thenWithMessage (r : Outcome AppError × Vars) (message : String) :
    Outcome AppError × Vars :=
  match r with
  | (Outcome.panic p, v) => (Outcome.panic p, v)
  | (Outcome.ret e, v) => (Outcome.ret (e.WithMessage message), v)

end apperr

namespace repository

/-- A repository of another package in a world that also holds the package
variables of `apperr`: its methods act on the store and pass the variables
on. -/
def AccountRepository.besideVars {σ : Type} (r : AccountRepository σ) :
    AccountRepository (σ × apperr.Vars) :=
  { FindOne := fun id w => ((r.FindOne id w.1).1, ((r.FindOne id w.1).2, w.2))
    FindForUpdate := fun ids w =>
      ((r.FindForUpdate ids w.1).1, ((r.FindForUpdate ids w.1).2, w.2))
    Create := fun a w => ((r.Create a w.1).1, ((r.Create a w.1).2, w.2))
    Update := fun a w => ((r.Update a w.1).1, ((r.Update a w.1).2, w.2)) }

/-- The ledger repository beside the package variables of `apperr`. -/
def TransactionRepository.besideVars {σ : Type} (r : TransactionRepository σ) :
    TransactionRepository (σ × apperr.Vars) :=
  { Create := fun t w => ((r.Create t w.1).1, ((r.Create t w.1).2, w.2)) }

end repository

/-! ## package usecase over the package variables of apperr

The usecase once more, with `apperr.ErrInvalidInput` and the other predefined
errors read from the package variables held in the world state, instead of
taken as constants. -/

namespace usecase

namespace withVars

open apperr

variable {σ : Type}

/-- A `return` whose error operand is built from a predefined error: the value
built (or the panic of building it), the remaining results as a function of the
error, the calls made so far and the store. -/
def returning {α : Type} (built : Outcome AppError × Vars) (results : GoError → α)
    (tr : List Call) (s : σ) : Exec (σ × Vars) α :=
  match built with
  | (Outcome.panic p, v) => { out := Outcome.panic p, trace := tr, st := (s, v) }
  | (Outcome.ret e, v) => { out := Outcome.ret (results e.toError), trace := tr, st := (s, v) }

/-- Go `accountUsecase.Create`. -/
def Create (uc : accountUsecase (σ × Vars)) (account : dto.AccountDTO) (w : σ × Vars) :
    Exec (σ × Vars) (dto.AccountDTO × GoError) :=
  let err := account.Validate
  if err ≠ GoError.nil then
    returning (w.2.WithError w.2.ErrInvalidInput err) (fun e => (dto.AccountDTO.zero, e)) [] w.1
  else
    match uc.accountRepo.FindOne account.AccountID w with
    | ((existingAccount, err), w1) =>
      if err ≠ GoError.nil then
        returning (w1.2.WithMessage w1.2.ErrNotFound "account not found")
          (fun e => (dto.AccountDTO.zero, e)) [Call.FindOne account.AccountID] w1.1
      else if existingAccount ≠ none then
        returning (w1.2.WithMessage w1.2.ErrAlreadyExists "account ID already exists")
          (fun e => (dto.AccountDTO.zero, e)) [Call.FindOne account.AccountID] w1.1
      else
        let ent : entity.Account :=
          { ID := account.AccountID, Balance := account.Balance, CreatedAt := 0 }
        match uc.accountRepo.Create ent w1 with
        | ((createdAcc, err), w2) =>
          let tr := [Call.FindOne account.AccountID, Call.AccountCreate ent]
          if err ≠ GoError.nil then
            returning
              (thenWithMessage (w2.2.WithError w2.2.ErrInternalServer err)
                "failed to create account")
              (fun e => (dto.AccountDTO.zero, e)) tr w2.1
          else
            match createdAcc with
            | none => { out := Outcome.panic nilDereference, trace := tr, st := w2 }
            | some c =>
              { out := Outcome.ret ({ AccountID := c.ID, Balance := c.Balance }, GoError.nil),
                trace := tr, st := w2 }

/-- Go `accountUsecase.GetBalance`. -/
def GetBalance (uc : accountUsecase (σ × Vars)) (id : Nat) (w : σ × Vars) :
    Exec (σ × Vars) (dto.AccountDTO × GoError) :=
  match uc.accountRepo.FindOne id w with
  | ((account, err), w1) =>
    if err ≠ GoError.nil then
      returning (w1.2.WithMessage w1.2.ErrNotFound "account not found")
        (fun e => (dto.AccountDTO.zero, e)) [Call.FindOne id] w1.1
    else
      match account with
      | none =>
        returning (w1.2.WithMessage w1.2.ErrNotFound "account not found")
          (fun e => (dto.AccountDTO.zero, e)) [Call.FindOne id] w1.1
      | some a =>
        { out := Outcome.ret ({ AccountID := a.ID, Balance := a.Balance }, GoError.nil),
          trace := [Call.FindOne id], st := w1 }

/-- Go `accountUsecase.retrieveAccounts`. -/
def retrieveAccounts (uc : accountUsecase (σ × Vars)) (sourceAccID destAccID : Nat)
    (w : σ × Vars) :
    Exec (σ × Vars) (Option entity.Account × Option entity.Account × GoError) :=
  match uc.accountRepo.FindForUpdate [sourceAccID, destAccID] w with
  | ((accounts, err), w1) =>
    let tr := [Call.FindForUpdate [sourceAccID, destAccID]]
    if err ≠ GoError.nil then
      returning
        (thenWithMessage (w1.2.WithError w1.2.ErrInternalServer err)
          "failed to find accounts for update")
        (fun e => (none, none, e)) tr w1.1
    else if accounts.length < 2 then
      returning (w1.2.WithMessage w1.2.ErrInternalServer "accounts not found for update")
        (fun e => (none, none, e)) tr w1.1
    else
      match rangeAccounts sourceAccID destAccID accounts (none, none) with
      | Outcome.panic p => { out := Outcome.panic p, trace := tr, st := w1 }
      | Outcome.ret (sourceAccount, destAccount) =>
        { out := Outcome.ret (sourceAccount, destAccount, GoError.nil), trace := tr, st := w1 }

/-- Go `accountUsecase.doTransaction`. -/
def doTransaction (uc : accountUsecase (σ × Vars))
    (sourceAccount destinationAccount : Option entity.Account) (amount : F64)
    (w : σ × Vars) : Exec (σ × Vars) GoError :=
  match sourceAccount with
  | none => { out := Outcome.panic nilDereference, trace := [], st := w }
  | some src =>
    let src1 : entity.Account := { src with Balance := F64.sub src.Balance amount }
    match destinationAccount with
    | none => { out := Outcome.panic nilDereference, trace := [], st := w }
    | some dst =>
      let dst1 : entity.Account := { dst with Balance := F64.add dst.Balance amount }
      let transaction : entity.Transaction :=
        { ID := 0, SourceAccountID := src1.ID, DestinationAccountID := dst1.ID,
          Amount := amount, TransactionTime := uc.now w,
          SourceAccount := entity.Account.zero, DestinationAccount := entity.Account.zero }
      match uc.transactionRepo.Create transaction w with
      | ((_, err), w1) =>
        if err ≠ GoError.nil then
          returning
            (thenWithMessage (w1.2.WithError w1.2.ErrInternalServer err)
              "failed to create transaction")
            id [Call.TransactionCreate transaction] w1.1
        else
          match uc.accountRepo.Update src1 w1 with
          | (err, w2) =>
            if err ≠ GoError.nil then
              returning
                (thenWithMessage (w2.2.WithError w2.2.ErrInternalServer err)
                  "failed to update source account")
                id [Call.TransactionCreate transaction, Call.Update src1] w2.1
            else
              match uc.accountRepo.Update dst1 w2 with
              | (err, w3) =>
                if err ≠ GoError.nil then
                  returning
                    (thenWithMessage (w3.2.WithError w3.2.ErrInternalServer err)
                      "failed to update destination account")
                    id
                    [Call.TransactionCreate transaction, Call.Update src1, Call.Update dst1]
                    w3.1
                else
                  { out := Outcome.ret GoError.nil,
                    trace := [Call.TransactionCreate transaction, Call.Update src1,
                      Call.Update dst1],
                    st := w3 }

/-- The unit of work `MakeTransaction` hands to the transaction manager (the
closure passed to `txManager.Do`). -/
def unitOfWork (uc : accountUsecase (σ × Vars)) (req : dto.TransactionDTO) (w : σ × Vars) :
    Exec (σ × Vars) GoError :=
  let r := retrieveAccounts uc req.SourceAccountID req.DestinationAccountID w
  match r.out with
  | Outcome.panic p => { out := Outcome.panic p, trace := r.trace, st := r.st }
  | Outcome.ret (sourceAcc, destAcc, err) =>
    if err ≠ GoError.nil then { out := Outcome.ret err, trace := r.trace, st := r.st }
    else
      match sourceAcc with
      | none => { out := Outcome.panic nilDereference, trace := r.trace, st := r.st }
      | some src =>
        if F64.lt src.Balance req.Amount then
          returning (r.st.2.WithMessage r.st.2.ErrInvalidInput "insufficient balance")
            id r.trace r.st.1
        else
          let t := doTransaction uc (some src) destAcc req.Amount r.st
          { out := t.out, trace := r.trace ++ t.trace, st := t.st }

/-- Go `accountUsecase.MakeTransaction`. The operands of the first `return` are
evaluated in order: the receiver `apperr.ErrInvalidInput.WithError(err)`, then
the argument `err.Error()`. -/
def MakeTransaction (uc : accountUsecase (σ × Vars)) (req : dto.TransactionDTO)
    (w : σ × Vars) : Exec (σ × Vars) GoError :=
  let err := req.Validate
  if err ≠ GoError.nil then
    match w.2.WithError w.2.ErrInvalidInput err with
    | (Outcome.panic p, v) => { out := Outcome.panic p, trace := [], st := (w.1, v) }
    | (Outcome.ret e, v) =>
      match err.Error with
      | Outcome.panic p => { out := Outcome.panic p, trace := [], st := (w.1, v) }
      | Outcome.ret msg =>
        { out := Outcome.ret (e.WithMessage msg).toError, trace := [], st := (w.1, v) }
  else if req.SourceAccountID = req.DestinationAccountID then
    returning
      (w.2.WithMessage w.2.ErrInvalidInput
        "source and destination account IDs cannot be the same")
      id [] w.1
  else
    let r := uc.txManager.Do (unitOfWork uc req) w
    { out := r.out, trace := Call.Do :: r.trace, st := r.st }

/-- One call of the `AccountUC` interface. -/
inductive Request where
  | Create (account : dto.AccountDTO) : Request
  | GetBalance (id : Nat) : Request
  | MakeTransaction (req : dto.TransactionDTO) : Request
  deriving DecidableEq, Repr

/-- The world state a call of the usecase leaves, whether it returned or
panicked. -/
def serve (uc : accountUsecase (σ × Vars)) (c : Request) (w : σ × Vars) : σ × Vars :=
  match c with
  | Request.Create account => (Create uc account w).st
  | Request.GetBalance id => (GetBalance uc id w).st
  | Request.MakeTransaction req => (MakeTransaction uc req w).st

/-- The world state after a sequence of usecase calls, one after the other. -/
def serveAll (uc : accountUsecase (σ × Vars)) : List Request → σ × Vars → σ × Vars
  | [], w => w
  | c :: cs, w => serveAll uc cs (serve uc c w)

/-- The repositories and the transaction manager of the usecase, which belong to
other packages, leave the package variables of `apperr` as they find them; the
manager does whenever the unit of work it is given does. -/
def KeepsVars (uc : accountUsecase (σ × Vars)) : Prop :=
  (∀ id w, (uc.accountRepo.FindOne id w).2.2 = w.2) ∧
  (∀ ids w, (uc.accountRepo.FindForUpdate ids w).2.2 = w.2) ∧
  (∀ a w, (uc.accountRepo.Create a w).2.2 = w.2) ∧
  (∀ a w, (uc.accountRepo.Update a w).2.2 = w.2) ∧
  (∀ t w, (uc.transactionRepo.Create t w).2.2 = w.2) ∧
  (∀ fn w, (∀ s, (fn s).st.2 = s.2) → (uc.txManager.Do fn w).st.2 = w.2)

end withVars

end usecase

namespace scenario

/-- The usecase as the unit tests build it, in a world that also holds the
package variables of `apperr`. -/
def testedBesideVars : usecase.accountUsecase (postgres.Store × apperr.Vars) :=
  usecase.NewAccountUsecase (postgres.NewAccountRepository postgres.healthy).besideVars
    (postgres.NewTransactionRepository postgres.healthy).besideVars
    mock.NewMockTxManager.toManager (fun w => w.1.clock)

/-- A run of the service: an account is created, money is moved, a balance is
read, a transfer is refused for its amount, one for its shape and one for its
accounts, and an account is created twice. -/
def session : List usecase.withVars.Request :=
  [usecase.withVars.Request.Create fresh,
   usecase.withVars.Request.MakeTransaction req,
   usecase.withVars.Request.GetBalance 111,
   usecase.withVars.Request.MakeTransaction reqTooMuch,
   usecase.withVars.Request.MakeTransaction reqSelf,
   usecase.withVars.Request.MakeTransaction reqMissing,
   usecase.withVars.Request.GetBalance 999,
   usecase.withVars.Request.Create fresh,
   usecase.withVars.Request.Create negativeBalance]

end scenario

/-! ## Auxiliary lemmas -/

section

open usecase

variable {σ : Type}

set_option exponentiation.threshold 5000

theorem F64_lt_zero_zero : F64.lt F64.zero F64.zero = false := by decide

theorem F64_lt_of_le_false (x y : F64) (h : F64.le x y = true) : F64.lt y x = false := by
  cases x <;> cases y <;> simp_all [F64.le, F64.lt]
  rename_i a b
  cases a <;> cases b <;> simp_all

theorem checkUint_eq_none (v : Nat) : dto.checkUint v = none ↔ 0 < v := by
  unfold dto.checkUint
  by_cases h : v = 0 <;> simp [h, Nat.pos_iff_ne_zero]

theorem checkFloat_eq_none (v : F64) : dto.checkFloat v = none ↔ F64.lt F64.zero v = true := by
  unfold dto.checkFloat
  by_cases h : v = F64.zero
  · subst h; simp [F64_lt_zero_zero]
  · by_cases h2 : F64.lt F64.zero v = true <;> simp [h, h2]

theorem TransactionDTO_Validate_eq_nil (t : dto.TransactionDTO) :
    t.Validate = GoError.nil ↔
      0 < t.SourceAccountID ∧ 0 < t.DestinationAccountID ∧ F64.lt F64.zero t.Amount = true := by
  rw [← checkUint_eq_none, ← checkUint_eq_none, ← checkFloat_eq_none]
  unfold dto.TransactionDTO.Validate dto.validateStruct
  cases dto.checkUint t.SourceAccountID <;> cases dto.checkUint t.DestinationAccountID <;>
    cases dto.checkFloat t.Amount <;> simp [List.filterMap]

theorem AccountDTO_Validate_eq_nil (a : dto.AccountDTO) :
    a.Validate = GoError.nil ↔ 0 < a.AccountID ∧ F64.lt F64.zero a.Balance = true := by
  rw [← checkUint_eq_none, ← checkFloat_eq_none]
  unfold dto.AccountDTO.Validate dto.validateStruct
  cases dto.checkUint a.AccountID <;> cases dto.checkFloat a.Balance <;> simp [List.filterMap]

/-- Both row orders give the same roles. -/
theorem rangeAccounts_pair (sid did : Nat) (src dst : entity.Account)
    (rows : List (Option entity.Account))
    (hsid : src.ID = sid) (hdid : dst.ID = did) (hne : sid ≠ did)
    (hrows : rows = [some src, some dst] ∨ rows = [some dst, some src]) :
    rangeAccounts sid did rows (none, none) = Outcome.ret (some src, some dst) := by
  have h1 : ¬ did = sid := fun h => hne h.symm
  rcases hrows with h | h <;> subst h <;> simp [rangeAccounts, hsid, hdid, h1]

/-- The unit of work on a run in which the locking read returns both accounts,
the balance suffices and each write succeeds. -/
theorem unitOfWork_success (uc : accountUsecase σ) (req : dto.TransactionDTO)
    (w w1 w2 w3 w4 : σ) (src dst : entity.Account) (rows : List (Option entity.Account))
    (created : Option entity.Transaction)
    (hne : req.SourceAccountID ≠ req.DestinationAccountID)
    (hsid : src.ID = req.SourceAccountID) (hdid : dst.ID = req.DestinationAccountID)
    (hrows : rows = [some src, some dst] ∨ rows = [some dst, some src])
    (hfind : uc.accountRepo.FindForUpdate [req.SourceAccountID, req.DestinationAccountID] w
      = ((rows, GoError.nil), w1))
    (hbal : F64.le req.Amount src.Balance = true)
    (hcreate : uc.transactionRepo.Create
      { ID := 0, SourceAccountID := src.ID, DestinationAccountID := dst.ID,
        Amount := req.Amount, TransactionTime := uc.now w1,
        SourceAccount := entity.Account.zero, DestinationAccount := entity.Account.zero } w1
      = ((created, GoError.nil), w2))
    (hupdSrc : uc.accountRepo.Update { src with Balance := F64.sub src.Balance req.Amount } w2
      = (GoError.nil, w3))
    (hupdDst : uc.accountRepo.Update { dst with Balance := F64.add dst.Balance req.Amount } w3
      = (GoError.nil, w4)) :
    uc.unitOfWork req w =
      { out := Outcome.ret GoError.nil,
        trace := [Call.FindForUpdate [req.SourceAccountID, req.DestinationAccountID],
          Call.TransactionCreate
            { ID := 0, SourceAccountID := src.ID, DestinationAccountID := dst.ID,
              Amount := req.Amount, TransactionTime := uc.now w1,
              SourceAccount := entity.Account.zero, DestinationAccount := entity.Account.zero },
          Call.Update { src with Balance := F64.sub src.Balance req.Amount },
          Call.Update { dst with Balance := F64.add dst.Balance req.Amount }],
        st := w4 } := by
  have hlen : ¬ rows.length < 2 := by rcases hrows with h | h <;> subst h <;> simp
  have hrange := rangeAccounts_pair _ _ src dst rows hsid hdid hne hrows
  have hlt := F64_lt_of_le_false _ _ hbal
  simp [accountUsecase.unitOfWork, accountUsecase.retrieveAccounts, hfind, hlen, hrange, hlt,
    accountUsecase.doTransaction, hcreate, hupdSrc, hupdDst]

/-- A rejected struct yields a `ValidationErrors` value, whose `Error()` returns. -/
theorem validateStruct_cases (name : String) (checks : List (String × Option String)) :
    dto.validateStruct name checks = GoError.nil ∨
      ∃ fields, dto.validateStruct name checks = GoError.validationErrors fields := by
  unfold dto.validateStruct
  split
  · exact Or.inl rfl
  · exact Or.inr ⟨_, rfl⟩

theorem F64_lt_zero_of_le_zero (x : F64) (h : F64.le x F64.zero = true) :
    F64.lt F64.zero x = false :=
  F64_lt_of_le_false x F64.zero h

/-- Roles found by the loop carry the ID they were looked up by and are rows of
the list (or were already assigned). -/
theorem rangeAccounts_spec (sid did : Nat) (P : entity.Account → Prop) :
    ∀ (rows : List (Option entity.Account))
      (roles out : Option entity.Account × Option entity.Account),
      (∀ x, some x ∈ rows → P x) →
      (∀ x, roles.1 = some x → x.ID = sid ∧ P x) →
      (∀ x, roles.2 = some x → x.ID = did ∧ P x) →
      rangeAccounts sid did rows roles = Outcome.ret out →
      (∀ x, out.1 = some x → x.ID = sid ∧ P x) ∧ (∀ x, out.2 = some x → x.ID = did ∧ P x) := by
  intro rows
  induction rows with
  | nil =>
    intro roles out _ h1 h2 h
    simp only [rangeAccounts, Outcome.ret.injEq] at h
    subst h
    exact ⟨h1, h2⟩
  | cons r rest ih =>
    intro roles out hP h1 h2 h
    obtain ⟨s, d⟩ := roles
    cases r with
    | none => simp [rangeAccounts] at h
    | some acc =>
      have hrest : ∀ x, some x ∈ rest → P x := fun x hx => hP x (List.mem_cons_of_mem _ hx)
      have hacc : P acc := hP acc (List.mem_cons_self _ _)
      simp only [rangeAccounts] at h
      split at h
      · rename_i hs
        exact ih (some acc, d) out hrest
          (fun x hx => by simp only [Option.some.injEq] at hx; subst hx; exact ⟨hs, hacc⟩)
          h2 h
      · split at h
        · rename_i hd
          exact ih (s, some acc) out hrest h1
            (fun x hx => by simp only [Option.some.injEq] at hx; subst hx; exact ⟨hd, hacc⟩)
            h
        · exact ih (s, d) out hrest h1 h2 h

/-- What `doTransaction` does with two non-nil accounts: the ledger record is
always the one passed to `Create`, and a nil result means the three writes ran
in order. -/
theorem doTransaction_spec (uc : accountUsecase σ) (src dst : entity.Account)
    (amount : F64) (w : σ) :
    ledgerCreates (uc.doTransaction (some src) (some dst) amount w).trace
      = [{ ID := 0, SourceAccountID := src.ID, DestinationAccountID := dst.ID,
           Amount := amount, TransactionTime := uc.now w,
           SourceAccount := entity.Account.zero,
           DestinationAccount := entity.Account.zero }] ∧
    ((uc.doTransaction (some src) (some dst) amount w).out = Outcome.ret GoError.nil →
      (uc.doTransaction (some src) (some dst) amount w).trace
        = [Call.TransactionCreate
            { ID := 0, SourceAccountID := src.ID, DestinationAccountID := dst.ID,
              Amount := amount, TransactionTime := uc.now w,
              SourceAccount := entity.Account.zero,
              DestinationAccount := entity.Account.zero },
           Call.Update { src with Balance := F64.sub src.Balance amount },
           Call.Update { dst with Balance := F64.add dst.Balance amount }]) := by
  rcases hC : uc.transactionRepo.Create
      { ID := 0, SourceAccountID := src.ID, DestinationAccountID := dst.ID,
        Amount := amount, TransactionTime := uc.now w,
        SourceAccount := entity.Account.zero,
        DestinationAccount := entity.Account.zero } w with ⟨⟨c, e1⟩, w1⟩
  rcases hS : uc.accountRepo.Update { src with Balance := F64.sub src.Balance amount } w1
    with ⟨e2, w2⟩
  rcases hD : uc.accountRepo.Update { dst with Balance := F64.add dst.Balance amount } w2
    with ⟨e3, w3⟩
  by_cases h1 : e1 = GoError.nil <;> by_cases h2 : e2 = GoError.nil <;>
    by_cases h3 : e3 = GoError.nil <;>
    simp [accountUsecase.doTransaction, hC, hS, hD, h1, h2, h3, ledgerCreates,
      apperr.AppError.toError]

/-- `doTransaction` without a destination account panics before any call. -/
theorem doTransaction_nil_dest (uc : accountUsecase σ) (src : entity.Account)
    (amount : F64) (w : σ) :
    uc.doTransaction (some src) none amount w
      = { out := Outcome.panic nilDereference, trace := [], st := w } := by
  simp [accountUsecase.doTransaction]

/-- The unit of work unfolded along the result of the locking read. -/
theorem unitOfWork_eq (uc : accountUsecase σ) (req : dto.TransactionDTO) (w w1 : σ)
    (rows : List (Option entity.Account)) (err : GoError)
    (hF : uc.accountRepo.FindForUpdate [req.SourceAccountID, req.DestinationAccountID] w
      = ((rows, err), w1)) :
    uc.unitOfWork req w =
      if err ≠ GoError.nil then
        { out := Outcome.ret ((apperr.ErrInternalServer.WithError err).WithMessage
            "failed to find accounts for update").toError,
          trace := [Call.FindForUpdate [req.SourceAccountID, req.DestinationAccountID]],
          st := w1 }
      else if rows.length < 2 then
        { out := Outcome.ret (apperr.ErrInternalServer.WithMessage
            "accounts not found for update").toError,
          trace := [Call.FindForUpdate [req.SourceAccountID, req.DestinationAccountID]],
          st := w1 }
      else
        match rangeAccounts req.SourceAccountID req.DestinationAccountID rows (none, none) with
        | Outcome.panic p =>
          { out := Outcome.panic p,
            trace := [Call.FindForUpdate [req.SourceAccountID, req.DestinationAccountID]],
            st := w1 }
        | Outcome.ret (none, _) =>
          { out := Outcome.panic nilDereference,
            trace := [Call.FindForUpdate [req.SourceAccountID, req.DestinationAccountID]],
            st := w1 }
        | Outcome.ret (some src, destAcc) =>
          if F64.lt src.Balance req.Amount then
            { out := Outcome.ret
                (apperr.ErrInvalidInput.WithMessage "insufficient balance").toError,
              trace := [Call.FindForUpdate [req.SourceAccountID, req.DestinationAccountID]],
              st := w1 }
          else
            { out := (uc.doTransaction (some src) destAcc req.Amount w1).out,
              trace := Call.FindForUpdate [req.SourceAccountID, req.DestinationAccountID]
                :: (uc.doTransaction (some src) destAcc req.Amount w1).trace,
              st := (uc.doTransaction (some src) destAcc req.Amount w1).st } := by
  by_cases herr : err = GoError.nil
  · by_cases hlen : rows.length < 2
    · simp [accountUsecase.unitOfWork, accountUsecase.retrieveAccounts, hF, herr, hlen,
        apperr.AppError.toError]
    · rcases hR : rangeAccounts req.SourceAccountID req.DestinationAccountID rows (none, none)
        with ⟨srcO, dstO⟩ | p
      · cases srcO with
        | none =>
          simp [accountUsecase.unitOfWork, accountUsecase.retrieveAccounts, hF, herr, hlen, hR]
        | some src =>
          by_cases hlt : F64.lt src.Balance req.Amount = true <;>
            simp [accountUsecase.unitOfWork, accountUsecase.retrieveAccounts, hF, herr, hlen,
              hR, hlt]
      · simp [accountUsecase.unitOfWork, accountUsecase.retrieveAccounts, hF, herr, hlen, hR]
  · simp [accountUsecase.unitOfWork, accountUsecase.retrieveAccounts, hF, herr,
      apperr.AppError.toError]

/-- A unit of work that returns nil found both accounts among the rows of the
locking read, saw a sufficient balance and ran the three writes in order. -/
theorem unitOfWork_ok_inv (uc : accountUsecase σ) (req : dto.TransactionDTO) (w : σ)
    (hok : (uc.unitOfWork req w).out = Outcome.ret GoError.nil) :
    ∃ src dst : entity.Account,
      some src ∈ (uc.accountRepo.FindForUpdate
        [req.SourceAccountID, req.DestinationAccountID] w).1.1 ∧
      some dst ∈ (uc.accountRepo.FindForUpdate
        [req.SourceAccountID, req.DestinationAccountID] w).1.1 ∧
      src.ID = req.SourceAccountID ∧ dst.ID = req.DestinationAccountID ∧
      F64.lt src.Balance req.Amount = false ∧
      (uc.unitOfWork req w).trace =
        [Call.FindForUpdate [req.SourceAccountID, req.DestinationAccountID],
         Call.TransactionCreate
            { ID := 0, SourceAccountID := src.ID, DestinationAccountID := dst.ID,
              Amount := req.Amount,
              TransactionTime := uc.now (uc.accountRepo.FindForUpdate
                [req.SourceAccountID, req.DestinationAccountID] w).2,
              SourceAccount := entity.Account.zero,
              DestinationAccount := entity.Account.zero },
         Call.Update { src with Balance := F64.sub src.Balance req.Amount },
         Call.Update { dst with Balance := F64.add dst.Balance req.Amount }] := by
  rcases hF : uc.accountRepo.FindForUpdate [req.SourceAccountID, req.DestinationAccountID] w
    with ⟨⟨rows, err⟩, w1⟩
  rw [unitOfWork_eq uc req w w1 rows err hF] at hok ⊢
  by_cases herr : err = GoError.nil
  swap
  · simp [herr, apperr.AppError.toError] at hok
  by_cases hlen : rows.length < 2
  · simp [herr, hlen, apperr.AppError.toError] at hok
  rcases hR : rangeAccounts req.SourceAccountID req.DestinationAccountID rows (none, none)
    with ⟨srcO, dstO⟩ | p
  swap
  · simp [herr, hlen, hR] at hok
  have hspec := rangeAccounts_spec req.SourceAccountID req.DestinationAccountID
    (fun x => some x ∈ rows) rows (none, none) (srcO, dstO) (fun x hx => hx)
    (fun x hx => by simp at hx) (fun x hx => by simp at hx) hR
  cases srcO with
  | none => simp [herr, hlen, hR] at hok
  | some src =>
    by_cases hlt : F64.lt src.Balance req.Amount = true
    · simp [herr, hlen, hR, hlt, apperr.AppError.toError] at hok
    cases dstO with
    | none => simp [herr, hlen, hR, hlt, doTransaction_nil_dest] at hok
    | some dst =>
      simp only [herr, hlen, hR, hlt, ne_eq, not_true_eq_false, ↓reduceIte, Bool.false_eq_true]
        at hok ⊢
      obtain ⟨hs1, hs2⟩ := hspec.1 src rfl
      obtain ⟨hd1, hd2⟩ := hspec.2 dst rfl
      refine ⟨src, dst, hs2, hd2, hs1, hd1, by simpa using hlt, ?_⟩
      rw [(doTransaction_spec uc src dst req.Amount w1).2 hok]

/-- In every run of the unit of work at most one record reaches the ledger
`Create`, and it carries the IDs and the amount of the request. -/
theorem unitOfWork_ledger (uc : accountUsecase σ) (req : dto.TransactionDTO) (w : σ) :
    ledgerCreates (uc.unitOfWork req w).trace = [] ∨
    ∃ t, ledgerCreates (uc.unitOfWork req w).trace = [t] ∧
      t.SourceAccountID = req.SourceAccountID ∧
      t.DestinationAccountID = req.DestinationAccountID ∧ t.Amount = req.Amount := by
  rcases hF : uc.accountRepo.FindForUpdate [req.SourceAccountID, req.DestinationAccountID] w
    with ⟨⟨rows, err⟩, w1⟩
  rw [unitOfWork_eq uc req w w1 rows err hF]
  by_cases herr : err = GoError.nil
  swap
  · simp [herr, ledgerCreates]
  by_cases hlen : rows.length < 2
  · simp [herr, hlen, ledgerCreates]
  rcases hR : rangeAccounts req.SourceAccountID req.DestinationAccountID rows (none, none)
    with ⟨srcO, dstO⟩ | p
  swap
  · simp [herr, hlen, ledgerCreates]
  have hspec := rangeAccounts_spec req.SourceAccountID req.DestinationAccountID
    (fun _ => True) rows (none, none) (srcO, dstO) (fun _ _ => trivial)
    (fun x hx => by simp at hx) (fun x hx => by simp at hx) hR
  cases srcO with
  | none => simp [herr, hlen, ledgerCreates]
  | some src =>
    by_cases hlt : F64.lt src.Balance req.Amount = true
    · simp [herr, hlen, hlt, ledgerCreates]
    cases dstO with
    | none => simp [herr, hlen, hlt, doTransaction_nil_dest, ledgerCreates]
    | some dst =>
      right
      simp only [herr, hlen, hlt, ne_eq, not_true_eq_false, ↓reduceIte, Bool.false_eq_true,
        ledgerCreates, (doTransaction_spec uc src dst req.Amount w1).1]
      exact ⟨_, rfl, (hspec.1 src rfl).1, (hspec.2 dst rfl).1, rfl⟩

/-- A unit of work that stops at the locking read, the row count or the balance
check passes nothing to the ledger `Create`. -/
theorem unitOfWork_before_ledger (uc : accountUsecase σ) (req : dto.TransactionDTO)
    (w : σ)
    (h : (uc.accountRepo.FindForUpdate
          [req.SourceAccountID, req.DestinationAccountID] w).1.2 ≠ GoError.nil ∨
      (uc.accountRepo.FindForUpdate
          [req.SourceAccountID, req.DestinationAccountID] w).1.1.length < 2 ∨
      ∃ src destAcc,
        rangeAccounts req.SourceAccountID req.DestinationAccountID
          (uc.accountRepo.FindForUpdate
            [req.SourceAccountID, req.DestinationAccountID] w).1.1 (none, none)
          = Outcome.ret (some src, destAcc) ∧
        F64.lt src.Balance req.Amount = true) :
    (uc.unitOfWork req w).trace
      = [Call.FindForUpdate [req.SourceAccountID, req.DestinationAccountID]] := by
  rcases hF : uc.accountRepo.FindForUpdate [req.SourceAccountID, req.DestinationAccountID] w
    with ⟨⟨rows, err⟩, w1⟩
  rw [unitOfWork_eq uc req w w1 rows err hF]
  rw [hF] at h
  by_cases herr : err = GoError.nil
  swap
  · simp [herr]
  by_cases hlen : rows.length < 2
  · simp [herr, hlen]
  rcases h with h | h | ⟨src, destAcc, hR, hlt⟩
  · exact absurd herr h
  · exact absurd h hlen
  · simp only at hR
    simp [herr, hlen, hR, hlt]

/-- The manager of `GetTxManager` hands back what the unit of work returned and
the calls it made. -/
theorem GetTxManager_faithful (fn : σ → Exec σ GoError) (s : σ) :
    ((db.GetTxManager : trm.Manager σ).Do fn s).out = (fn s).out ∧
    ((db.GetTxManager : trm.Manager σ).Do fn s).trace = (fn s).trace := by
  simp only [db.GetTxManager]
  split <;> simp_all

theorem F64_le_zero_fin_false (n : Nat) : F64.le F64.zero (F64.fin false n) = true := by
  simp [F64.le, F64.zero, F64.toInt]

theorem F64_round_false_nonneg (n : Nat) : F64.le F64.zero (F64.round false n) = true := by
  unfold F64.round
  by_cases h : (if (decide (2 ^ (F64.bitLen n - 53) < 2 * (n % 2 ^ (F64.bitLen n - 53))) ||
      (decide (2 * (n % 2 ^ (F64.bitLen n - 53)) = 2 ^ (F64.bitLen n - 53)) &&
        decide (n / 2 ^ (F64.bitLen n - 53) % 2 = 1))) = true
      then n / 2 ^ (F64.bitLen n - 53) + 1 else n / 2 ^ (F64.bitLen n - 53))
      * 2 ^ (F64.bitLen n - 53) < F64.overflowThreshold
  · simp only [h, if_true]
    exact F64_le_zero_fin_false _
  · simp only [h, if_false]
    simp [F64.le, F64.zero]

theorem F64_le_zero_of_lt_zero (x : F64) (h : F64.lt F64.zero x = true) :
    F64.le F64.zero x = true := by
  cases x <;> simp_all [F64.le, F64.lt, F64.zero]
  omega

/-- A debit that passed the balance check with a finite positive amount leaves a
balance that is `>= 0`. -/
theorem F64_sub_nonneg (s a : F64) (ha : F64.lt F64.zero a = true)
    (hfin : F64.isFinite a = true) (hlt : F64.lt s a = false) (hs : F64.le F64.zero s = true) :
    F64.le F64.zero (F64.sub s a) = true := by
  cases a with
  | nan => simp [F64.isFinite] at hfin
  | inf b => simp [F64.isFinite] at hfin
  | fin an am =>
    cases s with
    | nan => simp [F64.le, F64.zero] at hs
    | inf b =>
      cases b
      · simp [F64.sub, F64.negate, F64.add, F64.le, F64.zero]
      · simp [F64.le, F64.zero] at hs
    | fin sn sm =>
      have ha' : (0 : Int) < F64.toInt (F64.fin an am) := by
        simpa [F64.lt, F64.zero, F64.toInt] using ha
      have hlt' : F64.toInt (F64.fin an am) ≤ F64.toInt (F64.fin sn sm) := by
        simpa [F64.lt] using hlt
      have hneg : F64.toInt (F64.fin (!an) am) = - F64.toInt (F64.fin an am) := by
        cases an <;> simp [F64.toInt]
      have hsn : sn = false := by
        cases sn
        · rfl
        · cases an <;> simp [F64.toInt] at hlt' ha' <;> omega
      subst hsn
      simp only [F64.sub, F64.negate, F64.add, hneg]
      split
      · simp [F64.le, F64.zero, F64.toInt]
      · have hd : decide (F64.toInt (F64.fin false sm) + -F64.toInt (F64.fin an am) < 0)
            = false := by
          simp only [decide_eq_false_iff_not]; omega
        rw [hd]
        exact F64_round_false_nonneg _

/-- A credit of a positive amount to a balance that is `>= 0` is `>= 0`. -/
theorem F64_add_nonneg (d a : F64) (ha : F64.lt F64.zero a = true)
    (hd : F64.le F64.zero d = true) : F64.le F64.zero (F64.add d a) = true := by
  cases a with
  | nan => simp [F64.lt, F64.zero] at ha
  | inf b =>
    cases b
    · cases d with
      | nan => simp [F64.le, F64.zero] at hd
      | inf c =>
        cases c
        · simp [F64.add, F64.le, F64.zero]
        · simp [F64.le, F64.zero] at hd
      | fin dn dm => simp [F64.add, F64.le, F64.zero]
    · simp [F64.lt, F64.zero] at ha
  | fin an am =>
    cases d with
    | nan => simp [F64.le, F64.zero] at hd
    | inf c =>
      cases c
      · simp [F64.add, F64.le, F64.zero]
      · simp [F64.le, F64.zero] at hd
    | fin dn dm =>
      have ha' : (0 : Int) < F64.toInt (F64.fin an am) := by
        simpa [F64.lt, F64.zero, F64.toInt] using ha
      have hd' : (0 : Int) ≤ F64.toInt (F64.fin dn dm) := by
        simpa [F64.le, F64.zero, F64.toInt] using hd
      simp only [F64.add]
      split
      · omega
      · have hdec : decide (F64.toInt (F64.fin dn dm) + F64.toInt (F64.fin an am) < 0)
            = false := by
          simp only [decide_eq_false_iff_not]; omega
        rw [hdec]
        exact F64_round_false_nonneg _

/-- The locking read returns rows of the store and leaves the store as it is. -/
theorem postgres_FindForUpdate_spec (db : postgres.DB) (ids : List Nat) (s : postgres.Store) :
    ((postgres.NewAccountRepository db).FindForUpdate ids s).2 = s ∧
    ∀ x, some x ∈ ((postgres.NewAccountRepository db).FindForUpdate ids s).1.1 →
      x ∈ s.accounts := by
  simp only [postgres.NewAccountRepository, postgres.accountRepository.FindForUpdate]
  by_cases h1 : db s (Call.FindForUpdate ids) = GoError.nil
  · simp only [h1, ne_eq, not_true_eq_false, ↓reduceIte]
    split
    · simp
    · refine ⟨rfl, ?_⟩
      intro x hx
      simp only [List.mem_map, Option.some.injEq, exists_eq_right] at hx
      exact (List.mem_filter.1 hx).1
  · simp only [h1, ne_eq, not_false_eq_true, ↓reduceIte]
    split <;> simp

/-- `FindOne` leaves the store as it is. -/
theorem postgres_FindOne_state (db : postgres.DB) (id : Nat) (s : postgres.Store) :
    ((postgres.NewAccountRepository db).FindOne id s).2 = s := by
  simp only [postgres.NewAccountRepository, postgres.accountRepository.FindOne]
  split_ifs <;> rfl

/-- The ledger insert leaves the accounts as they are. -/
theorem postgres_TransactionCreate_accounts (db : postgres.DB) (t : entity.Transaction)
    (s : postgres.Store) :
    ((postgres.NewTransactionRepository db).Create t s).2.accounts = s.accounts := by
  simp only [postgres.NewTransactionRepository, postgres.transactionRepository.Create]
  split <;> rfl

theorem postgres_saveRow_mem (account x : entity.Account) (rows : List entity.Account)
    (h : x ∈ postgres.saveRow account rows) : x = account ∨ x ∈ rows := by
  induction rows with
  | nil => simp [postgres.saveRow] at h
  | cons a rest ih =>
    simp only [postgres.saveRow, List.mem_cons] at h
    rcases h with h | h
    · split at h
      · exact Or.inl h
      · exact Or.inr (by rw [h]; exact List.mem_cons_self _ _)
    · rcases ih h with h' | h'
      · exact Or.inl h'
      · exact Or.inr (List.mem_cons_of_mem _ h')

/-- Saving an account whose balance is `>= 0` keeps every stored balance `>= 0`. -/
theorem postgres_Update_nonNegative (db : postgres.DB) (account : entity.Account)
    (s : postgres.Store) (hs : postgres.NonNegative s)
    (ha : F64.le F64.zero account.Balance = true) :
    postgres.NonNegative ((postgres.NewAccountRepository db).Update account s).2 := by
  simp only [postgres.NewAccountRepository, postgres.accountRepository.Update]
  split
  · exact hs
  · split
    · intro x hx
      rcases postgres_saveRow_mem account x s.accounts hx with h | h
      · rw [h]; exact ha
      · exact hs x h
    · intro x hx
      simp only [List.mem_append, List.mem_singleton] at hx
      rcases hx with h | h
      · exact hs x h
      · rw [h]; exact ha

/-- Inserting an account whose balance is `>= 0` keeps every stored balance `>= 0`. -/
theorem postgres_Create_nonNegative (db : postgres.DB) (account : entity.Account)
    (s : postgres.Store) (hs : postgres.NonNegative s)
    (ha : F64.le F64.zero account.Balance = true) :
    postgres.NonNegative ((postgres.NewAccountRepository db).Create account s).2 := by
  have hins : postgres.NonNegative
      { s with accounts := s.accounts ++ [postgres.stamped account s] } := by
    intro x hx
    simp only [List.mem_append, List.mem_singleton] at hx
    rcases hx with h | h
    · exact hs x h
    · rw [h]
      unfold postgres.stamped
      split <;> exact ha
  simp only [postgres.NewAccountRepository, postgres.accountRepository.Create]
  split_ifs <;> first | exact hs | exact hins

/-- On the store, `doTransaction` with a debit and a credit that are `>= 0` keeps
every stored balance `>= 0`, wherever it stops. -/
theorem doTransaction_nonNegative (db : postgres.DB)
    (tx : trm.Manager postgres.Store) (now : postgres.Store → Nat)
    (src : entity.Account) (destAcc : Option entity.Account) (amount : F64)
    (s : postgres.Store) (hs : postgres.NonNegative s)
    (hsrc : F64.le F64.zero (F64.sub src.Balance amount) = true)
    (hdst : ∀ dst, destAcc = some dst → F64.le F64.zero (F64.add dst.Balance amount) = true) :
    postgres.NonNegative
      ((NewAccountUsecase (postgres.NewAccountRepository db)
        (postgres.NewTransactionRepository db) tx now).doTransaction
          (some src) destAcc amount s).st := by
  cases destAcc with
  | none => rw [doTransaction_nil_dest]; exact hs
  | some dst =>
    have h1 : postgres.NonNegative ((postgres.NewTransactionRepository db).Create
        { ID := 0, SourceAccountID := src.ID, DestinationAccountID := dst.ID,
          Amount := amount, TransactionTime := now s,
          SourceAccount := entity.Account.zero,
          DestinationAccount := entity.Account.zero } s).2 := by
      intro x hx
      rw [postgres_TransactionCreate_accounts] at hx
      exact hs x hx
    have h2 := postgres_Update_nonNegative db
      { src with Balance := F64.sub src.Balance amount } _ h1 hsrc
    have h3 := postgres_Update_nonNegative db
      { dst with Balance := F64.add dst.Balance amount } _ h2 (hdst dst rfl)
    simp only [accountUsecase.doTransaction, NewAccountUsecase]
    split_ifs <;> first | exact h1 | exact h2 | exact h3

/-- On the store, the unit of work of a request with a finite positive amount
keeps every stored balance `>= 0`, wherever it stops. -/
theorem unitOfWork_nonNegative (db : postgres.DB)
    (tx : trm.Manager postgres.Store) (now : postgres.Store → Nat)
    (req : dto.TransactionDTO) (s : postgres.Store) (hs : postgres.NonNegative s)
    (ha : F64.lt F64.zero req.Amount = true) (hfin : F64.isFinite req.Amount = true) :
    postgres.NonNegative
      ((NewAccountUsecase (postgres.NewAccountRepository db)
        (postgres.NewTransactionRepository db) tx now).unitOfWork req s).st := by
  obtain ⟨hst, hrows⟩ := postgres_FindForUpdate_spec db
    [req.SourceAccountID, req.DestinationAccountID] s
  rcases hF : (postgres.NewAccountRepository db).FindForUpdate
    [req.SourceAccountID, req.DestinationAccountID] s with ⟨⟨rows, err⟩, w1⟩
  rw [hF] at hst hrows
  simp only at hst hrows
  subst hst
  rw [unitOfWork_eq _ req w1 w1 rows err hF]
  by_cases herr : err = GoError.nil
  swap
  · simpa [herr] using hs
  by_cases hlen : rows.length < 2
  · simpa [herr, hlen] using hs
  rcases hR : rangeAccounts req.SourceAccountID req.DestinationAccountID rows (none, none)
    with ⟨srcO, dstO⟩ | p
  swap
  · simpa [herr, hlen] using hs
  have hspec := rangeAccounts_spec req.SourceAccountID req.DestinationAccountID
    (fun x => x ∈ w1.accounts) rows (none, none) (srcO, dstO) hrows
    (fun x hx => by simp at hx) (fun x hx => by simp at hx) hR
  cases srcO with
  | none => simpa [herr, hlen] using hs
  | some src =>
    by_cases hlt : F64.lt src.Balance req.Amount = true
    · simpa [herr, hlen, hlt] using hs
    simp only [herr, hlen, hlt, ne_eq, not_true_eq_false, ↓reduceIte, Bool.false_eq_true]
    have hsrcmem := (hspec.1 src rfl).2
    apply doTransaction_nonNegative db tx now src dstO req.Amount w1 hs
    · exact F64_sub_nonneg _ _ ha hfin (by simpa using hlt) (hs src hsrcmem)
    · intro dst hd
      exact F64_add_nonneg _ _ ha (hs dst (hspec.2 dst hd).2)

theorem F64_round_signbit (neg : Bool) (n : Nat) : F64.signbit (F64.round neg n) = neg := by
  unfold F64.round
  by_cases h : (if (decide (2 ^ (F64.bitLen n - 53) < 2 * (n % 2 ^ (F64.bitLen n - 53))) ||
      (decide (2 * (n % 2 ^ (F64.bitLen n - 53)) = 2 ^ (F64.bitLen n - 53)) &&
        decide (n / 2 ^ (F64.bitLen n - 53) % 2 = 1))) = true
      then n / 2 ^ (F64.bitLen n - 53) + 1 else n / 2 ^ (F64.bitLen n - 53))
      * 2 ^ (F64.bitLen n - 53) < F64.overflowThreshold
  · simp only [h, if_true]; rfl
  · simp only [h, if_false]; rfl

/-- Conservation in float64 when neither the debit nor the credit is rounded. -/
theorem F64_conservation_exact (s d a : F64)
    (hs : F64.isFinite s = true) (hd : F64.isFinite d = true) (hfa : F64.isFinite a = true)
    (ha : F64.lt F64.zero a = true) (hlt : F64.lt s a = false)
    (hx : F64.isExactly (F64.sub s a) (F64.toInt s - F64.toInt a) = true)
    (hy : F64.isExactly (F64.add d a) (F64.toInt d + F64.toInt a) = true) :
    F64.add (F64.sub s a) (F64.add d a) = F64.add s d := by
  cases s with
  | nan => simp [F64.isFinite] at hs
  | inf _ => simp [F64.isFinite] at hs
  | fin sn sm =>
  cases d with
  | nan => simp [F64.isFinite] at hd
  | inf _ => simp [F64.isFinite] at hd
  | fin dn dm =>
  cases a with
  | nan => simp [F64.isFinite] at hfa
  | inf _ => simp [F64.isFinite] at hfa
  | fin an am =>
  have ha' : (0 : Int) < F64.toInt (F64.fin an am) := by
    simpa [F64.lt, F64.zero, F64.toInt] using ha
  have hlt' : F64.toInt (F64.fin an am) ≤ F64.toInt (F64.fin sn sm) := by
    simpa [F64.lt] using hlt
  have hsn : sn = false := by
    cases sn
    · rfl
    · cases an <;> simp [F64.toInt] at hlt' ha' <;> omega
  subst hsn
  have hneg : F64.toInt (F64.fin (!an) am) = - F64.toInt (F64.fin an am) := by
    cases an <;> simp [F64.toInt]
  have hxs : F64.signbit (F64.sub (F64.fin false sm) (F64.fin an am)) = false := by
    simp only [F64.sub, F64.negate, F64.add, hneg]
    split
    · rfl
    · have hdec : decide (F64.toInt (F64.fin false sm) + -F64.toInt (F64.fin an am) < 0)
          = false := by
        simp only [decide_eq_false_iff_not]; omega
      rw [hdec]
      exact F64_round_signbit _ _
  rcases hX : F64.sub (F64.fin false sm) (F64.fin an am) with _ | _ | ⟨xn, xm⟩
  · rw [hX] at hx; simp [F64.isExactly, F64.isFinite] at hx
  · rw [hX] at hx; simp [F64.isExactly, F64.isFinite] at hx
  rcases hY : F64.add (F64.fin dn dm) (F64.fin an am) with _ | _ | ⟨yn, ym⟩
  · rw [hY] at hy; simp [F64.isExactly, F64.isFinite] at hy
  · rw [hY] at hy; simp [F64.isExactly, F64.isFinite] at hy
  rw [hX] at hx hxs
  rw [hY] at hy
  simp only [F64.signbit] at hxs
  subst hxs
  simp only [F64.isExactly, F64.isFinite, Bool.true_and, decide_eq_true_eq] at hx hy
  have hsum : F64.toInt (F64.fin false xm) + F64.toInt (F64.fin yn ym)
      = F64.toInt (F64.fin false sm) + F64.toInt (F64.fin dn dm) := by
    rw [hx, hy]; ring
  simp only [F64.add, hsum, Bool.false_and]

/-- The manager of `GetTxManager` leaves the state before the call or the state
the unit of work produced. -/
theorem GetTxManager_state (fn : σ → Exec σ GoError) (s : σ) :
    ((db.GetTxManager : trm.Manager σ).Do fn s).st = s ∨
    ((db.GetTxManager : trm.Manager σ).Do fn s).st = (fn s).st := by
  simp only [db.GetTxManager]
  split <;> simp

/-- `GetBalance` starts with `FindOne` whatever the identifier is. -/
theorem GetBalance_trace (uc : accountUsecase σ) (id : Nat) (w : σ) :
    (uc.GetBalance id w).trace = [Call.FindOne id] := by
  rcases hF : uc.accountRepo.FindOne id w with ⟨⟨found, err⟩, w1⟩
  by_cases he : err = GoError.nil
  · cases found <;> simp [accountUsecase.GetBalance, hF, he]
  · simp [accountUsecase.GetBalance, hF, he]

/-- A failed point read makes `GetBalance` answer not-found. -/
theorem GetBalance_store_error (uc : accountUsecase σ) (id : Nat) (w w1 : σ)
    (found : Option entity.Account) (err : GoError)
    (hfind : uc.accountRepo.FindOne id w = ((found, err), w1)) (herr : err ≠ GoError.nil) :
    (uc.GetBalance id w).out
      = Outcome.ret (dto.AccountDTO.zero,
          GoError.appError 404 "NOT_FOUND" "account not found" GoError.nil) := by
  simp [accountUsecase.GetBalance, hfind, herr, apperr.AppError.toError,
    apperr.AppError.WithMessage, apperr.ErrNotFound, apperr.NewAppError,
    apperr.mapErrTypeStatus, apperr.ErrTypeBadRequest, apperr.ErrTypeNotFound]

theorem String_ne_empty_of_length_pos (s : String) (h : 0 < s.length) : s ≠ "" := by
  intro hs
  rw [hs] at h
  exact absurd h (by decide)

theorem fieldErrorText_length_pos (f : String × String × String) :
    0 < (fieldErrorText f).length := by
  unfold fieldErrorText
  simp only [String.length_append]
  have : ("Key: '" : String).length = 6 := by decide
  omega

theorem intercalate_go_length (sep : String) :
    ∀ (l : List String) (acc : String), acc.length ≤ (String.intercalate.go acc sep l).length := by
  intro l
  induction l with
  | nil => intro acc; simp [String.intercalate.go]
  | cons a rest ih =>
    intro acc
    simp only [String.intercalate.go]
    have := ih (acc ++ sep ++ a)
    simp only [String.length_append] at this
    omega

/-- The text of a non-empty `ValidationErrors` value is not empty. -/
theorem validationErrors_text_ne_empty (f : String × String × String)
    (fs : List (String × String × String)) :
    String.intercalate "\n" ((f :: fs).map fieldErrorText) ≠ "" := by
  apply String_ne_empty_of_length_pos
  simp only [List.map_cons, String.intercalate]
  have h1 := fieldErrorText_length_pos f
  have h2 := intercalate_go_length "\n" (fs.map fieldErrorText) (fieldErrorText f)
  omega

/-- A rejected struct yields a non-empty `ValidationErrors` value. -/
theorem validateStruct_nonempty (name : String) (checks : List (String × Option String)) :
    dto.validateStruct name checks = GoError.nil ∨
      ∃ f fs, dto.validateStruct name checks = GoError.validationErrors (f :: fs) := by
  unfold dto.validateStruct
  split
  · exact Or.inl rfl
  · exact Or.inr ⟨_, _, rfl⟩

/-- Every error of `doTransaction` is an internal-server `AppError` with a
message. -/
theorem doTransaction_error_shape (uc : accountUsecase σ) (src : entity.Account)
    (destAcc : Option entity.Account) (amount : F64) (w : σ) (e : GoError)
    (h : (uc.doTransaction (some src) destAcc amount w).out = Outcome.ret e) :
    e = GoError.nil ∨ ∃ msg inner, msg ≠ "" ∧
      e = GoError.appError 500 "INTERNAL_SERVER_ERROR" msg inner := by
  cases destAcc with
  | none => rw [doTransaction_nil_dest] at h; simp at h
  | some dst =>
    rcases hC : uc.transactionRepo.Create
        { ID := 0, SourceAccountID := src.ID, DestinationAccountID := dst.ID,
          Amount := amount, TransactionTime := uc.now w,
          SourceAccount := entity.Account.zero,
          DestinationAccount := entity.Account.zero } w with ⟨⟨c, e1⟩, w1⟩
    rcases hS : uc.accountRepo.Update { src with Balance := F64.sub src.Balance amount } w1
      with ⟨e2, w2⟩
    rcases hD : uc.accountRepo.Update { dst with Balance := F64.add dst.Balance amount } w2
      with ⟨e3, w3⟩
    by_cases h1 : e1 = GoError.nil <;> by_cases h2 : e2 = GoError.nil <;>
      by_cases h3 : e3 = GoError.nil <;>
      simp [accountUsecase.doTransaction, hC, hS, hD, h1, h2, h3, apperr.AppError.toError,
        apperr.AppError.WithMessage, apperr.AppError.WithError, apperr.ErrInternalServer,
        apperr.NewAppError, apperr.mapErrTypeStatus, apperr.ErrTypeBadRequest,
        apperr.ErrTypeNotFound, apperr.ErrTypeAlreadyExists, apperr.ErrTypeInternalServer]
        at h <;>
      first
        | exact Or.inl h.symm
        | exact Or.inr ⟨_, _, by decide, h.symm⟩

/-- Every error of the unit of work is a bad-request or internal-server
`AppError` with a message. -/
theorem unitOfWork_error_shape (uc : accountUsecase σ) (req : dto.TransactionDTO) (w : σ)
    (e : GoError) (h : (uc.unitOfWork req w).out = Outcome.ret e) :
    e = GoError.nil ∨ ∃ msg inner, msg ≠ "" ∧
      (e = GoError.appError 400 "INVALID_INPUT" msg inner ∨
       e = GoError.appError 500 "INTERNAL_SERVER_ERROR" msg inner) := by
  rcases hF : uc.accountRepo.FindForUpdate [req.SourceAccountID, req.DestinationAccountID] w
    with ⟨⟨rows, err⟩, w1⟩
  rw [unitOfWork_eq uc req w w1 rows err hF] at h
  by_cases herr : err = GoError.nil
  swap
  · simp [herr, apperr.AppError.toError, apperr.AppError.WithMessage,
      apperr.AppError.WithError, apperr.ErrInternalServer, apperr.NewAppError,
      apperr.mapErrTypeStatus, apperr.ErrTypeBadRequest, apperr.ErrTypeNotFound,
      apperr.ErrTypeAlreadyExists, apperr.ErrTypeInternalServer] at h
    exact Or.inr ⟨_, _, by decide, Or.inr h.symm⟩
  by_cases hlen : rows.length < 2
  · simp [herr, hlen, apperr.AppError.toError, apperr.AppError.WithMessage,
      apperr.ErrInternalServer, apperr.NewAppError,
      apperr.mapErrTypeStatus, apperr.ErrTypeBadRequest, apperr.ErrTypeNotFound,
      apperr.ErrTypeAlreadyExists, apperr.ErrTypeInternalServer] at h
    exact Or.inr ⟨_, _, by decide, Or.inr h.symm⟩
  rcases hR : rangeAccounts req.SourceAccountID req.DestinationAccountID rows (none, none)
    with ⟨srcO, dstO⟩ | p
  swap
  · simp [herr, hlen, hR] at h
  cases srcO with
  | none => simp [herr, hlen, hR] at h
  | some src =>
    by_cases hlt : F64.lt src.Balance req.Amount = true
    · simp [herr, hlen, hR, hlt, apperr.AppError.toError, apperr.AppError.WithMessage,
        apperr.ErrInvalidInput, apperr.NewAppError, apperr.mapErrTypeStatus,
        apperr.ErrTypeBadRequest] at h
      exact Or.inr ⟨_, _, by decide, Or.inl h.symm⟩
    · simp only [herr, hlen, hR, hlt, ne_eq, not_true_eq_false, ↓reduceIte,
        Bool.false_eq_true] at h
      rcases doTransaction_error_shape uc src dstO req.Amount w1 e h with h0 | ⟨m, i, hm, h0⟩
      · exact Or.inl h0
      · exact Or.inr ⟨m, i, hm, Or.inr h0⟩

/-- Every error `MakeTransaction` builds itself, at validation, at the
self-transfer check or in the unit of work, is a bad-request or internal-server
`AppError` with a message; any other result is the one the transaction manager
returned. -/
theorem MakeTransaction_error_shape (uc : accountUsecase σ) (req : dto.TransactionDTO) (w : σ)
    (e : GoError) (h : (uc.MakeTransaction req w).out = Outcome.ret e) :
    (∃ msg inner, msg ≠ "" ∧
      (e = GoError.appError 400 "INVALID_INPUT" msg inner ∨
       e = GoError.appError 500 "INTERNAL_SERVER_ERROR" msg inner)) ∨
    (uc.txManager.Do (uc.unitOfWork req) w).out = Outcome.ret e := by
  by_cases hv : req.Validate = GoError.nil
  swap
  · have hcases := validateStruct_nonempty "TransactionDTO"
      [("SourceAccountID", dto.checkUint req.SourceAccountID),
       ("DestinationAccountID", dto.checkUint req.DestinationAccountID),
       ("Amount", dto.checkFloat req.Amount)]
    have hval : ∃ f fs, req.Validate = GoError.validationErrors (f :: fs) := by
      rcases hcases with h0 | h0
      · exact absurd h0 hv
      · exact h0
    obtain ⟨f, fs, hf⟩ := hval
    left
    simp [accountUsecase.MakeTransaction, hf, GoError.Error, apperr.AppError.toError,
      apperr.AppError.WithMessage, apperr.AppError.WithError, apperr.ErrInvalidInput,
      apperr.NewAppError, apperr.mapErrTypeStatus, apperr.ErrTypeBadRequest] at h
    exact ⟨_, _, validationErrors_text_ne_empty f fs, Or.inl h.symm⟩
  by_cases heq : req.SourceAccountID = req.DestinationAccountID
  · left
    simp [accountUsecase.MakeTransaction, hv, heq, apperr.AppError.toError,
      apperr.AppError.WithMessage, apperr.ErrInvalidInput,
      apperr.NewAppError, apperr.mapErrTypeStatus, apperr.ErrTypeBadRequest] at h
    exact ⟨_, _, by decide, Or.inl h.symm⟩
  · right
    simpa [accountUsecase.MakeTransaction, hv, heq] using h

/-- The loop finds the source when a row carries its ID. -/
theorem rangeAccounts_source_found (sid did : Nat) :
    ∀ (rows : List (Option entity.Account))
      (roles out : Option entity.Account × Option entity.Account),
      rangeAccounts sid did rows roles = Outcome.ret out →
      ((∃ a, some a ∈ rows ∧ a.ID = sid) ∨ roles.1.isSome = true) →
      out.1.isSome = true := by
  intro rows
  induction rows with
  | nil =>
    intro roles out h hex
    simp only [rangeAccounts, Outcome.ret.injEq] at h
    subst h
    rcases hex with ⟨a, ha, _⟩ | h
    · simp at ha
    · exact h
  | cons r rest ih =>
    intro roles out h hex
    obtain ⟨s, d⟩ := roles
    cases r with
    | none => simp [rangeAccounts] at h
    | some acc =>
      simp only [rangeAccounts] at h
      split at h
      · exact ih (some acc, d) out h (Or.inr rfl)
      · rename_i hs
        have hex' : (∃ a, some a ∈ rest ∧ a.ID = sid) ∨ s.isSome = true := by
          rcases hex with ⟨a, ha, hid⟩ | h0
          · simp only [List.mem_cons, Option.some.injEq] at ha
            rcases ha with ha | ha
            · subst ha; exact absurd hid hs
            · exact Or.inl ⟨a, ha, hid⟩
          · exact Or.inr h0
        split at h
        · exact ih (s, some acc) out h hex'
        · exact ih (s, d) out h hex'

/-- The loop finds the destination when a row carries its ID and the two IDs
differ. -/
theorem rangeAccounts_dest_found (sid did : Nat) (hne : sid ≠ did) :
    ∀ (rows : List (Option entity.Account))
      (roles out : Option entity.Account × Option entity.Account),
      rangeAccounts sid did rows roles = Outcome.ret out →
      ((∃ a, some a ∈ rows ∧ a.ID = did) ∨ roles.2.isSome = true) →
      out.2.isSome = true := by
  intro rows
  induction rows with
  | nil =>
    intro roles out h hex
    simp only [rangeAccounts, Outcome.ret.injEq] at h
    subst h
    rcases hex with ⟨a, ha, _⟩ | h
    · simp at ha
    · exact h
  | cons r rest ih =>
    intro roles out h hex
    obtain ⟨s, d⟩ := roles
    cases r with
    | none => simp [rangeAccounts] at h
    | some acc =>
      simp only [rangeAccounts] at h
      split at h
      · rename_i hs
        have hex' : (∃ a, some a ∈ rest ∧ a.ID = did) ∨ d.isSome = true := by
          rcases hex with ⟨a, ha, hid⟩ | h0
          · simp only [List.mem_cons, Option.some.injEq] at ha
            rcases ha with ha | ha
            · subst ha; exact absurd (hs.symm.trans hid) hne
            · exact Or.inl ⟨a, ha, hid⟩
          · exact Or.inr h0
        exact ih (some acc, d) out h hex'
      · split at h
        · exact ih (s, some acc) out h (Or.inr rfl)
        · rename_i hd
          have hex' : (∃ a, some a ∈ rest ∧ a.ID = did) ∨ d.isSome = true := by
            rcases hex with ⟨a, ha, hid⟩ | h0
            · simp only [List.mem_cons, Option.some.injEq] at ha
              rcases ha with ha | ha
              · subst ha; exact absurd hid hd
              · exact Or.inl ⟨a, ha, hid⟩
            · exact Or.inr h0
          exact ih (s, d) out h hex'

/-- Two or more rows with pairwise distinct IDs, each one of two given IDs,
carry both IDs, and the two IDs differ. -/
theorem both_ids_present (sid did : Nat) (accts : List entity.Account)
    (hnodup : (accts.map (fun a => a.ID)).Nodup)
    (hids : ∀ a ∈ accts, a.ID = sid ∨ a.ID = did) (hlen : 2 ≤ accts.length) :
    sid ≠ did ∧ (∃ a ∈ accts, a.ID = sid) ∧ (∃ a ∈ accts, a.ID = did) := by
  match accts, hlen with
  | a :: b :: rest, _ =>
    simp only [List.map_cons, List.nodup_cons, List.mem_cons, not_or] at hnodup
    have hab : a.ID ≠ b.ID := hnodup.1.1
    have ha := hids a (by simp)
    have hb := hids b (by simp)
    rcases ha with ha | ha <;> rcases hb with hb | hb
    · exact absurd (ha.trans hb.symm) hab
    · exact ⟨fun h => hab (ha.trans (h.trans hb.symm)), ⟨a, by simp, ha⟩, ⟨b, by simp, hb⟩⟩
    · exact ⟨fun h => hab (ha.trans (h.symm.trans hb.symm)), ⟨b, by simp, hb⟩,
        ⟨a, by simp, ha⟩⟩
    · exact absurd (ha.trans hb.symm) hab

/-- The locking read of the postgres repository returns non-nil rows, each with
a requested ID, with pairwise distinct IDs when the stored IDs are pairwise
distinct (primary key). -/
theorem postgres_FindForUpdate_rows (db : postgres.DB) (ids : List Nat) (s : postgres.Store) :
    ∃ accts : List entity.Account,
      ((postgres.NewAccountRepository db).FindForUpdate ids s).1.1 = accts.map some ∧
      (∀ a ∈ accts, a.ID ∈ ids) ∧
      ((s.accounts.map (fun a => a.ID)).Nodup → (accts.map (fun a => a.ID)).Nodup) := by
  have hempty : ∃ accts : List entity.Account,
      ([] : List (Option entity.Account)) = accts.map some ∧
      (∀ a ∈ accts, a.ID ∈ ids) ∧
      ((s.accounts.map (fun a => a.ID)).Nodup → (accts.map (fun a => a.ID)).Nodup) :=
    ⟨[], rfl, by simp, by simp⟩
  simp only [postgres.NewAccountRepository, postgres.accountRepository.FindForUpdate]
  split_ifs
  · exact hempty
  · exact hempty
  · exact hempty
  · refine ⟨s.accounts.filter (fun a => decide (a.ID ∈ ids)), rfl, ?_, ?_⟩
    · intro a ha
      have := (List.mem_filter.1 ha).2
      simpa using this
    · intro hn
      exact List.Nodup.sublist (List.Sublist.map _ (List.filter_sublist _)) hn

/-- Two usecases that share the ledger repository, the clock and the
repository's `Update` run the same `doTransaction`. -/
theorem doTransaction_congr (uc uc' : accountUsecase σ)
    (hledger : uc'.transactionRepo = uc.transactionRepo) (hnow : uc'.now = uc.now)
    (hupd : uc'.accountRepo.Update = uc.accountRepo.Update)
    (sourceAccount destinationAccount : Option entity.Account) (amount : F64) (s : σ) :
    uc'.doTransaction sourceAccount destinationAccount amount s
      = uc.doTransaction sourceAccount destinationAccount amount s := by
  simp only [accountUsecase.doTransaction, hledger, hnow, hupd]

/-- The result of `retrieveAccounts` when the locking read returns the two
accounts, in either order. -/
theorem retrieveAccounts_pair (uc : accountUsecase σ) (sid did : Nat) (w w1 : σ)
    (src dst : entity.Account) (rows : List (Option entity.Account))
    (hne : sid ≠ did) (hsid : src.ID = sid) (hdid : dst.ID = did)
    (hrows : rows = [some src, some dst] ∨ rows = [some dst, some src])
    (hfind : uc.accountRepo.FindForUpdate [sid, did] w = ((rows, GoError.nil), w1)) :
    uc.retrieveAccounts sid did w
      = { out := Outcome.ret (some src, some dst, GoError.nil),
          trace := [Call.FindForUpdate [sid, did]], st := w1 } := by
  have hlen : ¬ rows.length < 2 := by rcases hrows with h | h <;> subst h <;> simp
  have hrange := rangeAccounts_pair sid did src dst rows hsid hdid hne hrows
  simp [accountUsecase.retrieveAccounts, hfind, hlen, hrange]

/-- Go `AppError.Error` panics on every `AppError` whose `Err` is nil. -/
theorem AppError_Error_of_nil_Err (e : apperr.AppError) (h : e.Err = GoError.nil) :
    e.Error = Outcome.panic nilDereference := by
  simp [apperr.AppError.Error, h, GoError.Error]

/-- Every call of `InitConfig` made while `configInstance` is set returns the
stored configuration and a nil error, whatever its server port is. -/
theorem InitConfig_of_stored (k : config.Constants) (os : config.World) (c : config.Config) :
    config.InitConfig k os (some c) = ((some c, GoError.nil), some c) := rfl

/-- When binding fails, `CreateAccount` writes the error response and then the
201 response. -/
theorem CreateAccount_bind_failure (hdl : handler.AccountHandler σ)
    (decode : String → dto.AccountDTO × GoError) (ctx : gin.Context) (w : σ)
    (h : (decode ctx.Request).2 ≠ GoError.nil) :
    (hdl.CreateAccount decode ctx w).ctx.Written
      = ctx.Written ++
        [gin.Response.mk 400 (gin.Body.appError
          { Status := 400, Code := "INVALID_INPUT", Message := "",
            Err := (decode ctx.Request).2 }),
         gin.Response.mk 201 gin.Body.null] := by
  rcases hd : decode ctx.Request with ⟨req, bindErr⟩
  rw [hd] at h
  simp only at h
  simp [handler.AccountHandler.CreateAccount, hd, h, handler.deferredCreated,
    handler.RenderError, handler.RenderResponse, gin.Context.JSON,
    apperr.AppError.toError, apperr.AppError.WithError, apperr.ErrInvalidInput,
    apperr.NewAppError, apperr.mapErrTypeStatus, apperr.ErrTypeBadRequest]

/-- When binding succeeds and the usecase returns, `CreateAccount` writes
exactly one response: the error the usecase returned, or 201. -/
theorem CreateAccount_bound (hdl : handler.AccountHandler σ)
    (decode : String → dto.AccountDTO × GoError) (ctx : gin.Context) (w : σ)
    (req res : dto.AccountDTO) (err : GoError)
    (hbind : decode ctx.Request = (req, GoError.nil))
    (hret : (hdl.accountUC.Create req w).out = Outcome.ret (res, err)) :
    (hdl.CreateAccount decode ctx w).ctx.Written
      = if err ≠ GoError.nil then (handler.RenderError ctx err).Written
        else ctx.Written ++ [gin.Response.mk 201 gin.Body.null] := by
  by_cases he : err = GoError.nil <;>
    simp [handler.AccountHandler.CreateAccount, hbind, hret, he, handler.deferredCreated,
      handler.RenderResponse, gin.Context.JSON]

/-- A call of `WithMessage` through a pointer leaves the package state as it
was. -/
theorem Vars_WithMessage_state (v : apperr.Vars) (p : Option Nat) (m : String) :
    (v.WithMessage p m).2 = v := by
  unfold apperr.Vars.WithMessage
  split <;> rfl

/-- A call of `WithError` through a pointer leaves the package state as it
was. -/
theorem Vars_WithError_state (v : apperr.Vars) (p : Option Nat) (err : GoError) :
    (v.WithError p err).2 = v := by
  unfold apperr.Vars.WithError
  split <;> rfl

/-- A chained `WithMessage` leaves the package state as the first call left
it. -/
theorem thenWithMessage_state (r : Outcome apperr.AppError × apperr.Vars) (m : String) :
    (apperr.thenWithMessage r m).2 = r.2 := by
  unfold apperr.thenWithMessage
  split <;> rfl

/-- The world state a `return` of a built error leaves. -/
theorem returning_state {α : Type} (built : Outcome apperr.AppError × apperr.Vars)
    (results : GoError → α) (tr : List Call) (s : σ) :
    (withVars.returning built results tr s).st = (s, built.2) := by
  unfold withVars.returning
  split <;> rfl

/-- Go `Create` leaves the package variables as they were. -/
theorem withVars_Create_vars (uc : accountUsecase (σ × apperr.Vars))
    (hk : withVars.KeepsVars uc) (account : dto.AccountDTO) (w : σ × apperr.Vars) :
    (withVars.Create uc account w).st.2 = w.2 := by
  obtain ⟨hFindOne, -, hCreate, -, -, -⟩ := hk
  have h1 := hFindOne account.AccountID w
  rcases hF : uc.accountRepo.FindOne account.AccountID w with ⟨⟨existing, e1⟩, w1⟩
  rw [hF] at h1
  simp only at h1
  have h2 := hCreate { ID := account.AccountID, Balance := account.Balance, CreatedAt := 0 } w1
  rcases hC : uc.accountRepo.Create
    { ID := account.AccountID, Balance := account.Balance, CreatedAt := 0 } w1
    with ⟨⟨created, e2⟩, w2⟩
  rw [hC] at h2
  simp only at h2
  simp only [withVars.Create, hF, hC]
  split_ifs
  all_goals first
    | simp only [returning_state, Vars_WithMessage_state, Vars_WithError_state,
        thenWithMessage_state, h1, h2]
    | (cases created <;> simp only [h1, h2])

/-- Go `GetBalance` leaves the package variables as they were. -/
theorem withVars_GetBalance_vars (uc : accountUsecase (σ × apperr.Vars))
    (hk : withVars.KeepsVars uc) (id : Nat) (w : σ × apperr.Vars) :
    (withVars.GetBalance uc id w).st.2 = w.2 := by
  obtain ⟨hFindOne, -, -, -, -, -⟩ := hk
  have h1 := hFindOne id w
  rcases hF : uc.accountRepo.FindOne id w with ⟨⟨account, e1⟩, w1⟩
  rw [hF] at h1
  simp only at h1
  simp only [withVars.GetBalance, hF]
  split_ifs
  · simp only [returning_state, Vars_WithMessage_state, h1]
  · cases account <;> simp only [returning_state, Vars_WithMessage_state, h1]

/-- Go `retrieveAccounts` leaves the package variables as they were. -/
theorem withVars_retrieveAccounts_vars (uc : accountUsecase (σ × apperr.Vars))
    (hk : withVars.KeepsVars uc) (sid did : Nat) (w : σ × apperr.Vars) :
    (withVars.retrieveAccounts uc sid did w).st.2 = w.2 := by
  obtain ⟨-, hFind, -, -, -, -⟩ := hk
  have h1 := hFind [sid, did] w
  rcases hF : uc.accountRepo.FindForUpdate [sid, did] w with ⟨⟨accounts, e1⟩, w1⟩
  rw [hF] at h1
  simp only at h1
  simp only [withVars.retrieveAccounts, hF]
  split_ifs
  · simp only [returning_state, Vars_WithError_state, thenWithMessage_state, h1]
  · simp only [returning_state, Vars_WithMessage_state, h1]
  · rcases rangeAccounts sid did accounts (none, none) with ⟨s, d⟩ | p <;> simp only [h1]

/-- Go `doTransaction` leaves the package variables as they were. -/
theorem withVars_doTransaction_vars (uc : accountUsecase (σ × apperr.Vars))
    (hk : withVars.KeepsVars uc) (src dst : Option entity.Account) (amount : F64)
    (w : σ × apperr.Vars) :
    (withVars.doTransaction uc src dst amount w).st.2 = w.2 := by
  obtain ⟨-, -, -, hUpdate, hLedger, -⟩ := hk
  cases src with
  | none => rfl
  | some src =>
    cases dst with
    | none => rfl
    | some dst =>
      simp only [withVars.doTransaction]
      split_ifs <;>
        simp only [returning_state, Vars_WithError_state, thenWithMessage_state, hUpdate,
          hLedger]

/-- The unit of work leaves the package variables as they were. -/
theorem withVars_unitOfWork_vars (uc : accountUsecase (σ × apperr.Vars))
    (hk : withVars.KeepsVars uc) (req : dto.TransactionDTO) (w : σ × apperr.Vars) :
    (withVars.unitOfWork uc req w).st.2 = w.2 := by
  have h1 := withVars_retrieveAccounts_vars uc hk req.SourceAccountID
    req.DestinationAccountID w
  simp only [withVars.unitOfWork]
  rcases hr : (withVars.retrieveAccounts uc req.SourceAccountID req.DestinationAccountID w).out
    with ⟨s, d, e⟩ | p
  · simp only []
    split_ifs
    · exact h1
    · cases s with
      | none => exact h1
      | some src =>
        simp only []
        split_ifs
        · simp only [returning_state, Vars_WithMessage_state, h1]
        · simp only [withVars_doTransaction_vars uc hk, h1]
  · exact h1

/-- Go `MakeTransaction` leaves the package variables as they were. -/
theorem withVars_MakeTransaction_vars (uc : accountUsecase (σ × apperr.Vars))
    (hk : withVars.KeepsVars uc) (req : dto.TransactionDTO) (w : σ × apperr.Vars) :
    (withVars.MakeTransaction uc req w).st.2 = w.2 := by
  have hDo := hk.2.2.2.2.2 (withVars.unitOfWork uc req) w
    (fun s => withVars_unitOfWork_vars uc hk req s)
  simp only [withVars.MakeTransaction]
  split_ifs
  · have hs := Vars_WithError_state w.2 w.2.ErrInvalidInput req.Validate
    rcases hW : w.2.WithError w.2.ErrInvalidInput req.Validate with ⟨o, v⟩
    rw [hW] at hs
    simp only at hs
    cases o with
    | panic p => exact hs
    | ret e => cases req.Validate.Error <;> exact hs
  · simp only [returning_state, Vars_WithMessage_state]
  · exact hDo

/-- Every call of the usecase leaves the package variables as they were. -/
theorem withVars_serve_vars (uc : accountUsecase (σ × apperr.Vars))
    (hk : withVars.KeepsVars uc) (c : withVars.Request) (w : σ × apperr.Vars) :
    (withVars.serve uc c w).2 = w.2 := by
  cases c with
  | Create account => exact withVars_Create_vars uc hk account w
  | GetBalance id => exact withVars_GetBalance_vars uc hk id w
  | MakeTransaction req => exact withVars_MakeTransaction_vars uc hk req w

/-- Every sequence of usecase calls leaves the package variables as they
were. -/
theorem withVars_serveAll_vars (uc : accountUsecase (σ × apperr.Vars))
    (hk : withVars.KeepsVars uc) (calls : List withVars.Request) (w : σ × apperr.Vars) :
    (withVars.serveAll uc calls w).2 = w.2 := by
  induction calls generalizing w with
  | nil => rfl
  | cons c cs ih =>
    simp only [withVars.serveAll]
    rw [ih, withVars_serve_vars uc hk]

/-- Repositories placed beside the package variables, with the mock transaction
manager, keep the variables. -/
theorem besideVars_KeepsVars (accountRepo : repository.AccountRepository σ)
    (transactionRepo : repository.TransactionRepository σ) (m : mock.MockTxManager)
    (now : σ × apperr.Vars → Nat) :
    withVars.KeepsVars
      (NewAccountUsecase accountRepo.besideVars transactionRepo.besideVars m.toManager now) := by
  refine ⟨fun _ _ => rfl, fun _ _ => rfl, fun _ _ => rfl, fun _ _ => rfl, fun _ _ => rfl, ?_⟩
  intro fn w h
  simp only [NewAccountUsecase, mock.MockTxManager.toManager, mock.MockTxManager.Do]
  split_ifs
  · rfl
  · exact h w

/-- After initialisation a pointer call of `WithMessage` on `ErrInvalidInput`
returns what the method returns on the constant. -/
theorem init_WithMessage_ErrInvalidInput (m : String) :
    apperr.Vars.init.WithMessage apperr.Vars.init.ErrInvalidInput m
      = (Outcome.ret (apperr.ErrInvalidInput.WithMessage m), apperr.Vars.init) := rfl

/-- After initialisation a pointer call of `WithError` on `ErrInvalidInput`
returns what the method returns on the constant. -/
theorem init_WithError_ErrInvalidInput (err : GoError) :
    apperr.Vars.init.WithError apperr.Vars.init.ErrInvalidInput err
      = (Outcome.ret (apperr.ErrInvalidInput.WithError err), apperr.Vars.init) := rfl

/-- After initialisation a pointer call of `WithMessage` on `ErrNotFound`
returns what the method returns on the constant. -/
theorem init_WithMessage_ErrNotFound (m : String) :
    apperr.Vars.init.WithMessage apperr.Vars.init.ErrNotFound m
      = (Outcome.ret (apperr.ErrNotFound.WithMessage m), apperr.Vars.init) := rfl

/-- After initialisation a pointer call of `WithMessage` on `ErrAlreadyExists`
returns what the method returns on the constant. -/
theorem init_WithMessage_ErrAlreadyExists (m : String) :
    apperr.Vars.init.WithMessage apperr.Vars.init.ErrAlreadyExists m
      = (Outcome.ret (apperr.ErrAlreadyExists.WithMessage m), apperr.Vars.init) := rfl

/-- After initialisation a pointer call of `WithMessage` on `ErrInternalServer`
returns what the method returns on the constant. -/
theorem init_WithMessage_ErrInternalServer (m : String) :
    apperr.Vars.init.WithMessage apperr.Vars.init.ErrInternalServer m
      = (Outcome.ret (apperr.ErrInternalServer.WithMessage m), apperr.Vars.init) := rfl

/-- After initialisation a pointer call of `WithError` on `ErrInternalServer`
returns what the method returns on the constant. -/
theorem init_WithError_ErrInternalServer (err : GoError) :
    apperr.Vars.init.WithError apperr.Vars.init.ErrInternalServer err
      = (Outcome.ret (apperr.ErrInternalServer.WithError err), apperr.Vars.init) := rfl

/-- With the package variables as initialised, `Create` over the variables is
`Create` over the constants. -/
theorem withVars_Create_eq (uc : accountUsecase (σ × apperr.Vars))
    (hk : withVars.KeepsVars uc) (account : dto.AccountDTO) (w : σ × apperr.Vars)
    (hw : w.2 = apperr.Vars.init) :
    withVars.Create uc account w = uc.Create account w := by
  obtain ⟨hFindOne, -, hCreate, -, -, -⟩ := hk
  have h1 := hFindOne account.AccountID w
  rcases hF : uc.accountRepo.FindOne account.AccountID w with ⟨⟨existing, e1⟩, ⟨s1, v1⟩⟩
  rw [hF, hw] at h1
  simp only at h1
  subst h1
  have h2 := hCreate { ID := account.AccountID, Balance := account.Balance, CreatedAt := 0 }
    (s1, apperr.Vars.init)
  rcases hC : uc.accountRepo.Create
    { ID := account.AccountID, Balance := account.Balance, CreatedAt := 0 }
    (s1, apperr.Vars.init) with ⟨⟨created, e2⟩, ⟨s2, v2⟩⟩
  rw [hC] at h2
  simp only at h2
  subst h2
  obtain ⟨s, v⟩ := w
  simp only at hw
  subst hw
  simp only [withVars.Create, accountUsecase.Create, hF, hC, withVars.returning,
    init_WithMessage_ErrNotFound, init_WithMessage_ErrAlreadyExists,
    init_WithError_ErrInvalidInput, init_WithError_ErrInternalServer, apperr.thenWithMessage]

/-- With the package variables as initialised, `GetBalance` over the variables
is `GetBalance` over the constants. -/
theorem withVars_GetBalance_eq (uc : accountUsecase (σ × apperr.Vars))
    (hk : withVars.KeepsVars uc) (id : Nat) (w : σ × apperr.Vars)
    (hw : w.2 = apperr.Vars.init) :
    withVars.GetBalance uc id w = uc.GetBalance id w := by
  obtain ⟨hFindOne, -, -, -, -, -⟩ := hk
  have h1 := hFindOne id w
  rcases hF : uc.accountRepo.FindOne id w with ⟨⟨account, e1⟩, ⟨s1, v1⟩⟩
  rw [hF, hw] at h1
  simp only at h1
  subst h1
  simp only [withVars.GetBalance, accountUsecase.GetBalance, hF, withVars.returning,
    init_WithMessage_ErrNotFound]

/-- With the package variables as initialised, `retrieveAccounts` over the
variables is `retrieveAccounts` over the constants. -/
theorem withVars_retrieveAccounts_eq (uc : accountUsecase (σ × apperr.Vars))
    (hk : withVars.KeepsVars uc) (sid did : Nat) (w : σ × apperr.Vars)
    (hw : w.2 = apperr.Vars.init) :
    withVars.retrieveAccounts uc sid did w = uc.retrieveAccounts sid did w := by
  obtain ⟨-, hFind, -, -, -, -⟩ := hk
  have h1 := hFind [sid, did] w
  rcases hF : uc.accountRepo.FindForUpdate [sid, did] w with ⟨⟨accounts, e1⟩, ⟨s1, v1⟩⟩
  rw [hF, hw] at h1
  simp only at h1
  subst h1
  simp only [withVars.retrieveAccounts, accountUsecase.retrieveAccounts, hF,
    withVars.returning, init_WithMessage_ErrInternalServer, init_WithError_ErrInternalServer,
    apperr.thenWithMessage]

/-- With the package variables as initialised, `doTransaction` over the
variables is `doTransaction` over the constants. -/
theorem withVars_doTransaction_eq (uc : accountUsecase (σ × apperr.Vars))
    (hk : withVars.KeepsVars uc) (src dst : Option entity.Account) (amount : F64)
    (w : σ × apperr.Vars) (hw : w.2 = apperr.Vars.init) :
    withVars.doTransaction uc src dst amount w = uc.doTransaction src dst amount w := by
  obtain ⟨-, -, -, hUpdate, hLedger, -⟩ := hk
  cases src with
  | none => rfl
  | some src =>
    cases dst with
    | none => rfl
    | some dst =>
      obtain ⟨s, v⟩ := w
      simp only at hw
      subst hw
      have h1 := hLedger
        { ID := 0, SourceAccountID := src.ID, DestinationAccountID := dst.ID,
          Amount := amount, TransactionTime := uc.now (s, apperr.Vars.init),
          SourceAccount := entity.Account.zero,
          DestinationAccount := entity.Account.zero } (s, apperr.Vars.init)
      rcases hC : uc.transactionRepo.Create
          { ID := 0, SourceAccountID := src.ID, DestinationAccountID := dst.ID,
            Amount := amount, TransactionTime := uc.now (s, apperr.Vars.init),
            SourceAccount := entity.Account.zero,
            DestinationAccount := entity.Account.zero } (s, apperr.Vars.init)
        with ⟨⟨c, e1⟩, ⟨s1, v1⟩⟩
      rw [hC] at h1
      simp only at h1
      subst h1
      have h2 := hUpdate { src with Balance := F64.sub src.Balance amount }
        (s1, apperr.Vars.init)
      rcases hS : uc.accountRepo.Update { src with Balance := F64.sub src.Balance amount }
        (s1, apperr.Vars.init) with ⟨e2, ⟨s2, v2⟩⟩
      rw [hS] at h2
      simp only at h2
      subst h2
      have h3 := hUpdate { dst with Balance := F64.add dst.Balance amount }
        (s2, apperr.Vars.init)
      rcases hD : uc.accountRepo.Update { dst with Balance := F64.add dst.Balance amount }
        (s2, apperr.Vars.init) with ⟨e3, ⟨s3, v3⟩⟩
      rw [hD] at h3
      simp only at h3
      subst h3
      simp only [withVars.doTransaction, accountUsecase.doTransaction, hC, hS, hD,
        withVars.returning, init_WithError_ErrInternalServer, apperr.thenWithMessage, id]

/-- With the package variables as initialised, the unit of work over the
variables is the unit of work over the constants. -/
theorem withVars_unitOfWork_eq (uc : accountUsecase (σ × apperr.Vars))
    (hk : withVars.KeepsVars uc) (req : dto.TransactionDTO) (w : σ × apperr.Vars)
    (hw : w.2 = apperr.Vars.init) :
    withVars.unitOfWork uc req w = uc.unitOfWork req w := by
  have hr := withVars_retrieveAccounts_eq uc hk req.SourceAccountID
    req.DestinationAccountID w hw
  have hv := withVars_retrieveAccounts_vars uc hk req.SourceAccountID
    req.DestinationAccountID w
  rw [hr, hw] at hv
  simp only [withVars.unitOfWork, accountUsecase.unitOfWork, hr]
  rcases hR : uc.retrieveAccounts req.SourceAccountID req.DestinationAccountID w with
    ⟨out, tr, ⟨s1, v1⟩⟩
  rw [hR] at hv
  simp only at hv
  subst hv
  rcases out with ⟨sa, da, e⟩ | p
  · simp only []
    split_ifs
    · rfl
    · cases sa with
      | none => rfl
      | some src =>
        simp only []
        split_ifs
        · simp only [withVars.returning, init_WithMessage_ErrInvalidInput, id]
        · rw [withVars_doTransaction_eq uc hk (some src) da req.Amount
            (s1, apperr.Vars.init) rfl]
  · rfl

/-- With the package variables as initialised and a transaction manager that
runs the unit of work from the state it is called in, `MakeTransaction` over
the variables is `MakeTransaction` over the constants. -/
theorem withVars_MakeTransaction_eq (uc : accountUsecase (σ × apperr.Vars))
    (hk : withVars.KeepsVars uc)
    (hDo : ∀ fn gn w, fn w = gn w → uc.txManager.Do fn w = uc.txManager.Do gn w)
    (req : dto.TransactionDTO) (w : σ × apperr.Vars) (hw : w.2 = apperr.Vars.init) :
    withVars.MakeTransaction uc req w = uc.MakeTransaction req w := by
  have hu := hDo (withVars.unitOfWork uc req) (uc.unitOfWork req) w
    (withVars_unitOfWork_eq uc hk req w hw)
  obtain ⟨s, v⟩ := w
  simp only at hw
  subst hw
  simp only [withVars.MakeTransaction, accountUsecase.MakeTransaction, hu,
    withVars.returning, init_WithMessage_ErrInvalidInput, init_WithError_ErrInvalidInput, id]

/-- Repositories placed beside the package variables, with the transaction
manager of `GetTxManager`, keep the variables. -/
theorem besideVars_GetTxManager_KeepsVars (accountRepo : repository.AccountRepository σ)
    (transactionRepo : repository.TransactionRepository σ)
    (now : σ × apperr.Vars → Nat) :
    withVars.KeepsVars
      (NewAccountUsecase accountRepo.besideVars transactionRepo.besideVars
        db.GetTxManager now) := by
  refine ⟨fun _ _ => rfl, fun _ _ => rfl, fun _ _ => rfl, fun _ _ => rfl, fun _ _ => rfl, ?_⟩
  intro fn w h
  have hw := h w
  simp only [NewAccountUsecase, db.GetTxManager]
  rcases ho : (fn w).out with err | p
  · cases err <;> first | exact hw | rfl
  · exact hw

/-! ## Claims -/

/-- C1: for a valid request (positive distinct IDs, amount > 0), when
`FindForUpdate` returns the source and the destination account (in either
order), the source balance is at least the amount, the ledger insert and both
account updates succeed and the transaction manager runs a succeeding unit of
work through, `MakeTransaction` returns nil and the accounts passed to `Update`
are the source with balance `old - amount` and then the destination with
balance `old + amount`. -/
theorem make_transaction_moves_amount (uc : accountUsecase σ) (req : dto.TransactionDTO)
    (w w1 w2 w3 w4 : σ) (src dst : entity.Account) (rows : List (Option entity.Account))
    (created : Option entity.Transaction)
    (hs : 0 < req.SourceAccountID) (hd : 0 < req.DestinationAccountID)
    (hne : req.SourceAccountID ≠ req.DestinationAccountID)
    (ha : F64.lt F64.zero req.Amount = true)
    (hsid : src.ID = req.SourceAccountID) (hdid : dst.ID = req.DestinationAccountID)
    (hrows : rows = [some src, some dst] ∨ rows = [some dst, some src])
    (hfind : uc.accountRepo.FindForUpdate [req.SourceAccountID, req.DestinationAccountID] w
      = ((rows, GoError.nil), w1))
    (hbal : F64.le req.Amount src.Balance = true)
    (hcreate : uc.transactionRepo.Create
      { ID := 0, SourceAccountID := src.ID, DestinationAccountID := dst.ID,
        Amount := req.Amount, TransactionTime := uc.now w1,
        SourceAccount := entity.Account.zero, DestinationAccount := entity.Account.zero } w1
      = ((created, GoError.nil), w2))
    (hupdSrc : uc.accountRepo.Update { src with Balance := F64.sub src.Balance req.Amount } w2
      = (GoError.nil, w3))
    (hupdDst : uc.accountRepo.Update { dst with Balance := F64.add dst.Balance req.Amount } w3
      = (GoError.nil, w4))
    (hDo : ∀ fn s, (fn s).out = Outcome.ret GoError.nil → uc.txManager.Do fn s = fn s) :
    (uc.MakeTransaction req w).out = Outcome.ret GoError.nil ∧
    updates (uc.MakeTransaction req w).trace
      = [{ src with Balance := F64.sub src.Balance req.Amount },
         { dst with Balance := F64.add dst.Balance req.Amount }] ∧
    (uc.MakeTransaction req w).st = w4 := by
  have hv : req.Validate = GoError.nil :=
    (TransactionDTO_Validate_eq_nil req).2 ⟨hs, hd, ha⟩
  have hu := unitOfWork_success uc req w w1 w2 w3 w4 src dst rows created hne hsid hdid hrows
    hfind hbal hcreate hupdSrc hupdDst
  have hrun : uc.txManager.Do (uc.unitOfWork req) w = uc.unitOfWork req w :=
    hDo _ _ (by rw [hu])
  simp [accountUsecase.MakeTransaction, hv, hne, hrun, hu, updates]

theorem make_transaction_moves_amount_witness :
    (scenario.tested.MakeTransaction scenario.req scenario.store0).out
      = Outcome.ret GoError.nil ∧
    updates (scenario.tested.MakeTransaction scenario.req
        scenario.store0).trace
      = [{ scenario.acc111 with
            Balance := F64.sub scenario.acc111.Balance scenario.req.Amount },
         { scenario.acc222 with
            Balance := F64.add scenario.acc222.Balance scenario.req.Amount }] ∧
    (scenario.tested.MakeTransaction scenario.req scenario.store0).st
      = scenario.store3 :=
  make_transaction_moves_amount scenario.tested scenario.req
    scenario.store0 scenario.store0 scenario.store1 scenario.store2 scenario.store3
    scenario.acc111 scenario.acc222 [some scenario.acc111, some scenario.acc222]
    (some { scenario.ledgerRow with ID := 1 })
    (by decide) (by decide) (by decide) (by decide!) rfl rfl (Or.inl rfl) (by decide!)
    (by decide!) (by decide!) (by decide!) (by decide!)
    (fun _ _ _ => rfl)

/-- C2: for a valid request for which `FindForUpdate` returns both accounts and
the amount exceeds the source balance, `MakeTransaction` returns the
bad-request error "insufficient balance" (status 400) and the only interface
calls are `Do` and `FindForUpdate`: neither the ledger `Create` nor any
`Update` is invoked. -/
theorem make_transaction_insufficient_balance (uc : accountUsecase σ)
    (req : dto.TransactionDTO) (w w1 : σ) (src dst : entity.Account)
    (rows : List (Option entity.Account))
    (hs : 0 < req.SourceAccountID) (hd : 0 < req.DestinationAccountID)
    (hne : req.SourceAccountID ≠ req.DestinationAccountID)
    (ha : F64.lt F64.zero req.Amount = true)
    (hsid : src.ID = req.SourceAccountID) (hdid : dst.ID = req.DestinationAccountID)
    (hrows : rows = [some src, some dst] ∨ rows = [some dst, some src])
    (hfind : uc.accountRepo.FindForUpdate [req.SourceAccountID, req.DestinationAccountID] w
      = ((rows, GoError.nil), w1))
    (hbal : F64.lt src.Balance req.Amount = true)
    (hDo : ∀ fn s, (uc.txManager.Do fn s).out = (fn s).out ∧
      (uc.txManager.Do fn s).trace = (fn s).trace) :
    (uc.MakeTransaction req w).out
      = Outcome.ret (apperr.ErrInvalidInput.WithMessage "insufficient balance").toError ∧
    (apperr.ErrInvalidInput.WithMessage "insufficient balance").toError.status = some 400 ∧
    (uc.MakeTransaction req w).trace
      = [Call.Do, Call.FindForUpdate [req.SourceAccountID, req.DestinationAccountID]] ∧
    ledgerCreates (uc.MakeTransaction req w).trace = [] ∧
    updates (uc.MakeTransaction req w).trace = [] := by
  have hv : req.Validate = GoError.nil :=
    (TransactionDTO_Validate_eq_nil req).2 ⟨hs, hd, ha⟩
  have hlen : ¬ rows.length < 2 := by rcases hrows with h | h <;> subst h <;> simp
  have hrange := rangeAccounts_pair _ _ src dst rows hsid hdid hne hrows
  have hu : uc.unitOfWork req w =
      { out := Outcome.ret (apperr.ErrInvalidInput.WithMessage "insufficient balance").toError,
        trace := [Call.FindForUpdate [req.SourceAccountID, req.DestinationAccountID]],
        st := w1 } := by
    simp [accountUsecase.unitOfWork, accountUsecase.retrieveAccounts, hfind, hlen, hrange, hbal]
  obtain ⟨h1, h2⟩ := hDo (uc.unitOfWork req) w
  rw [hu] at h1 h2
  simp only [accountUsecase.MakeTransaction, hv, hne, h1, h2]
  simp [ledgerCreates, updates]
  decide

theorem make_transaction_insufficient_balance_witness :
    (scenario.tested.MakeTransaction scenario.reqTooMuch scenario.store0).out
      = Outcome.ret (apperr.ErrInvalidInput.WithMessage "insufficient balance").toError ∧
    (apperr.ErrInvalidInput.WithMessage "insufficient balance").toError.status = some 400 ∧
    (scenario.tested.MakeTransaction scenario.reqTooMuch scenario.store0).trace
      = [Call.Do, Call.FindForUpdate [scenario.reqTooMuch.SourceAccountID,
          scenario.reqTooMuch.DestinationAccountID]] ∧
    ledgerCreates (scenario.tested.MakeTransaction scenario.reqTooMuch
      scenario.store0).trace = [] ∧
    updates (scenario.tested.MakeTransaction scenario.reqTooMuch
      scenario.store0).trace = [] :=
  make_transaction_insufficient_balance scenario.tested scenario.reqTooMuch
    scenario.store0 scenario.store0 scenario.acc111 scenario.acc222
    [some scenario.acc111, some scenario.acc222]
    (by decide) (by decide) (by decide) (by decide!) rfl rfl (Or.inl rfl) (by decide!)
    (by decide!) (fun _ _ => ⟨rfl, rfl⟩)

/-- C3: a request whose source and destination IDs are equal (positive, with a
positive amount) is refused with the bad-request error (status 400) without any
interface call: no `Do`, `FindForUpdate`, `Create` or `Update`; the world state
is untouched. -/
theorem make_transaction_self_transfer (uc : accountUsecase σ) (req : dto.TransactionDTO)
    (w : σ) (hs : 0 < req.SourceAccountID)
    (heq : req.SourceAccountID = req.DestinationAccountID)
    (ha : F64.lt F64.zero req.Amount = true) :
    (uc.MakeTransaction req w).out
      = Outcome.ret (apperr.ErrInvalidInput.WithMessage
          "source and destination account IDs cannot be the same").toError ∧
    (apperr.ErrInvalidInput.WithMessage
        "source and destination account IDs cannot be the same").toError.status = some 400 ∧
    (uc.MakeTransaction req w).trace = [] ∧
    (uc.MakeTransaction req w).st = w := by
  have hv : req.Validate = GoError.nil :=
    (TransactionDTO_Validate_eq_nil req).2 ⟨hs, heq ▸ hs, ha⟩
  simp only [accountUsecase.MakeTransaction, hv, heq]
  simp
  decide

theorem make_transaction_self_transfer_witness :
    (scenario.wired.MakeTransaction scenario.reqSelf scenario.store0).out
      = Outcome.ret (apperr.ErrInvalidInput.WithMessage
          "source and destination account IDs cannot be the same").toError ∧
    (apperr.ErrInvalidInput.WithMessage
        "source and destination account IDs cannot be the same").toError.status = some 400 ∧
    (scenario.wired.MakeTransaction scenario.reqSelf scenario.store0).trace
      = [] ∧
    (scenario.wired.MakeTransaction scenario.reqSelf scenario.store0).st
      = scenario.store0 :=
  make_transaction_self_transfer scenario.wired scenario.reqSelf
    scenario.store0 (by decide) rfl (by decide!)

/-- C4: with the transaction manager of `GetTxManager` (commit when the unit of
work returns nil, restore the state before the call when it returns an error),
every `MakeTransaction` call that returns an error, whichever step produced it
and whatever the repositories did to the store on the way, leaves the store
exactly as it was before the call. -/
theorem make_transaction_atomic (accountRepo : repository.AccountRepository σ)
    (transactionRepo : repository.TransactionRepository σ) (now : σ → Nat)
    (req : dto.TransactionDTO) (w : σ) (e : GoError)
    (herr : ((NewAccountUsecase accountRepo transactionRepo db.GetTxManager now).MakeTransaction
      req w).out = Outcome.ret e)
    (hne : e ≠ GoError.nil) :
    ((NewAccountUsecase accountRepo transactionRepo db.GetTxManager now).MakeTransaction
      req w).st = w := by
  revert herr
  simp only [accountUsecase.MakeTransaction, NewAccountUsecase, db.GetTxManager]
  split
  · split <;> simp
  · split
    · simp
    · split
      · rename_i h0
        intro herr
        simp only [h0] at herr
        simp only [Outcome.ret.injEq] at herr
        exact absurd herr.symm hne
      · simp
      · rename_i h0
        intro herr
        simp [h0] at herr

theorem make_transaction_atomic_witness :
    ((registry.app scenario.destinationUpdateFails).unitOfWork scenario.req
        scenario.store0).st = scenario.store2 ∧
    ((registry.app scenario.destinationUpdateFails).MakeTransaction scenario.req
        scenario.store0).st = scenario.store0 :=
  ⟨by decide!,
   make_transaction_atomic (postgres.NewAccountRepository scenario.destinationUpdateFails)
    (postgres.NewTransactionRepository scenario.destinationUpdateFails) (fun s => s.clock)
    scenario.req scenario.store0
    (GoError.appError 500 "INTERNAL_SERVER_ERROR" "failed to update destination account"
      (GoError.errorString "destination account update failed"))
    (by decide!) (by decide)⟩

/-- C5 as stated fails: every balance of the store is `>= 0`, the transfer of
`+Inf` out of the account holding `+Inf` succeeds, and afterwards the source
balance is NaN, which is not `>= 0`. -/
theorem non_negative_fails_at_infinity :
    postgres.NonNegative scenario.storeInf ∧
    (scenario.wired.MakeTransaction scenario.reqInf scenario.storeInf).out
      = Outcome.ret GoError.nil ∧
    (scenario.wired.MakeTransaction scenario.reqInf
        scenario.storeInf).st.accounts.map (fun a => a.Balance)
      = [F64.nan, F64.inf false] ∧
    ¬ postgres.NonNegative
      (scenario.wired.MakeTransaction scenario.reqInf scenario.storeInf).st := by
  decide!

/-- C5 (amended): on the store, with any transaction manager that leaves
either the state before the call or the state the unit of work produced, if
every stored balance is `>= 0` then it still is after any `Create` call and
after any `MakeTransaction` call whose amount is finite, whether the call
succeeds or fails. -/
theorem balances_stay_non_negative (db : postgres.DB) (tx : trm.Manager postgres.Store)
    (now : postgres.Store → Nat)
    (hTx : ∀ fn s, (tx.Do fn s).st = s ∨ (tx.Do fn s).st = (fn s).st)
    (s : postgres.Store) (hs : postgres.NonNegative s) :
    (∀ account, postgres.NonNegative
      ((NewAccountUsecase (postgres.NewAccountRepository db)
        (postgres.NewTransactionRepository db) tx now).Create account s).st) ∧
    (∀ req, F64.isFinite req.Amount = true → postgres.NonNegative
      ((NewAccountUsecase (postgres.NewAccountRepository db)
        (postgres.NewTransactionRepository db) tx now).MakeTransaction req s).st) := by
  constructor
  · intro account
    by_cases hv : account.Validate = GoError.nil
    swap
    · simpa [accountUsecase.Create, hv] using hs
    have hb := ((AccountDTO_Validate_eq_nil account).1 hv).2
    have hfind := postgres_FindOne_state db account.AccountID s
    have hcreate := postgres_Create_nonNegative db
      { ID := account.AccountID, Balance := account.Balance, CreatedAt := 0 } s hs
      (F64_le_zero_of_lt_zero _ hb)
    rcases hF : (postgres.NewAccountRepository db).FindOne account.AccountID s
      with ⟨⟨existing, err⟩, w1⟩
    rw [hF] at hfind
    simp only at hfind
    subst hfind
    simp only [accountUsecase.Create, NewAccountUsecase, hv, hF]
    split_ifs <;> first | exact hs | exact hcreate | (split <;> exact hcreate)
  · intro req hfin
    by_cases hv : req.Validate = GoError.nil
    swap
    · simp only [accountUsecase.MakeTransaction, hv]
      split_ifs with h0
      · split <;> exact hs
      · exact absurd hv h0
    have ha := ((TransactionDTO_Validate_eq_nil req).1 hv).2.2
    by_cases heq : req.SourceAccountID = req.DestinationAccountID
    · simpa [accountUsecase.MakeTransaction, hv, heq] using hs
    have hu := unitOfWork_nonNegative db tx now req s hs ha hfin
    simp only [accountUsecase.MakeTransaction, hv, heq, ne_eq, not_true_eq_false, ↓reduceIte]
    rcases hTx ((NewAccountUsecase (postgres.NewAccountRepository db)
        (postgres.NewTransactionRepository db) tx now).unitOfWork req) s with h | h
    · simp only [NewAccountUsecase] at h ⊢
      rw [h]; exact hs
    · simp only [NewAccountUsecase] at h hu ⊢
      rw [h]; exact hu

theorem balances_stay_non_negative_witness :
    postgres.NonNegative scenario.store0 ∧
    postgres.NonNegative (scenario.wired.Create
      { AccountID := 333, Balance := F64.ofNat 1000 } scenario.store0).st ∧
    postgres.NonNegative (scenario.wired.MakeTransaction scenario.req
      scenario.store0).st :=
  ⟨by decide!,
   (balances_stay_non_negative postgres.healthy db.GetTxManager (fun s => s.clock)
      (fun fn s => GetTxManager_state fn s) scenario.store0 (by decide!)).1
      { AccountID := 333, Balance := F64.ofNat 1000 },
   (balances_stay_non_negative postgres.healthy db.GetTxManager (fun s => s.clock)
      (fun fn s => GetTxManager_state fn s) scenario.store0 (by decide!)).2
      scenario.req (by decide!)⟩

/-- C6: with a transaction manager that hands back the result and the calls of
the unit of work, a successful `MakeTransaction` passes exactly one record to
the ledger `Create`, carrying the source ID, destination ID and amount of the
request; a call that ends at validation, at the self-transfer check, at the
locking read, at the row count or at the balance check passes none; and no
call passes more than one record or a record with other IDs or amount. -/
theorem make_transaction_ledger_record (uc : accountUsecase σ) (req : dto.TransactionDTO)
    (w : σ)
    (hDo : ∀ fn s, (uc.txManager.Do fn s).out = (fn s).out ∧
      (uc.txManager.Do fn s).trace = (fn s).trace) :
    ((uc.MakeTransaction req w).out = Outcome.ret GoError.nil →
      ∃ t, ledgerCreates (uc.MakeTransaction req w).trace = [t] ∧
        t.SourceAccountID = req.SourceAccountID ∧
        t.DestinationAccountID = req.DestinationAccountID ∧ t.Amount = req.Amount) ∧
    ((req.Validate ≠ GoError.nil ∨ req.SourceAccountID = req.DestinationAccountID ∨
      (uc.accountRepo.FindForUpdate
          [req.SourceAccountID, req.DestinationAccountID] w).1.2 ≠ GoError.nil ∨
      (uc.accountRepo.FindForUpdate
          [req.SourceAccountID, req.DestinationAccountID] w).1.1.length < 2 ∨
      ∃ src destAcc,
        rangeAccounts req.SourceAccountID req.DestinationAccountID
          (uc.accountRepo.FindForUpdate
            [req.SourceAccountID, req.DestinationAccountID] w).1.1 (none, none)
          = Outcome.ret (some src, destAcc) ∧
        F64.lt src.Balance req.Amount = true) →
      ledgerCreates (uc.MakeTransaction req w).trace = []) ∧
    (ledgerCreates (uc.MakeTransaction req w).trace = [] ∨
      ∃ t, ledgerCreates (uc.MakeTransaction req w).trace = [t] ∧
        t.SourceAccountID = req.SourceAccountID ∧
        t.DestinationAccountID = req.DestinationAccountID ∧ t.Amount = req.Amount) := by
  obtain ⟨hout, htrace⟩ := hDo (uc.unitOfWork req) w
  by_cases hv : req.Validate = GoError.nil
  swap
  · have hcases := validateStruct_cases "TransactionDTO"
      [("SourceAccountID", dto.checkUint req.SourceAccountID),
       ("DestinationAccountID", dto.checkUint req.DestinationAccountID),
       ("Amount", dto.checkFloat req.Amount)]
    have hval : ∃ fields, req.Validate = GoError.validationErrors fields := by
      rcases hcases with h0 | h0
      · exact absurd h0 hv
      · exact h0
    obtain ⟨fields, hf⟩ := hval
    refine ⟨?_, ?_, ?_⟩ <;>
      simp [accountUsecase.MakeTransaction, hf, GoError.Error, apperr.AppError.toError,
        ledgerCreates]
  by_cases heq : req.SourceAccountID = req.DestinationAccountID
  · refine ⟨?_, ?_, ?_⟩ <;>
      simp [accountUsecase.MakeTransaction, hv, heq, apperr.AppError.toError, ledgerCreates]
  have hrun : uc.MakeTransaction req w =
      { out := (uc.txManager.Do (uc.unitOfWork req) w).out,
        trace := Call.Do :: (uc.txManager.Do (uc.unitOfWork req) w).trace,
        st := (uc.txManager.Do (uc.unitOfWork req) w).st } := by
    simp [accountUsecase.MakeTransaction, hv, heq]
  rw [hrun]
  simp only [hout, htrace, ledgerCreates]
  refine ⟨?_, ?_, unitOfWork_ledger uc req w⟩
  · intro hok
    obtain ⟨src, dst, _, _, hs, hd, _, htr⟩ := unitOfWork_ok_inv uc req w hok
    rw [htr]
    exact ⟨_, rfl, hs, hd, rfl⟩
  · intro h
    rcases h with h | h | h
    · exact absurd hv h
    · exact absurd h heq
    · rw [unitOfWork_before_ledger uc req w h]; rfl

theorem make_transaction_ledger_record_witness :
    ∃ t, ledgerCreates (scenario.wired.MakeTransaction scenario.req
        scenario.store0).trace = [t] ∧
      t.SourceAccountID = scenario.req.SourceAccountID ∧
      t.DestinationAccountID = scenario.req.DestinationAccountID ∧
      t.Amount = scenario.req.Amount :=
  (make_transaction_ledger_record scenario.wired scenario.req scenario.store0
    (fun fn s => GetTxManager_faithful fn s)).1 (by decide!)

/-- C7 as stated fails: with balances `10^16` and `1` and amount `1` the transfer
succeeds, the stored balances become `10^16` and `2`, and the float64 sum after
the transfer, `10^16 + 2`, differs from the float64 sum before it, `10^16`. -/
theorem conservation_fails_in_float64 :
    (scenario.wired.MakeTransaction scenario.reqOne scenario.storeBig).out
      = Outcome.ret GoError.nil ∧
    (scenario.wired.MakeTransaction scenario.reqOne
        scenario.storeBig).st.accounts.map (fun a => a.Balance)
      = [F64.ofNat 10000000000000000, F64.ofNat 2] ∧
    scenario.storeBig.accounts.map (fun a => a.Balance)
      = [F64.ofNat 10000000000000000, F64.ofNat 1] ∧
    F64.add (F64.ofNat 10000000000000000) (F64.ofNat 2) = F64.ofNat 10000000000000002 ∧
    F64.add (F64.ofNat 10000000000000000) (F64.ofNat 1) = F64.ofNat 10000000000000000 ∧
    F64.eq (F64.add (F64.ofNat 10000000000000000) (F64.ofNat 2))
      (F64.add (F64.ofNat 10000000000000000) (F64.ofNat 1)) = false := by
  decide!

/-- C7 (amended): for every successful transfer the accounts passed to `Update`
are the debited source and the credited destination found by the locking read,
and when neither `-=` nor `+=` is rounded (both float64 results are finite and
exact) the float64 sum of the two new balances equals the float64 sum of the
two old balances. -/
theorem conservation_when_exact (uc : accountUsecase σ) (req : dto.TransactionDTO) (w : σ)
    (hDo : ∀ fn s, (uc.txManager.Do fn s).out = (fn s).out ∧
      (uc.txManager.Do fn s).trace = (fn s).trace)
    (hok : (uc.MakeTransaction req w).out = Outcome.ret GoError.nil) :
    ∃ src dst : entity.Account,
      some src ∈ (uc.accountRepo.FindForUpdate
        [req.SourceAccountID, req.DestinationAccountID] w).1.1 ∧
      some dst ∈ (uc.accountRepo.FindForUpdate
        [req.SourceAccountID, req.DestinationAccountID] w).1.1 ∧
      src.ID = req.SourceAccountID ∧ dst.ID = req.DestinationAccountID ∧
      updates (uc.MakeTransaction req w).trace
        = [{ src with Balance := F64.sub src.Balance req.Amount },
           { dst with Balance := F64.add dst.Balance req.Amount }] ∧
      (F64.isFinite src.Balance = true → F64.isFinite dst.Balance = true →
        F64.isFinite req.Amount = true →
        F64.isExactly (F64.sub src.Balance req.Amount)
          (F64.toInt src.Balance - F64.toInt req.Amount) = true →
        F64.isExactly (F64.add dst.Balance req.Amount)
          (F64.toInt dst.Balance + F64.toInt req.Amount) = true →
        F64.add (F64.sub src.Balance req.Amount) (F64.add dst.Balance req.Amount)
          = F64.add src.Balance dst.Balance) := by
  obtain ⟨hout, htrace⟩ := hDo (uc.unitOfWork req) w
  by_cases hv : req.Validate = GoError.nil
  swap
  · have hcases := validateStruct_cases "TransactionDTO"
      [("SourceAccountID", dto.checkUint req.SourceAccountID),
       ("DestinationAccountID", dto.checkUint req.DestinationAccountID),
       ("Amount", dto.checkFloat req.Amount)]
    have hval : ∃ fields, req.Validate = GoError.validationErrors fields := by
      rcases hcases with h0 | h0
      · exact absurd h0 hv
      · exact h0
    obtain ⟨fields, hf⟩ := hval
    simp [accountUsecase.MakeTransaction, hf, GoError.Error, apperr.AppError.toError] at hok
  have ha := ((TransactionDTO_Validate_eq_nil req).1 hv).2.2
  by_cases heq : req.SourceAccountID = req.DestinationAccountID
  · simp [accountUsecase.MakeTransaction, hv, heq, apperr.AppError.toError] at hok
  have hrun : uc.MakeTransaction req w =
      { out := (uc.txManager.Do (uc.unitOfWork req) w).out,
        trace := Call.Do :: (uc.txManager.Do (uc.unitOfWork req) w).trace,
        st := (uc.txManager.Do (uc.unitOfWork req) w).st } := by
    simp [accountUsecase.MakeTransaction, hv, heq]
  rw [hrun] at hok ⊢
  simp only [hout] at hok
  simp only [htrace]
  obtain ⟨src, dst, hsm, hdm, hs, hd, hlt, htr⟩ := unitOfWork_ok_inv uc req w hok
  refine ⟨src, dst, hsm, hdm, hs, hd, ?_, ?_⟩
  · rw [htr]; rfl
  · intro hfs hfd hfa hx hy
    exact F64_conservation_exact _ _ _ hfs hfd hfa ha hlt hx hy

theorem conservation_when_exact_witness :
    (F64.isExactly (F64.sub scenario.acc111.Balance scenario.req.Amount)
      (F64.toInt scenario.acc111.Balance - F64.toInt scenario.req.Amount) = true ∧
     F64.isExactly (F64.add scenario.acc222.Balance scenario.req.Amount)
      (F64.toInt scenario.acc222.Balance + F64.toInt scenario.req.Amount) = true ∧
     F64.add (F64.sub scenario.acc111.Balance scenario.req.Amount)
        (F64.add scenario.acc222.Balance scenario.req.Amount)
      = F64.ofNat 1500) ∧
    ∃ src dst : entity.Account,
      some src ∈ (scenario.wired.accountRepo.FindForUpdate
        [scenario.req.SourceAccountID, scenario.req.DestinationAccountID]
        scenario.store0).1.1 ∧
      some dst ∈ (scenario.wired.accountRepo.FindForUpdate
        [scenario.req.SourceAccountID, scenario.req.DestinationAccountID]
        scenario.store0).1.1 ∧
      src.ID = scenario.req.SourceAccountID ∧ dst.ID = scenario.req.DestinationAccountID ∧
      updates (scenario.wired.MakeTransaction scenario.req
          scenario.store0).trace
        = [{ src with Balance := F64.sub src.Balance scenario.req.Amount },
           { dst with Balance := F64.add dst.Balance scenario.req.Amount }] ∧
      (F64.isFinite src.Balance = true → F64.isFinite dst.Balance = true →
        F64.isFinite scenario.req.Amount = true →
        F64.isExactly (F64.sub src.Balance scenario.req.Amount)
          (F64.toInt src.Balance - F64.toInt scenario.req.Amount) = true →
        F64.isExactly (F64.add dst.Balance scenario.req.Amount)
          (F64.toInt dst.Balance + F64.toInt scenario.req.Amount) = true →
        F64.add (F64.sub src.Balance scenario.req.Amount)
            (F64.add dst.Balance scenario.req.Amount)
          = F64.add src.Balance dst.Balance) :=
  ⟨by decide!,
   conservation_when_exact scenario.wired scenario.req scenario.store0
    (fun fn s => GetTxManager_faithful fn s) (by decide!)⟩

/-- C8: a request with a zero source ID, a zero destination ID or an amount
`<= 0` is refused with a bad-request error (status 400, code INVALID_INPUT)
wrapping the validation error, without any interface call; the world state is
untouched. -/
theorem make_transaction_invalid_shape (uc : accountUsecase σ) (req : dto.TransactionDTO)
    (w : σ)
    (h : req.SourceAccountID = 0 ∨ req.DestinationAccountID = 0 ∨
      F64.le req.Amount F64.zero = true) :
    (∃ msg, (uc.MakeTransaction req w).out
      = Outcome.ret (GoError.appError 400 "INVALID_INPUT" msg req.Validate)) ∧
    req.Validate ≠ GoError.nil ∧
    (uc.MakeTransaction req w).trace = [] ∧
    (uc.MakeTransaction req w).st = w := by
  have hv : req.Validate ≠ GoError.nil := by
    intro hnil
    obtain ⟨h1, h2, h3⟩ := (TransactionDTO_Validate_eq_nil req).1 hnil
    rcases h with h | h | h
    · omega
    · omega
    · rw [F64_lt_zero_of_le_zero _ h] at h3; exact absurd h3 (by decide)
  have hcases := validateStruct_cases "TransactionDTO"
    [("SourceAccountID", dto.checkUint req.SourceAccountID),
     ("DestinationAccountID", dto.checkUint req.DestinationAccountID),
     ("Amount", dto.checkFloat req.Amount)]
  have hval : ∃ fields, req.Validate = GoError.validationErrors fields := by
    rcases hcases with h0 | h0
    · exact absurd h0 hv
    · exact h0
  obtain ⟨fields, hf⟩ := hval
  refine ⟨?_, hv, ?_, ?_⟩ <;>
    simp [accountUsecase.MakeTransaction, hf, GoError.Error, apperr.AppError.toError,
      apperr.AppError.WithMessage, apperr.AppError.WithError, apperr.ErrInvalidInput,
      apperr.NewAppError, apperr.mapErrTypeStatus, apperr.ErrTypeBadRequest]

theorem make_transaction_invalid_shape_witness :
    (∃ msg, (scenario.wired.MakeTransaction scenario.reqNoSource
        scenario.store0).out
      = Outcome.ret (GoError.appError 400 "INVALID_INPUT" msg
          scenario.reqNoSource.Validate)) ∧
    scenario.reqNoSource.Validate ≠ GoError.nil ∧
    (scenario.wired.MakeTransaction scenario.reqNoSource
      scenario.store0).trace = [] ∧
    (scenario.wired.MakeTransaction scenario.reqNoSource
      scenario.store0).st = scenario.store0 :=
  make_transaction_invalid_shape scenario.wired scenario.reqNoSource
    scenario.store0 (Or.inl rfl)

/-- C9: an account-creation request with a zero account ID or an initial
balance `<= 0` is refused with a bad-request error (status 400, code
INVALID_INPUT) and the empty `AccountDTO`, without any interface call: neither
`FindOne` nor `Create`. -/
theorem create_invalid_shape (uc : accountUsecase σ) (account : dto.AccountDTO) (w : σ)
    (h : account.AccountID = 0 ∨ F64.le account.Balance F64.zero = true) :
    (uc.Create account w).out
      = Outcome.ret (dto.AccountDTO.zero,
          GoError.appError 400 "INVALID_INPUT" "" account.Validate) ∧
    account.Validate ≠ GoError.nil ∧
    (uc.Create account w).trace = [] ∧
    (uc.Create account w).st = w := by
  have hv : account.Validate ≠ GoError.nil := by
    intro hnil
    obtain ⟨h1, h2⟩ := (AccountDTO_Validate_eq_nil account).1 hnil
    rcases h with h | h
    · omega
    · rw [F64_lt_zero_of_le_zero _ h] at h2; exact absurd h2 (by decide)
  refine ⟨?_, hv, ?_, ?_⟩ <;>
    simp [accountUsecase.Create, hv, apperr.AppError.toError,
      apperr.AppError.WithError, apperr.ErrInvalidInput,
      apperr.NewAppError, apperr.mapErrTypeStatus, apperr.ErrTypeBadRequest]

theorem create_invalid_shape_witness :
    (scenario.wired.Create scenario.negativeBalance scenario.store0).out
      = Outcome.ret (dto.AccountDTO.zero,
          GoError.appError 400 "INVALID_INPUT" "" scenario.negativeBalance.Validate) ∧
    scenario.negativeBalance.Validate ≠ GoError.nil ∧
    (scenario.wired.Create scenario.negativeBalance scenario.store0).trace
      = [] ∧
    (scenario.wired.Create scenario.negativeBalance scenario.store0).st
      = scenario.store0 :=
  create_invalid_shape scenario.wired scenario.negativeBalance
    scenario.store0 (Or.inr (by decide!))

/-- C10: for a valid account-creation request whose ID `FindOne` finds, `Create`
returns the already-exists error (status 409) and the empty `AccountDTO`; its
only interface call is `FindOne`, so the repository's `Create` and `Update` are
never invoked and the world is left as `FindOne` left it. -/
theorem create_already_exists (uc : accountUsecase σ) (account : dto.AccountDTO) (w w1 : σ)
    (existing : entity.Account)
    (hid : 0 < account.AccountID) (hb : F64.lt F64.zero account.Balance = true)
    (hfind : uc.accountRepo.FindOne account.AccountID w = ((some existing, GoError.nil), w1)) :
    (uc.Create account w).out
      = Outcome.ret (dto.AccountDTO.zero,
          GoError.appError 409 "ALREADY_EXISTS" "account ID already exists" GoError.nil) ∧
    (uc.Create account w).trace = [Call.FindOne account.AccountID] ∧
    accountCreates (uc.Create account w).trace = [] ∧
    updates (uc.Create account w).trace = [] ∧
    (uc.Create account w).st = w1 := by
  have hv : account.Validate = GoError.nil :=
    (AccountDTO_Validate_eq_nil account).2 ⟨hid, hb⟩
  refine ⟨?_, ?_, ?_, ?_, ?_⟩ <;>
    simp [accountUsecase.Create, hv, hfind, apperr.AppError.toError,
      apperr.AppError.WithMessage, apperr.ErrAlreadyExists, accountCreates, updates,
      apperr.NewAppError, apperr.mapErrTypeStatus, apperr.ErrTypeBadRequest,
      apperr.ErrTypeNotFound, apperr.ErrTypeAlreadyExists]

theorem create_already_exists_witness :
    (scenario.wired.Create scenario.duplicate scenario.store0).out
      = Outcome.ret (dto.AccountDTO.zero,
          GoError.appError 409 "ALREADY_EXISTS" "account ID already exists" GoError.nil) ∧
    (scenario.wired.Create scenario.duplicate scenario.store0).trace
      = [Call.FindOne scenario.duplicate.AccountID] ∧
    accountCreates (scenario.wired.Create scenario.duplicate
      scenario.store0).trace = [] ∧
    updates (scenario.wired.Create scenario.duplicate
      scenario.store0).trace = [] ∧
    (scenario.wired.Create scenario.duplicate scenario.store0).st
      = scenario.store0 :=
  create_already_exists scenario.wired scenario.duplicate scenario.store0
    scenario.store0 scenario.acc111 (by decide) (by decide!) (by decide!)

/-- C11: for a valid account-creation request (ID > 0, balance > 0) whose ID
`FindOne` does not find, `Create` passes to the repository an account with
exactly the requested ID and balance; when the insert succeeds it returns an
`AccountDTO` carrying the ID and balance of the row the repository returned,
and when the insert fails it returns the empty `AccountDTO` with an
internal-server error (status 500) wrapping the store error. -/
theorem create_inserts_requested_account (uc : accountUsecase σ) (account : dto.AccountDTO)
    (w w1 w2 : σ) (created : Option entity.Account) (err : GoError)
    (hid : 0 < account.AccountID) (hb : F64.lt F64.zero account.Balance = true)
    (hfind : uc.accountRepo.FindOne account.AccountID w = ((none, GoError.nil), w1))
    (hcreate : uc.accountRepo.Create
      { ID := account.AccountID, Balance := account.Balance, CreatedAt := 0 } w1
      = ((created, err), w2)) :
    (uc.Create account w).trace
      = [Call.FindOne account.AccountID,
         Call.AccountCreate
          { ID := account.AccountID, Balance := account.Balance, CreatedAt := 0 }] ∧
    (uc.Create account w).st = w2 ∧
    (∀ row, err = GoError.nil → created = some row →
      (uc.Create account w).out
        = Outcome.ret ({ AccountID := row.ID, Balance := row.Balance }, GoError.nil)) ∧
    (err ≠ GoError.nil →
      (uc.Create account w).out
        = Outcome.ret (dto.AccountDTO.zero,
            GoError.appError 500 "INTERNAL_SERVER_ERROR" "failed to create account" err)) := by
  have hv : account.Validate = GoError.nil :=
    (AccountDTO_Validate_eq_nil account).2 ⟨hid, hb⟩
  refine ⟨?_, ?_, ?_, ?_⟩
  · by_cases he : err = GoError.nil
    · cases created <;> simp [accountUsecase.Create, hv, hfind, hcreate, he]
    · simp [accountUsecase.Create, hv, hfind, hcreate, he]
  · by_cases he : err = GoError.nil
    · cases created <;> simp [accountUsecase.Create, hv, hfind, hcreate, he]
    · simp [accountUsecase.Create, hv, hfind, hcreate, he]
  · intro row he hc
    simp [accountUsecase.Create, hv, hfind, hcreate, he, hc]
  · intro he
    simp [accountUsecase.Create, hv, hfind, hcreate, he, apperr.AppError.toError,
      apperr.AppError.WithMessage, apperr.AppError.WithError, apperr.ErrInternalServer,
      apperr.NewAppError, apperr.mapErrTypeStatus, apperr.ErrTypeBadRequest,
      apperr.ErrTypeNotFound, apperr.ErrTypeAlreadyExists, apperr.ErrTypeInternalServer]

theorem create_inserts_requested_account_witness :
    (scenario.wired.Create scenario.fresh scenario.store0).trace
      = [Call.FindOne scenario.fresh.AccountID,
         Call.AccountCreate
          { ID := scenario.fresh.AccountID, Balance := scenario.fresh.Balance,
            CreatedAt := 0 }] ∧
    (scenario.wired.Create scenario.fresh scenario.store0).st = scenario.storeWith333 ∧
    (scenario.wired.Create scenario.fresh scenario.store0).out
      = Outcome.ret ({ AccountID := scenario.acc333.ID, Balance := scenario.acc333.Balance },
          GoError.nil) :=
  have h := create_inserts_requested_account scenario.wired scenario.fresh scenario.store0
    scenario.store0 scenario.storeWith333 (some scenario.acc333) GoError.nil
    (by decide) (by decide!) (by decide!) (by decide!)
  ⟨h.1, h.2.1, h.2.2.1 scenario.acc333 rfl rfl⟩

/-- C12: when `FindOne` finds the account, `GetBalance` returns an `AccountDTO`
with the ID and balance of the stored account and no error; when `FindOne`
finds nothing it returns the empty `AccountDTO` with the not-found error
(status 404); in both cases its only interface call is `FindOne`, so nothing is
written, and the world is left as `FindOne` left it. -/
theorem get_balance_reads_account (uc : accountUsecase σ) (id : Nat) (w w1 : σ)
    (found : Option entity.Account)
    (hfind : uc.accountRepo.FindOne id w = ((found, GoError.nil), w1)) :
    (∀ a, found = some a →
      (uc.GetBalance id w).out
        = Outcome.ret ({ AccountID := a.ID, Balance := a.Balance }, GoError.nil)) ∧
    (found = none →
      (uc.GetBalance id w).out
        = Outcome.ret (dto.AccountDTO.zero,
            GoError.appError 404 "NOT_FOUND" "account not found" GoError.nil)) ∧
    (uc.GetBalance id w).trace = [Call.FindOne id] ∧
    accountCreates (uc.GetBalance id w).trace = [] ∧
    updates (uc.GetBalance id w).trace = [] ∧
    ledgerCreates (uc.GetBalance id w).trace = [] ∧
    (uc.GetBalance id w).st = w1 := by
  cases found with
  | none =>
    simp [accountUsecase.GetBalance, hfind, accountCreates, updates, ledgerCreates,
      apperr.AppError.toError, apperr.AppError.WithMessage, apperr.ErrNotFound,
      apperr.NewAppError, apperr.mapErrTypeStatus, apperr.ErrTypeBadRequest,
      apperr.ErrTypeNotFound]
  | some a =>
    simp [accountUsecase.GetBalance, hfind, accountCreates, updates, ledgerCreates]

theorem get_balance_reads_account_witness :
    (scenario.wired.GetBalance 111 scenario.store0).out
      = Outcome.ret ({ AccountID := scenario.acc111.ID, Balance := scenario.acc111.Balance },
          GoError.nil) ∧
    (scenario.wired.GetBalance 111 scenario.store0).trace = [Call.FindOne 111] ∧
    (scenario.wired.GetBalance 111 scenario.store0).st = scenario.store0 ∧
    (scenario.wired.GetBalance 999 scenario.store0).out
      = Outcome.ret (dto.AccountDTO.zero,
          GoError.appError 404 "NOT_FOUND" "account not found" GoError.nil) :=
  have h := get_balance_reads_account scenario.wired 111 scenario.store0 scenario.store0
    (some scenario.acc111) (by decide!)
  have h2 := get_balance_reads_account scenario.wired 999 scenario.store0 scenario.store0
    none (by decide!)
  ⟨h.1 scenario.acc111 rfl, h.2.2.1, h.2.2.2.2.2.2, h2.2.1 rfl⟩

/-- C13 as stated fails: called with identifier 0 the usecase's `GetBalance`
does query the repository (`FindOne 0`) and answers not-found (status 404), not
bad-request. -/
theorem get_balance_zero_queries_repository :
    (scenario.wired.GetBalance 0 scenario.store0).trace = [Call.FindOne 0] ∧
    (scenario.wired.GetBalance 0 scenario.store0).out
      = Outcome.ret (dto.AccountDTO.zero,
          GoError.appError 404 "NOT_FOUND" "account not found" GoError.nil) := by
  decide!

/-- C13 (amended): the rejection of identifier 0 is done by the HTTP handler:
when the path parameter parses to 0, `GetAccountBalance` writes the single
bad-request response (status 400) and does not call the usecase, so no
repository is queried and the world is untouched; the usecase's `GetBalance`
itself validates nothing and starts with `FindOne` for every identifier. -/
theorem get_account_balance_rejects_zero (hdl : handler.AccountHandler σ)
    (ctx : gin.Context) (w : σ)
    (hparse : strconv.ParseUint (ctx.Param "account_id") = (0, GoError.nil)) :
    (hdl.GetAccountBalance ctx w).ctx.Written
      = ctx.Written ++
        [gin.Response.mk 400 (gin.Body.appError
          { Status := 400, Code := "INVALID_INPUT",
            Message := "Account ID must be a positive integer", Err := GoError.nil })] ∧
    (hdl.GetAccountBalance ctx w).panic = none ∧
    (hdl.GetAccountBalance ctx w).trace = [] ∧
    (hdl.GetAccountBalance ctx w).st = w ∧
    ∀ (uc : accountUsecase σ) (id : Nat) (s : σ),
      (uc.GetBalance id s).trace = [Call.FindOne id] := by
  refine ⟨?_, ?_, ?_, ?_, fun uc id s => GetBalance_trace uc id s⟩ <;>
    simp [handler.AccountHandler.GetAccountBalance, hparse, handler.RenderError,
      gin.Context.JSON, apperr.AppError.toError, apperr.AppError.WithMessage,
      apperr.ErrInvalidInput, apperr.NewAppError, apperr.mapErrTypeStatus,
      apperr.ErrTypeBadRequest]

theorem get_account_balance_rejects_zero_witness :
    ((handler.NewAccountHandler scenario.wired.toAccountUC).GetAccountBalance
        scenario.getZero scenario.store0).ctx.Written
      = scenario.getZero.Written ++
        [gin.Response.mk 400 (gin.Body.appError
          { Status := 400, Code := "INVALID_INPUT",
            Message := "Account ID must be a positive integer", Err := GoError.nil })] ∧
    ((handler.NewAccountHandler scenario.wired.toAccountUC).GetAccountBalance
        scenario.getZero scenario.store0).trace = [] :=
  have h := get_account_balance_rejects_zero
    (handler.NewAccountHandler scenario.wired.toAccountUC) scenario.getZero scenario.store0
    (by decide)
  ⟨h.1, h.2.2.1⟩

/-- C14, the code at the failing input: with a store whose point read fails
with "database error", `GetBalance 111` returns the not-found error (status
404, code NOT_FOUND) and drops the store error, where the claim expects an
internal error (status 500). -/
theorem get_balance_store_error_is_not_found :
    ((registry.app scenario.findOneFails).accountRepo.FindOne 111 scenario.store0).1.2
      = GoError.errorString "database error" ∧
    ((registry.app scenario.findOneFails).GetBalance 111 scenario.store0).out
      = Outcome.ret (dto.AccountDTO.zero,
          GoError.appError 404 "NOT_FOUND" "account not found" GoError.nil) ∧
    (GoError.appError 404 "NOT_FOUND" "account not found" GoError.nil).status ≠ some 500 := by
  decide!

/-- C15: for a valid request, when `FindForUpdate` returns an error or fewer
than 2 rows, and the transaction manager hands back what the unit of work
returned, `MakeTransaction` returns an internal-server error (status 500) and
its only interface calls are `Do` and `FindForUpdate`: neither the ledger
`Create` nor any `Update` is invoked. -/
theorem make_transaction_lock_failure (uc : accountUsecase σ) (req : dto.TransactionDTO)
    (w w1 : σ) (rows : List (Option entity.Account)) (err : GoError)
    (hs : 0 < req.SourceAccountID) (hd : 0 < req.DestinationAccountID)
    (hne : req.SourceAccountID ≠ req.DestinationAccountID)
    (ha : F64.lt F64.zero req.Amount = true)
    (hfind : uc.accountRepo.FindForUpdate [req.SourceAccountID, req.DestinationAccountID] w
      = ((rows, err), w1))
    (hfail : err ≠ GoError.nil ∨ rows.length < 2)
    (hDo : ∀ fn s, (uc.txManager.Do fn s).out = (fn s).out ∧
      (uc.txManager.Do fn s).trace = (fn s).trace) :
    (∃ e, (uc.MakeTransaction req w).out = Outcome.ret e ∧ e.status = some 500) ∧
    (err ≠ GoError.nil →
      (uc.MakeTransaction req w).out
        = Outcome.ret (GoError.appError 500 "INTERNAL_SERVER_ERROR"
            "failed to find accounts for update" err)) ∧
    (err = GoError.nil →
      (uc.MakeTransaction req w).out
        = Outcome.ret (GoError.appError 500 "INTERNAL_SERVER_ERROR"
            "accounts not found for update" GoError.nil)) ∧
    (uc.MakeTransaction req w).trace
      = [Call.Do, Call.FindForUpdate [req.SourceAccountID, req.DestinationAccountID]] ∧
    ledgerCreates (uc.MakeTransaction req w).trace = [] ∧
    updates (uc.MakeTransaction req w).trace = [] := by
  have hv : req.Validate = GoError.nil :=
    (TransactionDTO_Validate_eq_nil req).2 ⟨hs, hd, ha⟩
  obtain ⟨hout, htrace⟩ := hDo (uc.unitOfWork req) w
  have hrun : uc.MakeTransaction req w =
      { out := (uc.txManager.Do (uc.unitOfWork req) w).out,
        trace := Call.Do :: (uc.txManager.Do (uc.unitOfWork req) w).trace,
        st := (uc.txManager.Do (uc.unitOfWork req) w).st } := by
    simp [accountUsecase.MakeTransaction, hv, hne]
  rw [hrun]
  simp only [hout, htrace]
  rw [unitOfWork_eq uc req w w1 rows err hfind]
  by_cases he : err = GoError.nil
  · have hlen : rows.length < 2 := by
      rcases hfail with h | h
      · exact absurd he h
      · exact h
    simp [he, hlen, ledgerCreates, updates, GoError.status, apperr.AppError.toError,
      apperr.AppError.WithMessage, apperr.ErrInternalServer, apperr.NewAppError,
      apperr.mapErrTypeStatus, apperr.ErrTypeBadRequest, apperr.ErrTypeNotFound,
      apperr.ErrTypeAlreadyExists, apperr.ErrTypeInternalServer]
  · simp [he, ledgerCreates, updates, GoError.status, apperr.AppError.toError,
      apperr.AppError.WithMessage, apperr.AppError.WithError, apperr.ErrInternalServer,
      apperr.NewAppError, apperr.mapErrTypeStatus, apperr.ErrTypeBadRequest,
      apperr.ErrTypeNotFound, apperr.ErrTypeAlreadyExists, apperr.ErrTypeInternalServer]

theorem make_transaction_lock_failure_witness :
    (scenario.tested.MakeTransaction scenario.reqMissing scenario.store0).out
      = Outcome.ret (GoError.appError 500 "INTERNAL_SERVER_ERROR"
          "accounts not found for update" GoError.nil) ∧
    (scenario.tested.MakeTransaction scenario.reqMissing scenario.store0).trace
      = [Call.Do, Call.FindForUpdate [scenario.reqMissing.SourceAccountID,
          scenario.reqMissing.DestinationAccountID]] :=
  have h := make_transaction_lock_failure scenario.tested scenario.reqMissing
    scenario.store0 scenario.store0 [some scenario.acc111] GoError.nil
    (by decide) (by decide) (by decide) (by decide!) (by decide!) (Or.inr (by decide))
    (fun _ _ => ⟨rfl, rfl⟩)
  ⟨h.2.2.1 rfl, h.2.2.2.1⟩

/-- C16 as stated fails: the error `Create` returns for a request that fails
validation is an `AppError` with an empty `Message`, and the error
`MakeTransaction` returns when the transaction manager fails is the manager's
plain error, not an `AppError`. -/
theorem errors_without_code_or_message :
    (scenario.wired.Create scenario.negativeBalance scenario.store0).out
      = Outcome.ret (dto.AccountDTO.zero,
          GoError.appError 400 "INVALID_INPUT" "" scenario.negativeBalance.Validate) ∧
    (GoError.appError 400 "INVALID_INPUT" ""
      scenario.negativeBalance.Validate).hasCodeAndMessage = false ∧
    (scenario.failingTx.MakeTransaction scenario.req scenario.store0).out
      = Outcome.ret (GoError.errorString "transaction manager error") ∧
    (GoError.errorString "transaction manager error").hasCodeAndMessage = false := by
  decide!

/-- C16 (amended): with a transaction manager that hands back what the unit of
work returned, every error returned by `GetBalance`, by `Create` for a request
that passes validation, and by `MakeTransaction` is an `AppError` whose `Code`
and `Message` are both non-empty. -/
theorem errors_carry_code_and_message (uc : accountUsecase σ)
    (hDo : ∀ fn s, (uc.txManager.Do fn s).out = (fn s).out) :
    (∀ id w res e, (uc.GetBalance id w).out = Outcome.ret (res, e) → e ≠ GoError.nil →
      e.hasCodeAndMessage = true) ∧
    (∀ account w res e, account.Validate = GoError.nil →
      (uc.Create account w).out = Outcome.ret (res, e) → e ≠ GoError.nil →
      e.hasCodeAndMessage = true) ∧
    (∀ req w e, (uc.MakeTransaction req w).out = Outcome.ret e → e ≠ GoError.nil →
      e.hasCodeAndMessage = true) := by
  refine ⟨?_, ?_, ?_⟩
  · intro id w res e h hne
    rcases hF : uc.accountRepo.FindOne id w with ⟨⟨found, err⟩, w1⟩
    by_cases he : err = GoError.nil
    · cases found with
      | none =>
        simp [accountUsecase.GetBalance, hF, he, apperr.AppError.toError,
          apperr.AppError.WithMessage, apperr.ErrNotFound, apperr.NewAppError] at h
        rw [← h.2]; rfl
      | some a =>
        simp [accountUsecase.GetBalance, hF, he] at h
        exact absurd h.2.symm hne
    · simp [accountUsecase.GetBalance, hF, he, apperr.AppError.toError,
        apperr.AppError.WithMessage, apperr.ErrNotFound, apperr.NewAppError] at h
      rw [← h.2]; rfl
  · intro account w res e hv h hne
    rcases hF : uc.accountRepo.FindOne account.AccountID w with ⟨⟨found, err⟩, w1⟩
    rcases hC : uc.accountRepo.Create
      { ID := account.AccountID, Balance := account.Balance, CreatedAt := 0 } w1
      with ⟨⟨created, err2⟩, w2⟩
    by_cases he : err = GoError.nil
    swap
    · simp [accountUsecase.Create, hv, hF, he, apperr.AppError.toError,
        apperr.AppError.WithMessage, apperr.ErrNotFound, apperr.NewAppError] at h
      rw [← h.2]; rfl
    cases found with
    | some a =>
      simp [accountUsecase.Create, hv, hF, he, apperr.AppError.toError,
        apperr.AppError.WithMessage, apperr.ErrAlreadyExists, apperr.NewAppError] at h
      rw [← h.2]; rfl
    | none =>
      by_cases he2 : err2 = GoError.nil
      · cases created with
        | none => simp [accountUsecase.Create, hv, hF, he, hC, he2] at h
        | some c =>
          simp [accountUsecase.Create, hv, hF, he, hC, he2] at h
          exact absurd h.2.symm hne
      · simp [accountUsecase.Create, hv, hF, he, hC, he2, apperr.AppError.toError,
          apperr.AppError.WithMessage, apperr.AppError.WithError,
          apperr.ErrInternalServer, apperr.NewAppError] at h
        rw [← h.2]; rfl
  · intro req w e h hne
    have hshape : ∃ msg inner, msg ≠ "" ∧
        (e = GoError.appError 400 "INVALID_INPUT" msg inner ∨
         e = GoError.appError 500 "INTERNAL_SERVER_ERROR" msg inner) := by
      rcases MakeTransaction_error_shape uc req w e h with h0 | h0
      · exact h0
      · rw [hDo] at h0
        rcases unitOfWork_error_shape uc req w e h0 with h1 | h1
        · exact absurd h1 hne
        · exact h1
    obtain ⟨msg, inner, hmsg, h0 | h0⟩ := hshape <;>
      · rw [h0]; simp [GoError.hasCodeAndMessage, hmsg]

theorem errors_carry_code_and_message_witness :
    (GoError.appError 400 "INVALID_INPUT" "insufficient balance"
      GoError.nil).hasCodeAndMessage = true ∧
    (GoError.appError 409 "ALREADY_EXISTS" "account ID already exists"
      GoError.nil).hasCodeAndMessage = true :=
  have h := errors_carry_code_and_message scenario.wired
    (fun fn s => (GetTxManager_faithful fn s).1)
  ⟨h.2.2 scenario.reqTooMuch scenario.store0 _ (by decide!) (by decide),
   h.2.1 scenario.duplicate scenario.store0 dto.AccountDTO.zero _ (by decide!) (by decide!)
    (by decide)⟩

/-- C17 as stated fails: when the transaction manager fails, `MakeTransaction`
returns the manager's plain error unchanged; it is not an `AppError` and carries
neither status 400 nor status 500. -/
theorem manager_error_has_no_kind :
    (scenario.failingTx.MakeTransaction scenario.req scenario.store0).out
      = Outcome.ret (GoError.errorString "transaction manager error") ∧
    (GoError.errorString "transaction manager error").status = none ∧
    (GoError.errorString "transaction manager error").status ≠ some 400 ∧
    (GoError.errorString "transaction manager error").status ≠ some 500 := by
  decide!

/-- C17 (amended): with a transaction manager that either hands back what the
unit of work returned or fails with an error of its own that is not an
`AppError`, every error returned by `MakeTransaction` is an `AppError` of status
400 or of status 500, or is that error of the manager, returned unchanged, which
`RenderError` renders as an internal-server error (status 500); no error of
another status such as 404 is returned. -/
theorem make_transaction_error_kinds (uc : accountUsecase σ) (req : dto.TransactionDTO)
    (w : σ) (e : GoError)
    (hDo : ∀ fn s, (uc.txManager.Do fn s).out = (fn s).out ∨
      ∃ own, (uc.txManager.Do fn s).out = Outcome.ret own ∧ own.status = none)
    (h : (uc.MakeTransaction req w).out = Outcome.ret e) (hne : e ≠ GoError.nil) :
    e.status = some 400 ∨ e.status = some 500 ∨
    (e.status = none ∧
      (uc.txManager.Do (uc.unitOfWork req) w).out = Outcome.ret e ∧
      ∀ ctx : gin.Context, (handler.RenderError ctx e).Written
        = ctx.Written ++ [gin.Response.mk 500 (gin.Body.appError
            { Status := 500, Code := "undefined_error", Message := "", Err := e })]) := by
  have hshape : ∀ e0 : GoError, (∃ msg inner, msg ≠ "" ∧
        (e0 = GoError.appError 400 "INVALID_INPUT" msg inner ∨
         e0 = GoError.appError 500 "INTERNAL_SERVER_ERROR" msg inner)) →
      e0.status = some 400 ∨ e0.status = some 500 := by
    rintro e0 ⟨msg, inner, _, h0 | h0⟩
    · left; rw [h0]; rfl
    · right; rw [h0]; rfl
  rcases MakeTransaction_error_shape uc req w e h with h0 | h0
  · rcases hshape e h0 with h1 | h1
    · exact Or.inl h1
    · exact Or.inr (Or.inl h1)
  · rcases hDo (uc.unitOfWork req) w with h1 | ⟨own, h1, hown⟩
    · rw [h1] at h0
      rcases unitOfWork_error_shape uc req w e h0 with h2 | h2
      · exact absurd h2 hne
      · rcases hshape e h2 with h3 | h3
        · exact Or.inl h3
        · exact Or.inr (Or.inl h3)
    · have hoe : own = e := by
        rw [h1] at h0
        exact Outcome.ret.inj h0
      subst hoe
      refine Or.inr (Or.inr ⟨hown, h1, ?_⟩)
      intro ctx
      cases own with
      | appError st c m i => simp [GoError.status] at hown
      | nil => exact absurd rfl hne
      | errorString s =>
        simp [handler.RenderError, gin.Context.JSON, apperr.NewAppError,
          apperr.AppError.WithError, apperr.mapErrTypeStatus, apperr.ErrTypeBadRequest,
          apperr.ErrTypeNotFound, apperr.ErrTypeAlreadyExists, apperr.ErrTypeInternalServer]
      | validationErrors fs =>
        simp [handler.RenderError, gin.Context.JSON, apperr.NewAppError,
          apperr.AppError.WithError, apperr.mapErrTypeStatus, apperr.ErrTypeBadRequest,
          apperr.ErrTypeNotFound, apperr.ErrTypeAlreadyExists, apperr.ErrTypeInternalServer]

theorem make_transaction_error_kinds_witness :
    (GoError.errorString "transaction manager error").status = some 400 ∨
    (GoError.errorString "transaction manager error").status = some 500 ∨
    ((GoError.errorString "transaction manager error").status = none ∧
      (scenario.failingTx.txManager.Do (scenario.failingTx.unitOfWork scenario.req)
        scenario.store0).out = Outcome.ret (GoError.errorString "transaction manager error") ∧
      ∀ ctx : gin.Context,
        (handler.RenderError ctx (GoError.errorString "transaction manager error")).Written
        = ctx.Written ++ [gin.Response.mk 500 (gin.Body.appError
            { Status := 500, Code := "undefined_error", Message := "",
              Err := GoError.errorString "transaction manager error" })]) :=
  make_transaction_error_kinds scenario.failingTx scenario.req scenario.store0
    (GoError.errorString "transaction manager error")
    (fun _ _ => Or.inr ⟨_, rfl, rfl⟩) (by decide!) (by decide)

/-- C19: inside the unit of work, once both accounts are found and the balance
suffices, the writes run in the order ledger `Create`, `Update(source)`,
`Update(destination)`; the first one that fails ends the unit of work with an
internal-server error (status 500) wrapping the store error and no later write
is invoked; the unit of work returns nil only when all three succeeded. -/
theorem unit_of_work_writes_in_order (uc : accountUsecase σ) (req : dto.TransactionDTO)
    (w w1 w2 w3 w4 : σ) (src dst : entity.Account) (rows : List (Option entity.Account))
    (created : Option entity.Transaction) (e1 e2 e3 : GoError)
    (hne : req.SourceAccountID ≠ req.DestinationAccountID)
    (hsid : src.ID = req.SourceAccountID) (hdid : dst.ID = req.DestinationAccountID)
    (hrows : rows = [some src, some dst] ∨ rows = [some dst, some src])
    (hfind : uc.accountRepo.FindForUpdate [req.SourceAccountID, req.DestinationAccountID] w
      = ((rows, GoError.nil), w1))
    (hbal : F64.le req.Amount src.Balance = true)
    (hcreate : uc.transactionRepo.Create
      { ID := 0, SourceAccountID := src.ID, DestinationAccountID := dst.ID,
        Amount := req.Amount, TransactionTime := uc.now w1,
        SourceAccount := entity.Account.zero, DestinationAccount := entity.Account.zero } w1
      = ((created, e1), w2))
    (hupdSrc : uc.accountRepo.Update { src with Balance := F64.sub src.Balance req.Amount } w2
      = (e2, w3))
    (hupdDst : uc.accountRepo.Update { dst with Balance := F64.add dst.Balance req.Amount } w3
      = (e3, w4)) :
    (e1 ≠ GoError.nil →
      (uc.unitOfWork req w).out = Outcome.ret (GoError.appError 500 "INTERNAL_SERVER_ERROR"
          "failed to create transaction" e1) ∧
      (uc.unitOfWork req w).trace
        = [Call.FindForUpdate [req.SourceAccountID, req.DestinationAccountID],
           Call.TransactionCreate
            { ID := 0, SourceAccountID := src.ID, DestinationAccountID := dst.ID,
              Amount := req.Amount, TransactionTime := uc.now w1,
              SourceAccount := entity.Account.zero,
              DestinationAccount := entity.Account.zero }]) ∧
    (e1 = GoError.nil → e2 ≠ GoError.nil →
      (uc.unitOfWork req w).out = Outcome.ret (GoError.appError 500 "INTERNAL_SERVER_ERROR"
          "failed to update source account" e2) ∧
      (uc.unitOfWork req w).trace
        = [Call.FindForUpdate [req.SourceAccountID, req.DestinationAccountID],
           Call.TransactionCreate
            { ID := 0, SourceAccountID := src.ID, DestinationAccountID := dst.ID,
              Amount := req.Amount, TransactionTime := uc.now w1,
              SourceAccount := entity.Account.zero,
              DestinationAccount := entity.Account.zero },
           Call.Update { src with Balance := F64.sub src.Balance req.Amount }]) ∧
    (e1 = GoError.nil → e2 = GoError.nil → e3 ≠ GoError.nil →
      (uc.unitOfWork req w).out = Outcome.ret (GoError.appError 500 "INTERNAL_SERVER_ERROR"
          "failed to update destination account" e3) ∧
      (uc.unitOfWork req w).trace
        = [Call.FindForUpdate [req.SourceAccountID, req.DestinationAccountID],
           Call.TransactionCreate
            { ID := 0, SourceAccountID := src.ID, DestinationAccountID := dst.ID,
              Amount := req.Amount, TransactionTime := uc.now w1,
              SourceAccount := entity.Account.zero,
              DestinationAccount := entity.Account.zero },
           Call.Update { src with Balance := F64.sub src.Balance req.Amount },
           Call.Update { dst with Balance := F64.add dst.Balance req.Amount }]) ∧
    ((uc.unitOfWork req w).out = Outcome.ret GoError.nil ↔
      e1 = GoError.nil ∧ e2 = GoError.nil ∧ e3 = GoError.nil) := by
  have hlen : ¬ rows.length < 2 := by rcases hrows with h | h <;> subst h <;> simp
  have hrange := rangeAccounts_pair _ _ src dst rows hsid hdid hne hrows
  have hlt := F64_lt_of_le_false _ _ hbal
  rw [unitOfWork_eq uc req w w1 rows GoError.nil hfind]
  by_cases h1 : e1 = GoError.nil <;> by_cases h2 : e2 = GoError.nil <;>
    by_cases h3 : e3 = GoError.nil <;>
    simp [hlen, hrange, hlt, accountUsecase.doTransaction, hcreate, hupdSrc, hupdDst,
      h1, h2, h3, apperr.AppError.toError, apperr.AppError.WithMessage,
      apperr.AppError.WithError, apperr.ErrInternalServer, apperr.NewAppError,
      apperr.mapErrTypeStatus, apperr.ErrTypeBadRequest, apperr.ErrTypeNotFound,
      apperr.ErrTypeAlreadyExists, apperr.ErrTypeInternalServer]

theorem unit_of_work_writes_in_order_witness :
    ((registry.app scenario.destinationUpdateFails).unitOfWork scenario.req
        scenario.store0).out
      = Outcome.ret (GoError.appError 500 "INTERNAL_SERVER_ERROR"
          "failed to update destination account"
          (GoError.errorString "destination account update failed")) ∧
    updates ((registry.app scenario.destinationUpdateFails).unitOfWork scenario.req
        scenario.store0).trace
      = [scenario.acc111After, scenario.acc222After] :=
  have h := unit_of_work_writes_in_order (registry.app scenario.destinationUpdateFails)
    scenario.req scenario.store0 scenario.store0 scenario.store1 scenario.store2
    scenario.store2 scenario.acc111 scenario.acc222
    [some scenario.acc111, some scenario.acc222] (some { scenario.ledgerRow with ID := 1 })
    GoError.nil GoError.nil (GoError.errorString "destination account update failed")
    (by decide) rfl rfl (Or.inl rfl) (by decide!) (by decide!) (by decide!) (by decide!)
    (by decide!)
  ⟨(h.2.2.1 rfl rfl (by decide)).1, by decide!⟩

/-- C20 as stated fails: when `FindForUpdate` returns two rows of which one
carries an ID that was not asked for, `retrieveAccounts` returns no error and a
nil destination account, and `MakeTransaction` then panics on the nil
dereference. -/
theorem retrieve_accounts_nil_without_error :
    (scenario.strayRow.accountRepo.FindForUpdate [111, 222] scenario.store0).1
      = ([some scenario.acc111, some scenario.acc333], GoError.nil) ∧
    (scenario.strayRow.retrieveAccounts 111 222 scenario.store0).out
      = Outcome.ret (some scenario.acc111, none, GoError.nil) ∧
    (scenario.strayRow.MakeTransaction scenario.req scenario.store0).out
      = Outcome.panic nilDereference := by
  decide!

/-- C20 (amended): when the rows `FindForUpdate` returns are non-nil, have
pairwise distinct IDs and each carry one of the two requested IDs (what a
lookup by primary key returns), then whenever `retrieveAccounts` returns no
error both returned accounts are non-nil, the first with the source ID and the
second with the destination ID; with fewer than two such rows it returns an
error. -/
theorem retrieve_accounts_both_found (uc : accountUsecase σ) (sourceAccID destAccID : Nat)
    (w : σ) (accts : List entity.Account)
    (hrows : (uc.accountRepo.FindForUpdate [sourceAccID, destAccID] w).1.1
      = accts.map some)
    (hnodup : (accts.map (fun a => a.ID)).Nodup)
    (hids : ∀ a ∈ accts, a.ID = sourceAccID ∨ a.ID = destAccID) :
    (∀ sourceAccount destAccount,
      (uc.retrieveAccounts sourceAccID destAccID w).out
        = Outcome.ret (sourceAccount, destAccount, GoError.nil) →
      ∃ src dst, sourceAccount = some src ∧ destAccount = some dst ∧
        src.ID = sourceAccID ∧ dst.ID = destAccID) ∧
    (accts.length < 2 →
      ∃ e, e ≠ GoError.nil ∧
        (uc.retrieveAccounts sourceAccID destAccID w).out = Outcome.ret (none, none, e)) := by
  rcases hF : uc.accountRepo.FindForUpdate [sourceAccID, destAccID] w
    with ⟨⟨rows, err⟩, w1⟩
  rw [hF] at hrows
  simp only at hrows
  subst hrows
  constructor
  · intro sourceAccount destAccount h
    by_cases herr : err = GoError.nil
    swap
    · simp [accountUsecase.retrieveAccounts, hF, herr, apperr.AppError.toError] at h
    by_cases hlen : accts.length < 2
    · simp [accountUsecase.retrieveAccounts, hF, herr, hlen, apperr.AppError.toError] at h
    rcases hR : rangeAccounts sourceAccID destAccID (accts.map some) (none, none)
      with ⟨srcO, dstO⟩ | p
    swap
    · simp [accountUsecase.retrieveAccounts, hF, herr, hlen, hR] at h
    simp [accountUsecase.retrieveAccounts, hF, herr, hlen, hR] at h
    obtain ⟨h1, h2⟩ := h
    subst h1 h2
    have hlen2 : 2 ≤ accts.length := Nat.le_of_not_lt hlen
    obtain ⟨hne, ⟨a, ha, haid⟩, ⟨b, hb, hbid⟩⟩ :=
      both_ids_present sourceAccID destAccID accts hnodup hids hlen2
    have hs := rangeAccounts_source_found sourceAccID destAccID (accts.map some)
      (none, none) (srcO, dstO) hR (Or.inl ⟨a, List.mem_map_of_mem _ ha, haid⟩)
    have hd := rangeAccounts_dest_found sourceAccID destAccID hne (accts.map some)
      (none, none) (srcO, dstO) hR (Or.inl ⟨b, List.mem_map_of_mem _ hb, hbid⟩)
    have hspec := rangeAccounts_spec sourceAccID destAccID (fun _ => True)
      (accts.map some) (none, none) (srcO, dstO) (fun _ _ => trivial)
      (fun x hx => by simp at hx) (fun x hx => by simp at hx) hR
    cases srcO with
    | none => simp at hs
    | some src =>
      cases dstO with
      | none => simp at hd
      | some dst => exact ⟨src, dst, rfl, rfl, (hspec.1 src rfl).1, (hspec.2 dst rfl).1⟩
  · intro hlen
    by_cases herr : err = GoError.nil
    · exact ⟨(apperr.ErrInternalServer.WithMessage "accounts not found for update").toError,
        by simp [apperr.AppError.toError],
        by simp [accountUsecase.retrieveAccounts, hF, herr, hlen]⟩
    · exact ⟨((apperr.ErrInternalServer.WithError err).WithMessage
          "failed to find accounts for update").toError,
        by simp [apperr.AppError.toError],
        by simp [accountUsecase.retrieveAccounts, hF, herr]⟩

theorem retrieve_accounts_both_found_witness :
    (∃ src dst, some scenario.acc111 = some src ∧ some scenario.acc222 = some dst ∧
        src.ID = 111 ∧ dst.ID = 222) ∧
    (scenario.wired.retrieveAccounts 111 222 scenario.store0).out
        = Outcome.ret (some scenario.acc111, some scenario.acc222, GoError.nil) :=
  have h := retrieve_accounts_both_found scenario.wired 111 222 scenario.store0
    [scenario.acc111, scenario.acc222] (by decide!) (by decide) (by decide)
  ⟨h.1 (some scenario.acc111) (some scenario.acc222) (by decide!), by decide!⟩

/-- C21: let two usecases differ only in the order in which `FindForUpdate`
yields the two account rows, `[source, destination]` for one and
`[destination, source]` for the other, with distinct IDs. Then
`retrieveAccounts` returns the same pair (source, destination) for both, the
unit of work is the same, `MakeTransaction` returns the same result after the
same calls, and when it succeeds the accounts passed to `Update` are the debited
source and then the credited destination, for both. -/
theorem roles_independent_of_row_order (uc uc' : accountUsecase σ)
    (req : dto.TransactionDTO) (w w1 : σ) (src dst : entity.Account)
    (hne : req.SourceAccountID ≠ req.DestinationAccountID)
    (hsid : src.ID = req.SourceAccountID) (hdid : dst.ID = req.DestinationAccountID)
    (hfind : uc.accountRepo.FindForUpdate [req.SourceAccountID, req.DestinationAccountID] w
      = (([some src, some dst], GoError.nil), w1))
    (hfind' : uc'.accountRepo.FindForUpdate [req.SourceAccountID, req.DestinationAccountID] w
      = (([some dst, some src], GoError.nil), w1))
    (hledger : uc'.transactionRepo = uc.transactionRepo) (hnow : uc'.now = uc.now)
    (hupd : uc'.accountRepo.Update = uc.accountRepo.Update)
    (htx : uc'.txManager = uc.txManager)
    (hDo : ∀ fn s, (uc.txManager.Do fn s).out = (fn s).out ∧
      (uc.txManager.Do fn s).trace = (fn s).trace) :
    (uc.retrieveAccounts req.SourceAccountID req.DestinationAccountID w).out
      = Outcome.ret (some src, some dst, GoError.nil) ∧
    (uc'.retrieveAccounts req.SourceAccountID req.DestinationAccountID w).out
      = Outcome.ret (some src, some dst, GoError.nil) ∧
    uc'.unitOfWork req w = uc.unitOfWork req w ∧
    (uc'.MakeTransaction req w).out = (uc.MakeTransaction req w).out ∧
    (uc'.MakeTransaction req w).trace = (uc.MakeTransaction req w).trace ∧
    ((uc.MakeTransaction req w).out = Outcome.ret GoError.nil →
      updates (uc.MakeTransaction req w).trace
        = [{ src with Balance := F64.sub src.Balance req.Amount },
           { dst with Balance := F64.add dst.Balance req.Amount }] ∧
      updates (uc'.MakeTransaction req w).trace
        = [{ src with Balance := F64.sub src.Balance req.Amount },
           { dst with Balance := F64.add dst.Balance req.Amount }]) := by
  have hr := retrieveAccounts_pair uc _ _ w w1 src dst _ hne hsid hdid (Or.inl rfl) hfind
  have hr' := retrieveAccounts_pair uc' _ _ w w1 src dst _ hne hsid hdid (Or.inr rfl) hfind'
  have hrange := rangeAccounts_pair req.SourceAccountID req.DestinationAccountID src dst
    [some src, some dst] hsid hdid hne (Or.inl rfl)
  have hrange' := rangeAccounts_pair req.SourceAccountID req.DestinationAccountID src dst
    [some dst, some src] hsid hdid hne (Or.inr rfl)
  have hunit : uc'.unitOfWork req w = uc.unitOfWork req w := by
    rw [unitOfWork_eq uc req w w1 _ _ hfind, unitOfWork_eq uc' req w w1 _ _ hfind']
    simp only [hrange, hrange', doTransaction_congr uc uc' hledger hnow hupd]
    simp
  obtain ⟨hout, htrace⟩ := hDo (uc.unitOfWork req) w
  obtain ⟨hout', htrace'⟩ := hDo (uc'.unitOfWork req) w
  have hmo : (uc'.MakeTransaction req w).out = (uc.MakeTransaction req w).out := by
    simp only [accountUsecase.MakeTransaction, htx]
    split_ifs <;> first | rfl | simp only [hout, hout', hunit]
  have hmt : (uc'.MakeTransaction req w).trace = (uc.MakeTransaction req w).trace := by
    simp only [accountUsecase.MakeTransaction, htx]
    split_ifs <;> first | rfl | simp only [htrace, htrace', hunit]
  refine ⟨by rw [hr], by rw [hr'], hunit, hmo, hmt, ?_⟩
  intro hok
  have hupdates : updates (uc.MakeTransaction req w).trace
      = [{ src with Balance := F64.sub src.Balance req.Amount },
         { dst with Balance := F64.add dst.Balance req.Amount }] := by
    by_cases hv : req.Validate = GoError.nil
    swap
    · have hcases := validateStruct_cases "TransactionDTO"
        [("SourceAccountID", dto.checkUint req.SourceAccountID),
         ("DestinationAccountID", dto.checkUint req.DestinationAccountID),
         ("Amount", dto.checkFloat req.Amount)]
      have hval : ∃ fields, req.Validate = GoError.validationErrors fields := by
        rcases hcases with h0 | h0
        · exact absurd h0 hv
        · exact h0
      obtain ⟨fields, hf⟩ := hval
      simp [accountUsecase.MakeTransaction, hf, GoError.Error, apperr.AppError.toError] at hok
    have hrun : uc.MakeTransaction req w =
        { out := (uc.txManager.Do (uc.unitOfWork req) w).out,
          trace := Call.Do :: (uc.txManager.Do (uc.unitOfWork req) w).trace,
          st := (uc.txManager.Do (uc.unitOfWork req) w).st } := by
      simp [accountUsecase.MakeTransaction, hv, hne]
    rw [hrun] at hok ⊢
    simp only [hout] at hok
    simp only [htrace]
    obtain ⟨s0, d0, hsm, hdm, hs, hd, _, htr⟩ := unitOfWork_ok_inv uc req w hok
    rw [hfind] at hsm hdm
    simp only [List.mem_cons, Option.some.injEq, List.mem_singleton, List.not_mem_nil,
      or_false] at hsm hdm
    have hs0 : s0 = src := by
      rcases hsm with h | h
      · exact h
      · subst h; exact absurd (hdid.symm.trans hs).symm hne
    have hd0 : d0 = dst := by
      rcases hdm with h | h
      · subst h; exact absurd (hsid.symm.trans hd) hne
      · exact h
    subst hs0 hd0
    rw [htr]; rfl
  exact ⟨hupdates, by rw [hmt]; exact hupdates⟩

theorem roles_independent_of_row_order_witness :
    (scenario.rowsInOrder.retrieveAccounts scenario.req.SourceAccountID
        scenario.req.DestinationAccountID scenario.store0).out
      = Outcome.ret (some scenario.acc111, some scenario.acc222, GoError.nil) ∧
    (scenario.rowsSwapped.retrieveAccounts scenario.req.SourceAccountID
        scenario.req.DestinationAccountID scenario.store0).out
      = Outcome.ret (some scenario.acc111, some scenario.acc222, GoError.nil) ∧
    updates (scenario.rowsSwapped.MakeTransaction scenario.req scenario.store0).trace
      = [{ scenario.acc111 with
            Balance := F64.sub scenario.acc111.Balance scenario.req.Amount },
         { scenario.acc222 with
            Balance := F64.add scenario.acc222.Balance scenario.req.Amount }] :=
  have h := roles_independent_of_row_order scenario.rowsInOrder scenario.rowsSwapped
    scenario.req scenario.store0 scenario.store0 scenario.acc111 scenario.acc222
    (by decide) rfl rfl rfl rfl rfl rfl rfl rfl (fun _ _ => ⟨rfl, rfl⟩)
  ⟨h.1, h.2.1, (h.2.2.2.2.2 (by decide!)).2⟩

/-- C22, the code at the failing input: `Error()` does not return a string for
the errors the usecase builds with `WithMessage` only (self-transfer,
insufficient balance, account not found, account already exists, accounts not
found for update): their `Err` is nil and the call panics with a nil
dereference. The error `MakeTransaction` returns for an insufficient balance is
one of them. -/
theorem app_error_text_panics_without_cause :
    (apperr.ErrInvalidInput.WithMessage
      "source and destination account IDs cannot be the same").Error
      = Outcome.panic nilDereference ∧
    (apperr.ErrInvalidInput.WithMessage "insufficient balance").Error
      = Outcome.panic nilDereference ∧
    (apperr.ErrNotFound.WithMessage "account not found").Error
      = Outcome.panic nilDereference ∧
    (apperr.ErrAlreadyExists.WithMessage "account ID already exists").Error
      = Outcome.panic nilDereference ∧
    (apperr.ErrInternalServer.WithMessage "accounts not found for update").Error
      = Outcome.panic nilDereference ∧
    (scenario.tested.MakeTransaction scenario.reqTooMuch scenario.store0).out
      = Outcome.ret (apperr.ErrInvalidInput.WithMessage "insufficient balance").toError ∧
    GoError.Error (apperr.ErrInvalidInput.WithMessage "insufficient balance").toError
      = Outcome.panic nilDereference := by
  decide!

/-- C23: the predefined errors are package variables holding pointers, and the
usecase calls `WithMessage` and `WithError` through them. Called through a
pointer `p` to an object `e`, `WithMessage(m)` returns an error whose `Message`
is `m` and whose `Status`, `Code` and `Err` are those of `e`, and
`WithError(err)` returns one whose `Err` is `err` and whose `Status`, `Code`
and `Message` are those of `e`; each leaves the package state as it was, so
`p` still points to `e`. For a usecase whose repositories and transaction
manager keep the package variables, every sequence of `Create`, `GetBalance`
and `MakeTransaction` calls, from any world state and whatever each call
returns, leaves the package variables and the objects they point to as they
were. Started from the initialised package, `ErrInvalidInput`, `ErrNotFound`,
`ErrAlreadyExists` and `ErrInternalServer` therefore still point to their
status and code with an empty `Message` and a nil `Err` after the sequence. -/
theorem predefined_errors_unchanged_by_usecase_calls
    (v : apperr.Vars) (p : Option Nat) (e : apperr.AppError) (m : String) (err : GoError)
    (hload : v.load p = Outcome.ret e)
    (uc : accountUsecase (σ × apperr.Vars)) (hkeeps : withVars.KeepsVars uc)
    (calls : List withVars.Request) (w : σ × apperr.Vars) :
    v.WithMessage p m
      = (Outcome.ret { Status := e.Status, Code := e.Code, Message := m, Err := e.Err }, v) ∧
    v.WithError p err
      = (Outcome.ret { Status := e.Status, Code := e.Code, Message := e.Message, Err := err },
          v) ∧
    (v.WithMessage p m).2.load p = Outcome.ret e ∧
    (v.WithError p err).2.load p = Outcome.ret e ∧
    (withVars.serveAll uc calls w).2 = w.2 ∧
    (w.2 = apperr.Vars.init →
      (withVars.serveAll uc calls w).2.load (withVars.serveAll uc calls w).2.ErrInvalidInput
        = Outcome.ret
            { Status := 400, Code := "INVALID_INPUT", Message := "", Err := GoError.nil } ∧
      (withVars.serveAll uc calls w).2.load (withVars.serveAll uc calls w).2.ErrNotFound
        = Outcome.ret
            { Status := 404, Code := "NOT_FOUND", Message := "", Err := GoError.nil } ∧
      (withVars.serveAll uc calls w).2.load (withVars.serveAll uc calls w).2.ErrAlreadyExists
        = Outcome.ret
            { Status := 409, Code := "ALREADY_EXISTS", Message := "", Err := GoError.nil } ∧
      (withVars.serveAll uc calls w).2.load (withVars.serveAll uc calls w).2.ErrInternalServer
        = Outcome.ret
            { Status := 500, Code := "INTERNAL_SERVER_ERROR", Message := "",
              Err := GoError.nil }) := by
  have hm : v.WithMessage p m
      = (Outcome.ret { Status := e.Status, Code := e.Code, Message := m, Err := e.Err }, v) := by
    simp only [apperr.Vars.WithMessage, hload, apperr.AppError.WithMessage]
  have he : v.WithError p err
      = (Outcome.ret { Status := e.Status, Code := e.Code, Message := e.Message, Err := err },
          v) := by
    simp only [apperr.Vars.WithError, hload, apperr.AppError.WithError]
  refine ⟨hm, he, ?_, ?_, withVars_serveAll_vars uc hkeeps calls w, ?_⟩
  · rw [hm]
    exact hload
  · rw [he]
    exact hload
  · intro hw
    rw [withVars_serveAll_vars uc hkeeps calls w, hw]
    exact ⟨by decide, by decide, by decide, by decide⟩

theorem predefined_errors_unchanged_by_usecase_calls_witness :
    apperr.Vars.init.WithMessage apperr.Vars.init.ErrInvalidInput "insufficient balance"
      = (Outcome.ret
          { Status := 400, Code := "INVALID_INPUT", Message := "insufficient balance",
            Err := GoError.nil },
         apperr.Vars.init) ∧
    (withVars.serveAll scenario.testedBesideVars scenario.session
        (scenario.store0, apperr.Vars.init)).2 = apperr.Vars.init ∧
    (withVars.serveAll scenario.testedBesideVars scenario.session
        (scenario.store0, apperr.Vars.init)).1.transactions.length = 1 :=
  have h := predefined_errors_unchanged_by_usecase_calls apperr.Vars.init
    apperr.Vars.init.ErrInvalidInput apperr.ErrInvalidInput "insufficient balance"
    (GoError.errorString "database error") (by decide)
    scenario.testedBesideVars
    (besideVars_KeepsVars (postgres.NewAccountRepository postgres.healthy)
      (postgres.NewTransactionRepository postgres.healthy) mock.NewMockTxManager
      (fun w => w.1.clock))
    scenario.session (scenario.store0, apperr.Vars.init)
  ⟨h.1, h.2.2.2.2.1, by decide!⟩

/-- C24, the code at the failing input: with a configuration file whose server
port is 0, the first call of `InitConfig` returns the error "invalid server
port: 0" but has already stored the configuration in `configInstance`; the
second call returns that stored configuration, whose `Server.Port` is 0,
together with a nil error. -/
theorem init_config_accepts_zero_port_on_second_call :
    config.calls scenario.names scenario.portlessWorld 2 none
      = [(none, GoError.errorString "invalid server port: 0"),
         (some { scenario.portless with Env := "local" }, GoError.nil)] ∧
    ({ scenario.portless with Env := "local" } : config.Config).Server.Port = 0 ∧
    (config.InitConfig scenario.names scenario.portlessWorld none).2
      = some { scenario.portless with Env := "local" } := by
  decide

/-- C25, the code at the failing input: for a request with an empty body the
binding fails, `CreateAccount` renders the error response and, on return, its
deferred function renders the 201 success response as well: two responses, the
second a success for a body that failed to bind. On the same body the
`MakeTransaction` handler renders the error response only. -/
theorem create_account_renders_twice_on_bind_failure :
    (scenario.decodeAccount scenario.postEmpty.Request).2 = GoError.errorString "EOF" ∧
    ((handler.NewAccountHandler scenario.wired.toAccountUC).CreateAccount
        scenario.decodeAccount scenario.postEmpty scenario.store0).ctx.Written
      = [gin.Response.mk 400 (gin.Body.appError
          { Status := 400, Code := "INVALID_INPUT", Message := "",
            Err := GoError.errorString "EOF" }),
         gin.Response.mk 201 gin.Body.null] ∧
    ((handler.NewAccountHandler scenario.wired.toAccountUC).CreateAccount
        scenario.decodeAccount scenario.postEmpty scenario.store0).trace = [] ∧
    ((handler.NewAccountHandler scenario.wired.toAccountUC).MakeTransaction
        scenario.decodeTransaction scenario.postEmpty scenario.store0).ctx.Written
      = [gin.Response.mk 400 (gin.Body.appError
          { Status := 400, Code := "INVALID_INPUT", Message := "Invalid request body",
            Err := GoError.errorString "EOF" })] := by
  decide!

end

end TransactionDemo
